import Mathlib

/-!
# eslint-plugin-n: the `no-deprecated-api` rule

A shallow embedding of `lib/rules/no-deprecated-api.js`: the replacement
resolver (`toReplaceMessage`), the canonical-name renderer (`toName`), option
parsing (`parseOptions`), the reporting step (`reportItem`) and the
`Program:exit` handler, followed by the properties proved about them. The
rules `prefer-global/text-decoder`, `no-new-require`,
`no-unsupported-features/node-builtins` and `no-extraneous-import` have sections
of their own.

JavaScript values are embedded as follows.
* strings are Lean strings; `Array.prototype.join` is `join`;
* `null`/`undefined`/absent properties are `Option`;
* a `Set<string>` is the list of its elements in insertion order (`JSSet`);
* `context.report` appends a descriptor to the list of reports, which is
  threaded through the handler as explicit state;
* the semver library and the reference tracker are collaborators: the
  first is a parameter (`Semver`), the second supplies the lists of
  references the handler iterates over.
-/

set_option autoImplicit false

namespace NoDeprecatedApi

/-! ## JavaScript primitives -/

/-- `Array.prototype.join` on an array of strings. -/
def join (sep : String) : List String → String
  | [] => ""
  | [x] => x
  | x :: y :: rest => x ++ sep ++ join sep (y :: rest)

/-- JavaScript truthiness of a string: every string but the empty one. -/
def truthy (s : String) : Bool := s != ""

/-- `String.prototype.startsWith`. -/
def startsWith (s pre : String) : Bool := pre.data.isPrefixOf s.data

/-- `String.prototype.slice(n)` for a non-negative `n`. -/
def slice (s : String) (n : Nat) : String := String.mk (s.data.drop n)

/-- A JavaScript `Set<string>`: its elements, without repetition, in insertion order. -/
structure JSSet where
  items : List String
deriving DecidableEq, Repr

/-- `Set.prototype.add`: a value already present is not added again. -/
def JSSet.add (s : JSSet) (x : String) : JSSet :=
  if x ∈ s.items then s else ⟨s.items ++ [x]⟩

/-- `new Set(iterable)`: the elements are added one by one. -/
def JSSet.ofArray (xs : List String) : JSSet :=
  xs.foldl JSSet.add ⟨[]⟩

/-- `Set.prototype.has`. -/
def JSSet.has (s : JSSet) (x : String) : Bool := decide (x ∈ s.items)

/-! ## Data model -/

/-- The operation kinds of the reference tracker: the symbols `READ`, `CALL`, `CONSTRUCT`. -/
inductive ReferenceType where
  | READ
  | CALL
  | CONSTRUCT
deriving DecidableEq, Repr

/-- One element of a `replacedBy` array: `{ name, supported }`. -/
structure Candidate where
  name : String
  supported : String
deriving DecidableEq, Repr

/-- The `replacedBy` field of a record: `null`, a free text, or an array of candidates. -/
inductive ReplacedBy where
  | null
  | text (s : String)
  | candidates (cs : List Candidate)
deriving DecidableEq, Repr

/-- A lifecycle record `DeprecatedInfo`: `{ since, replacedBy, removed? }`. -/
structure DeprecatedInfo where
  since : String
  replacedBy : ReplacedBy
  removed : Option String := none
deriving DecidableEq, Repr

/-- The semver collaborator as the rule uses it: the type of `semver.Range`
objects, `getSemverRange` (the range a string denotes, `null` when it does not
parse) and `Range.prototype.intersects`. -/
structure Semver where
  Range : Type
  getSemverRange : String → Option Range
  intersects : Range → Range → Bool

/-! ## The registry

The trace maps `rawModules`, `modules` and `globals`, in the order and with the
records of the source. -/

/-- A trace map: an object whose symbol keys (`[READ]`, `[CALL]`, `[CONSTRUCT]`)
carry lifecycle records and whose string keys carry nested trace maps. -/
inductive TraceMap where
  | node (infos : List (ReferenceType × DeprecatedInfo)) (children : List (String × TraceMap))

/-- The records under the symbol keys of a trace map. -/
def TraceMap.infos : TraceMap → List (ReferenceType × DeprecatedInfo)
  | .node infos _ => infos

/-- The entries under the string keys of a trace map. -/
def TraceMap.children : TraceMap → List (String × TraceMap)
  | .node _ children => children

/-- The property `m[key]` for a string key. -/
def TraceMap.get (m : TraceMap) (key : String) : Option TraceMap :=
  m.children.lookup key

/-- The property `m[type]` for a symbol key. -/
def TraceMap.info (m : TraceMap) (type : ReferenceType) : Option DeprecatedInfo :=
  m.infos.lookup type

/-- The trace map reached from `m` along a path of string keys. -/
def TraceMap.descend (m : TraceMap) : List String → Option TraceMap
  | [] => some m
  | key :: rest =>
    match m.get key with
    | some child => child.descend rest
    | none => none

/-- The record the registry holds for a path and an operation kind: the `info`
of a reference the tracker reports for that path and kind. -/
def TraceMap.lookup (m : TraceMap) (path : List String) (type : ReferenceType) :
    Option DeprecatedInfo :=
  match m.descend path with
  | some target => target.info type
  | none => none

/-- Assignment `entries[key] = value` on the string-keyed entries of an object:
an existing key keeps its place and takes the new value, a new key is appended. -/
def setEntry (entries : List (String × TraceMap)) (key : String) (value : TraceMap) :
    List (String × TraceMap) :=
  match entries with
  | [] => [(key, value)]
  | (k, v) :: rest => if k = key then (key, value) :: rest else (k, v) :: setEntry rest key value

/-- The registry of module exports, `rawModules`. -/
def rawModules : TraceMap :=
  .node [] [
    ("_linklist", .node [(.READ, { since := "5.0.0", replacedBy := .null })] []),
    ("_stream_wrap", .node [(.READ, { since := "12.0.0", replacedBy := .null })] []),
    ("async_hooks", .node [] [
      ("currentId", .node [(.READ, { since := "8.2.0", replacedBy := .candidates [
            { name := "'async_hooks.executionAsyncId()'", supported := "8.1.0" }] })] []),
      ("triggerId", .node [(.READ, { since := "8.2.0", replacedBy := .text "'async_hooks.triggerAsyncId()'" })] [])]),
    ("buffer", .node [] [
      ("Buffer", .node [(.CONSTRUCT, { since := "6.0.0", replacedBy := .candidates [
            { name := "'buffer.Buffer.alloc()'", supported := "5.10.0" },
            { name := "'buffer.Buffer.from()'", supported := "5.10.0" }] }),
         (.CALL, { since := "6.0.0", replacedBy := .candidates [
            { name := "'buffer.Buffer.alloc()'", supported := "5.10.0" },
            { name := "'buffer.Buffer.from()'", supported := "5.10.0" }] })] []),
      ("SlowBuffer", .node [(.READ, { since := "6.0.0", replacedBy := .candidates [
            { name := "'buffer.Buffer.allocUnsafeSlow()'", supported := "5.12.0" }] })] [])]),
    ("constants", .node [(.READ, { since := "6.3.0", replacedBy := .text "'constants' property of each module" })] []),
    ("crypto", .node [] [
      ("_toBuf", .node [(.READ, { since := "11.0.0", replacedBy := .null })] []),
      ("Credentials", .node [(.READ, { since := "0.12.0", replacedBy := .text "'tls.SecureContext'" })] []),
      ("DEFAULT_ENCODING", .node [(.READ, { since := "10.0.0", replacedBy := .null })] []),
      ("createCipher", .node [(.READ, { since := "10.0.0", replacedBy := .candidates [
            { name := "'crypto.createCipheriv()'", supported := "0.1.94" }] })] []),
      ("createCredentials", .node [(.READ, { since := "0.12.0", replacedBy := .candidates [
            { name := "'tls.createSecureContext()'", supported := "0.11.13" }] })] []),
      ("createDecipher", .node [(.READ, { since := "10.0.0", replacedBy := .candidates [
            { name := "'crypto.createDecipheriv()'", supported := "0.1.94" }] })] []),
      ("fips", .node [(.READ, { since := "10.0.0", replacedBy := .candidates [
            { name := "'crypto.getFips()' and 'crypto.setFips()'", supported := "10.0.0" }] })] []),
      ("prng", .node [(.READ, { since := "11.0.0", replacedBy := .candidates [
            { name := "'crypto.randomBytes()'", supported := "0.5.8" }] })] []),
      ("pseudoRandomBytes", .node [(.READ, { since := "11.0.0", replacedBy := .candidates [
            { name := "'crypto.randomBytes()'", supported := "0.5.8" }] })] []),
      ("rng", .node [(.READ, { since := "11.0.0", replacedBy := .candidates [
            { name := "'crypto.randomBytes()'", supported := "0.5.8" }] })] [])]),
    ("domain", .node [(.READ, { since := "4.0.0", replacedBy := .null })] []),
    ("events", .node [] [
      ("EventEmitter", .node [] [
        ("listenerCount", .node [(.READ, { since := "4.0.0", replacedBy := .candidates [
              { name := "'events.EventEmitter#listenerCount()'", supported := "3.2.0" }] })] [])]),
      ("listenerCount", .node [(.READ, { since := "4.0.0", replacedBy := .candidates [
            { name := "'events.EventEmitter#listenerCount()'", supported := "3.2.0" }] })] [])]),
    ("freelist", .node [(.READ, { since := "4.0.0", replacedBy := .null })] []),
    ("fs", .node [] [
      ("SyncWriteStream", .node [(.READ, { since := "4.0.0", replacedBy := .null })] []),
      ("exists", .node [(.READ, { since := "4.0.0", replacedBy := .candidates [
            { name := "'fs.stat()'", supported := "0.0.2" },
            { name := "'fs.access()'", supported := "0.11.15" }] })] []),
      ("lchmod", .node [(.READ, { since := "0.4.0", replacedBy := .null })] []),
      ("lchmodSync", .node [(.READ, { since := "0.4.0", replacedBy := .null })] [])]),
    ("http", .node [] [
      ("createClient", .node [(.READ, { since := "0.10.0", replacedBy := .candidates [
            { name := "'http.request()'", supported := "0.3.6" }] })] [])]),
    ("module", .node [] [
      ("Module", .node [] [
        ("createRequireFromPath", .node [(.READ, { since := "12.2.0", replacedBy := .candidates [
              { name := "'module.createRequire()'", supported := "12.2.0" }] })] []),
        ("requireRepl", .node [(.READ, { since := "6.0.0", replacedBy := .text "'require(\"repl\")'" })] []),
        ("_debug", .node [(.READ, { since := "9.0.0", replacedBy := .null })] [])]),
      ("createRequireFromPath", .node [(.READ, { since := "12.2.0", replacedBy := .candidates [
            { name := "'module.createRequire()'", supported := "12.2.0" }] })] []),
      ("requireRepl", .node [(.READ, { since := "6.0.0", replacedBy := .text "'require(\"repl\")'" })] []),
      ("_debug", .node [(.READ, { since := "9.0.0", replacedBy := .null })] [])]),
    ("net", .node [] [
      ("_setSimultaneousAccepts", .node [(.READ, { since := "12.0.0", replacedBy := .null })] [])]),
    ("os", .node [] [
      ("getNetworkInterfaces", .node [(.READ, { since := "0.6.0", replacedBy := .candidates [
            { name := "'os.networkInterfaces()'", supported := "0.6.0" }] })] []),
      ("tmpDir", .node [(.READ, { since := "7.0.0", replacedBy := .candidates [
            { name := "'os.tmpdir()'", supported := "0.9.9" }] })] [])]),
    ("path", .node [] [
      ("_makeLong", .node [(.READ, { since := "9.0.0", replacedBy := .candidates [
            { name := "'path.toNamespacedPath()'", supported := "9.0.0" }] })] [])]),
    ("process", .node [] [
      ("EventEmitter", .node [(.READ, { since := "0.6.0", replacedBy := .text "'require(\"events\")'" })] []),
      ("assert", .node [(.READ, { since := "10.0.0", replacedBy := .text "'require(\"assert\")'" })] []),
      ("binding", .node [(.READ, { since := "10.9.0", replacedBy := .null })] []),
      ("env", .node [] [
        ("NODE_REPL_HISTORY_FILE", .node [(.READ, { since := "4.0.0", replacedBy := .text "'NODE_REPL_HISTORY'" })] [])]),
      ("report", .node [] [
        ("triggerReport", .node [(.READ, { since := "11.12.0", replacedBy := .text "'process.report.writeReport()'" })] [])])]),
    ("punycode", .node [(.READ, { since := "7.0.0", replacedBy := .text "'https://www.npmjs.com/package/punycode'" })] []),
    ("readline", .node [] [
      ("codePointAt", .node [(.READ, { since := "4.0.0", replacedBy := .null })] []),
      ("getStringWidth", .node [(.READ, { since := "6.0.0", replacedBy := .null })] []),
      ("isFullWidthCodePoint", .node [(.READ, { since := "6.0.0", replacedBy := .null })] []),
      ("stripVTControlCharacters", .node [(.READ, { since := "6.0.0", replacedBy := .null })] [])]),
    ("repl", .node [] [
      ("REPLServer", .node [(.READ, { since := "22.9.0", replacedBy := .text "new repl.REPLServer()" })] []),
      ("Recoverable", .node [(.READ, { since := "22.9.0", replacedBy := .text "new repl.Recoverable()" })] []),
      ("REPL_MODE_MAGIC", .node [(.READ, { since := "8.0.0", replacedBy := .null })] [])]),
    ("safe-buffer", .node [] [
      ("Buffer", .node [(.CONSTRUCT, { since := "6.0.0", replacedBy := .candidates [
            { name := "'buffer.Buffer.alloc()'", supported := "5.10.0" },
            { name := "'buffer.Buffer.from()'", supported := "5.10.0" }] }),
         (.CALL, { since := "6.0.0", replacedBy := .candidates [
            { name := "'buffer.Buffer.alloc()'", supported := "5.10.0" },
            { name := "'buffer.Buffer.from()'", supported := "5.10.0" }] })] []),
      ("SlowBuffer", .node [(.READ, { since := "6.0.0", replacedBy := .candidates [
            { name := "'buffer.Buffer.allocUnsafeSlow()'", supported := "5.12.0" }] })] [])]),
    ("sys", .node [(.READ, { since := "0.3.0", replacedBy := .text "'util' module" })] []),
    ("timers", .node [] [
      ("enroll", .node [(.READ, { since := "10.0.0", replacedBy := .candidates [
            { name := "'setTimeout()'", supported := "0.0.1" },
            { name := "'setInterval()'", supported := "0.0.1" }] })] []),
      ("unenroll", .node [(.READ, { since := "10.0.0", replacedBy := .candidates [
            { name := "'clearTimeout()'", supported := "0.0.1" },
            { name := "'clearInterval()'", supported := "0.0.1" }] })] [])]),
    ("tls", .node [] [
      ("CleartextStream", .node [(.READ, { since := "0.10.0", replacedBy := .null })] []),
      ("CryptoStream", .node [(.READ, { since := "0.12.0", replacedBy := .candidates [
            { name := "'tls.TLSSocket'", supported := "0.11.4" }] })] []),
      ("SecurePair", .node [(.READ, { since := "6.0.0", replacedBy := .candidates [
            { name := "'tls.TLSSocket'", supported := "0.11.4" }] })] []),
      ("convertNPNProtocols", .node [(.READ, { since := "10.0.0", replacedBy := .null })] []),
      ("createSecurePair", .node [(.READ, { since := "6.0.0", replacedBy := .candidates [
            { name := "'tls.TLSSocket'", supported := "0.11.4" }] })] []),
      ("parseCertString", .node [(.READ, { since := "8.6.0", replacedBy := .candidates [
            { name := "'querystring.parse()'", supported := "0.1.25" }] })] [])]),
    ("tty", .node [] [
      ("setRawMode", .node [(.READ, { since := "0.10.0", replacedBy := .text "'tty.ReadStream#setRawMode()' (e.g. 'process.stdin.setRawMode()')" })] [])]),
    ("url", .node [] [
      ("parse", .node [(.READ, { since := "11.0.0", replacedBy := .candidates [
            { name := "'url.URL' constructor", supported := "6.13.0" }] })] []),
      ("resolve", .node [(.READ, { since := "11.0.0", replacedBy := .candidates [
            { name := "'url.URL' constructor", supported := "6.13.0" }] })] [])]),
    ("util", .node [] [
      ("debug", .node [(.READ, { since := "0.12.0", replacedBy := .candidates [
            { name := "'console.error()'", supported := "0.1.100" }] })] []),
      ("error", .node [(.READ, { since := "0.12.0", replacedBy := .candidates [
            { name := "'console.error()'", supported := "0.1.100" }] })] []),
      ("isArray", .node [(.READ, { since := "4.0.0", replacedBy := .candidates [
            { name := "'Array.isArray()'", supported := "0.1.100" }] })] []),
      ("isBoolean", .node [(.READ, { since := "4.0.0", replacedBy := .null })] []),
      ("isBuffer", .node [(.READ, { since := "4.0.0", replacedBy := .candidates [
            { name := "'Buffer.isBuffer()'", supported := "0.1.101" }] })] []),
      ("isDate", .node [(.READ, { since := "4.0.0", replacedBy := .null })] []),
      ("isError", .node [(.READ, { since := "4.0.0", replacedBy := .null })] []),
      ("isFunction", .node [(.READ, { since := "4.0.0", replacedBy := .null })] []),
      ("isNull", .node [(.READ, { since := "4.0.0", replacedBy := .null })] []),
      ("isNullOrUndefined", .node [(.READ, { since := "4.0.0", replacedBy := .null })] []),
      ("isNumber", .node [(.READ, { since := "4.0.0", replacedBy := .null })] []),
      ("isObject", .node [(.READ, { since := "4.0.0", replacedBy := .null })] []),
      ("isPrimitive", .node [(.READ, { since := "4.0.0", replacedBy := .null })] []),
      ("isRegExp", .node [(.READ, { since := "4.0.0", replacedBy := .null })] []),
      ("isString", .node [(.READ, { since := "4.0.0", replacedBy := .null })] []),
      ("isSymbol", .node [(.READ, { since := "4.0.0", replacedBy := .null })] []),
      ("isUndefined", .node [(.READ, { since := "4.0.0", replacedBy := .null })] []),
      ("log", .node [(.READ, { since := "6.0.0", replacedBy := .text "a third party module" })] []),
      ("print", .node [(.READ, { since := "0.12.0", replacedBy := .candidates [
            { name := "'console.log()'", supported := "0.1.100" }] })] []),
      ("pump", .node [(.READ, { since := "0.10.0", replacedBy := .candidates [
            { name := "'stream.Readable#pipe()'", supported := "0.9.4" }] })] []),
      ("puts", .node [(.READ, { since := "0.12.0", replacedBy := .candidates [
            { name := "'console.log()'", supported := "0.1.100" }] })] []),
      ("_extend", .node [(.READ, { since := "6.0.0", replacedBy := .candidates [
            { name := "'Object.assign()'", supported := "4.0.0" }] })] [])]),
    ("vm", .node [] [
      ("runInDebugContext", .node [(.READ, { since := "8.0.0", replacedBy := .null })] [])]),
    ("zlib", .node [] [
      ("BrotliCompress", .node [(.CALL, { since := "22.9.0", replacedBy := .text "new zlib.BrotliCompress()" })] []),
      ("BrotliDecompress", .node [(.CALL, { since := "22.9.0", replacedBy := .text "new zlib.BrotliDecompress()" })] []),
      ("Deflate", .node [(.CALL, { since := "22.9.0", replacedBy := .text "new zlib.Deflate()" })] []),
      ("DeflateRaw", .node [(.CALL, { since := "22.9.0", replacedBy := .text "new zlib.DeflateRaw()" })] []),
      ("Gunzip", .node [(.CALL, { since := "22.9.0", replacedBy := .text "new zlib.Gunzip()" })] []),
      ("Gzip", .node [(.CALL, { since := "22.9.0", replacedBy := .text "new zlib.Gzip()" })] []),
      ("Inflate", .node [(.CALL, { since := "22.9.0", replacedBy := .text "new zlib.Inflate()" })] []),
      ("InflateRaw", .node [(.CALL, { since := "22.9.0", replacedBy := .text "new zlib.InflateRaw()" })] []),
      ("Unzip", .node [(.CALL, { since := "22.9.0", replacedBy := .text "new zlib.Unzip()" })] [])])]

/-- Modelled from the spec: `lib/util/extend-trackmap-with-node-prefix.js` is not
among the sources. The spec has the optional module-name scheme prefix
normalised by deriving extra trie entries at load time, so that a module name
with the prefix and without it reach the same node: the result has the entries
of `modules` and, for each of them, an entry under the name prefixed with
`node:` carrying the same trace map. -/
def extendTrackmapWithNodePrefix (modules : TraceMap) : TraceMap :=
  .node modules.infos
    (modules.children.foldl (fun entries kv => setEntry entries ("node:" ++ kv.1) kv.2)
      modules.children)

/-- The registry the module references are tracked with, `modules`. -/
def modules : TraceMap := extendTrackmapWithNodePrefix rawModules

/-- The registry of global bindings, `globals`. -/
def globals : TraceMap :=
  .node [] [
    ("Buffer", .node [(.CONSTRUCT, { since := "6.0.0", replacedBy := .candidates [
          { name := "'Buffer.alloc()'", supported := "5.10.0" },
          { name := "'Buffer.from()'", supported := "5.10.0" }] }),
       (.CALL, { since := "6.0.0", replacedBy := .candidates [
          { name := "'Buffer.alloc()'", supported := "5.10.0" },
          { name := "'Buffer.from()'", supported := "5.10.0" }] })] []),
    ("COUNTER_NET_SERVER_CONNECTION", .node [(.READ, { since := "11.0.0", replacedBy := .null })] []),
    ("COUNTER_NET_SERVER_CONNECTION_CLOSE", .node [(.READ, { since := "11.0.0", replacedBy := .null })] []),
    ("COUNTER_HTTP_SERVER_REQUEST", .node [(.READ, { since := "11.0.0", replacedBy := .null })] []),
    ("COUNTER_HTTP_SERVER_RESPONSE", .node [(.READ, { since := "11.0.0", replacedBy := .null })] []),
    ("COUNTER_HTTP_CLIENT_REQUEST", .node [(.READ, { since := "11.0.0", replacedBy := .null })] []),
    ("COUNTER_HTTP_CLIENT_RESPONSE", .node [(.READ, { since := "11.0.0", replacedBy := .null })] []),
    ("GLOBAL", .node [(.READ, { since := "6.0.0", replacedBy := .candidates [
          { name := "'global'", supported := "0.1.27" }] })] []),
    ("Intl", .node [] [
      ("v8BreakIterator", .node [(.READ, { since := "7.0.0", replacedBy := .null, removed := some "9.0.0" })] [])]),
    ("require", .node [] [
      ("extensions", .node [(.READ, { since := "0.12.0", replacedBy := .text "compiling them ahead of time" })] [])]),
    ("root", .node [(.READ, { since := "6.0.0", replacedBy := .candidates [
          { name := "'global'", supported := "0.1.27" }] })] []),
    ("process", (modules.get "process").getD (.node [] []))]

/-! ## `toReplaceMessage` and `toName` -/

/-- The callback of `replacedBy.filter(...)` in `toReplaceMessage`: the range
`<supported` must parse, and the configured range must not intersect it. -/
def supportedFilter (sv : Semver) (version : sv.Range) (c : Candidate) : Bool :=
  match sv.getSemverRange ("<" ++ c.supported) with
  | none => false
  | some range => !sv.intersects version range

/-- `toReplaceMessage(replacedBy, version)`. The local `message` is `replacedBy`
itself, or for an array the names of the candidates the filter keeps, joined by
`" or "`; the result tests its truthiness (`null` is falsy). -/
def toReplaceMessage (sv : Semver) (replacedBy : ReplacedBy) (version : sv.Range) : String :=
  let message : Option String :=
    match replacedBy with
    | .candidates cs =>
      some (join " or " (List.map Candidate.name (List.filter (supportedFilter sv version) cs)))
    | .text s => some s
    | .null => none
  match message with
  | some m => if truthy m then ". Use " ++ m ++ " instead" else ""
  | none => ""

/-- Modelled from the spec: `lib/util/unprefix-node-colon.js` is not among the
sources. The spec has a leading scheme prefix, if present, stripped; the scheme
prefix of a module name is `node:`. -/
def unprefixNodeColon (name : String) : String :=
  if startsWith name "node:" then slice name 5 else name

/-- `toName(type, path)`. -/
def toName (type : ReferenceType) (path : List String) : String :=
  let baseName := unprefixNodeColon (join "." path)
  if type = ReferenceType.CALL then baseName ++ "()"
  else if type = ReferenceType.CONSTRUCT then "new " ++ baseName ++ "()"
  else baseName

/-! ## Reports -/

/-- The `data` object of a report: `{ name, version, removed, replace }`. -/
structure ReportData where
  name : String
  version : String
  removed : String
  replace : String
deriving DecidableEq, Repr

/-- The argument of `context.report`: `{ node, messageId, data }`. A node is
identified by a number. -/
structure Descriptor where
  node : Nat
  messageId : String
  data : ReportData
deriving DecidableEq, Repr

/-- `meta.messages`: the template of each message id. -/
def messages (messageId : String) : Option String :=
  if messageId = "deprecated" then
    some "\x7b\x7bname\x7d\x7d was deprecated since v\x7b\x7bversion\x7d\x7d\x7b\x7breplace\x7d\x7d."
  else if messageId = "removed" then
    some "\x7b\x7bname\x7d\x7d was deprecated since v\x7b\x7bversion\x7d\x7d, and removed in v\x7b\x7bremoved\x7d\x7d."
  else none

/-- Property lookup `data[key]` on a report's data object. -/
def ReportData.get (d : ReportData) (key : String) : Option String :=
  if key = "name" then some d.name
  else if key = "version" then some d.version
  else if key = "removed" then some d.removed
  else if key = "replace" then some d.replace
  else none

/-- The options object `context.options[0]`, as far as the rule reads it. -/
structure RawOptions where
  ignoreModuleItems : Option (List String) := none
  ignoreGlobalItems : Option (List String) := none
deriving DecidableEq, Repr

/-- The frozen `ParsedOptions`: `{ version, ignoredGlobalItems, ignoredModuleItems }`. -/
structure ParsedOptions (sv : Semver) where
  version : sv.Range
  ignoredGlobalItems : JSSet
  ignoredModuleItems : JSSet

/-- `parseOptions(context)`. `raw` is `context.options[0]`; `configured` is the
range `getConfiguredNodeVersion(context)` returns. -/
def parseOptions (sv : Semver) (raw : Option RawOptions) (configured : sv.Range) :
    ParsedOptions sv :=
  let raw := raw.getD {}
  let version := configured
  let ignoredModuleItems := JSSet.ofArray (raw.ignoreModuleItems.getD [])
  let ignoredGlobalItems := JSSet.ofArray (raw.ignoreGlobalItems.getD [])
  { version := version, ignoredGlobalItems := ignoredGlobalItems,
    ignoredModuleItems := ignoredModuleItems }

/-- One element the reference tracker yields: `{ node, path, type, info }`. -/
structure TrackedReference where
  node : Nat
  path : List String
  type : ReferenceType
  info : DeprecatedInfo
deriving DecidableEq, Repr

/-- The descriptor `reportItem(node, name, info)` builds: the message id and
the data object. `version` is the parsed option `reportItem` closes over. -/
def itemDescriptor (sv : Semver) (version : sv.Range) (node : Nat) (name : String)
    (info : DeprecatedInfo) : Descriptor :=
  let messageId := if truthy (info.removed.getD "") then "removed" else "deprecated"
  let data : ReportData :=
    { name := name
      version := info.since
      removed := if truthy (info.removed.getD "") then info.removed.getD "" else ""
      replace := toReplaceMessage sv info.replacedBy version }
  { node := node, messageId := messageId, data := data }

/-- `reportItem(node, name, info)` inside `create`: the descriptor is passed to
`context.report`, which adds it to `reports`, the reports made so far. -/
def reportItem (sv : Semver) (version : sv.Range) (reports : List Descriptor)
    (node : Nat) (name : String) (info : DeprecatedInfo) : List Descriptor :=
  reports ++ [itemDescriptor sv version node name info]

/-- The body of the first loop of `Program:exit`, over the global references. -/
def globalStep (sv : Semver) (opts : ParsedOptions sv) (reports : List Descriptor)
    (report : TrackedReference) : List Descriptor :=
  let name := toName report.type report.path
  if !opts.ignoredGlobalItems.has name then
    reportItem sv opts.version reports report.node ("'" ++ name ++ "'") report.info
  else reports

/-- The body of the second loop of `Program:exit`, over the module references. -/
def moduleStep (sv : Semver) (opts : ParsedOptions sv) (reports : List Descriptor)
    (report : TrackedReference) : List Descriptor :=
  let name := toName report.type report.path
  let suffix := if report.path.length = 1 then " module" else ""
  if !opts.ignoredModuleItems.has name then
    reportItem sv opts.version reports report.node ("'" ++ name ++ "'" ++ suffix) report.info
  else reports

/-- The `Program:exit` handler. The three lists are what
`tracker.iterateGlobalReferences(globals)`, `tracker.iterateCjsReferences(modules)`
and `tracker.iterateEsmReferences(modules)` yield; the result is the sequence of
reports made. -/
def programExit (sv : Semver) (opts : ParsedOptions sv)
    (globalRefs cjsRefs esmRefs : List TrackedReference) : List Descriptor :=
  let reports := globalRefs.foldl (globalStep sv opts) []
  (cjsRefs ++ esmRefs).foldl (moduleStep sv opts) reports

/-- The rule on one file: `create(context)` parses the options, then the
`Program:exit` handler runs over the tracked references. -/
def create (sv : Semver) (raw : Option RawOptions) (configured : sv.Range)
    (globalRefs cjsRefs esmRefs : List TrackedReference) : List Descriptor :=
  programExit sv (parseOptions sv raw configured) globalRefs cjsRefs esmRefs

/-- The finding of a global reference: the descriptor the first loop reports
for it when its name is not ignored. -/
def globalFinding (sv : Semver) (version : sv.Range) (r : TrackedReference) : Descriptor :=
  itemDescriptor sv version r.node ("'" ++ toName r.type r.path ++ "'") r.info

/-- The finding of a module reference: the descriptor the second loop reports
for it when its name is not ignored. -/
def moduleFinding (sv : Semver) (version : sv.Range) (r : TrackedReference) : Descriptor :=
  itemDescriptor sv version r.node
    ("'" ++ toName r.type r.path ++ "'" ++ if r.path.length = 1 then " module" else "")
    r.info

/-! ## Uses of registry entries

References as the tracker yields them for uses of entries of `globals` and
`modules`: the path and kind of the entry and the record the registry holds
for them. -/

/-- A use `new Buffer()` of the global `Buffer` at `node`. -/
def newBuffer (node : Nat) : TrackedReference :=
  { node := node, path := ["Buffer"], type := .CONSTRUCT,
    info := { since := "6.0.0", replacedBy := .candidates [
      { name := "'Buffer.alloc()'", supported := "5.10.0" },
      { name := "'Buffer.from()'", supported := "5.10.0" }] } }

/-- A read of the global `Intl.v8BreakIterator` at `node`. -/
def readV8BreakIterator (node : Nat) : TrackedReference :=
  { node := node, path := ["Intl", "v8BreakIterator"], type := .READ,
    info := { since := "7.0.0", replacedBy := .null, removed := some "9.0.0" } }

/-- A read of `process.binding` at `node`, through the global `process` or
through the module `process`. -/
def readProcessBinding (node : Nat) : TrackedReference :=
  { node := node, path := ["process", "binding"], type := .READ,
    info := { since := "10.9.0", replacedBy := .null } }

/-- A read of the module `domain` at `node`. -/
def readDomain (node : Nat) : TrackedReference :=
  { node := node, path := ["domain"], type := .READ,
    info := { since := "4.0.0", replacedBy := .null } }

/-! ## Rendering a report

The host renders a report by substituting the data into the template of its
message id. -/

/-- `String.prototype.trim` on a list of characters. -/
def trim (cs : List Char) : List Char :=
  ((cs.dropWhile Char.isWhitespace).reverse.dropWhile Char.isWhitespace).reverse

/-- Where a left-to-right scan for the placeholder pattern
`\x7b\x7b([^\x7b\x7d]+?)\x7d\x7d` stands: outside a placeholder, after one opening
brace, inside a placeholder with the term read so far, or after the term and one
closing brace. -/
inductive ScanState where
  | outside
  | brace
  | key (acc : List Char)
  | close (acc : List Char)

/-- The host's `text.replace(placeholder, ...)`: every placeholder whose trimmed
term is a key of `data` is replaced by the value, every other character is kept. -/
def interpolateFrom (data : String → Option String) : ScanState → List Char → List Char
  | .outside, [] => []
  | .outside, c :: rest =>
    if c = '\x7b' then interpolateFrom data .brace rest
    else c :: interpolateFrom data .outside rest
  | .brace, [] => ['\x7b']
  | .brace, c :: rest =>
    if c = '\x7b' then interpolateFrom data (.key []) rest
    else '\x7b' :: c :: interpolateFrom data .outside rest
  | .key acc, [] => '\x7b' :: '\x7b' :: acc
  | .key acc, c :: rest =>
    if c = '\x7d' then
      if acc = [] then '\x7b' :: '\x7b' :: '\x7d' :: interpolateFrom data .outside rest
      else interpolateFrom data (.close acc) rest
    else if c = '\x7b' then
      if acc = [] then '\x7b' :: interpolateFrom data (.key []) rest
      else '\x7b' :: '\x7b' :: acc ++ interpolateFrom data .brace rest
    else interpolateFrom data (.key (acc ++ [c])) rest
  | .close acc, [] => '\x7b' :: '\x7b' :: acc ++ ['\x7d']
  | .close acc, c :: rest =>
    if c = '\x7d' then
      match data (String.mk (trim acc)) with
      | some value => value.data ++ interpolateFrom data .outside rest
      | none => '\x7b' :: '\x7b' :: acc ++ '\x7d' :: '\x7d' :: interpolateFrom data .outside rest
    else if c = '\x7b' then '\x7b' :: '\x7b' :: acc ++ '\x7d' :: interpolateFrom data .brace rest
    else '\x7b' :: '\x7b' :: acc ++ '\x7d' :: c :: interpolateFrom data .outside rest

/-- The host's `interpolate(text, data)`. -/
def interpolate (text : String) (data : String → Option String) : String :=
  String.mk (interpolateFrom data .outside text.data)

/-- The text the host shows for a report: the template of its message id with
the report's data substituted. -/
def render (d : Descriptor) : Option String :=
  (messages d.messageId).map fun text => interpolate text d.data.get

/-! ## A concrete version range service

Versions are triples `major.minor.patch`; a range is a union of half-open
intervals of versions. -/

/-- A version `major.minor.patch`. -/
structure Version where
  major : Nat
  minor : Nat
  patch : Nat
deriving DecidableEq, Repr

/-- Semver precedence: `a` comes strictly before `b`. -/
def Version.lt (a b : Version) : Bool :=
  a.major < b.major ||
    (a.major == b.major && (a.minor < b.minor || (a.minor == b.minor && a.patch < b.patch)))

/-- Semver precedence: `a` comes before `b` or is `b`. -/
def Version.le (a b : Version) : Bool := !b.lt a

/-- The version that follows `v` immediately. -/
def Version.next (v : Version) : Version := { v with patch := v.patch + 1 }

/-- A set of comparators in normal form: the versions `v` with `lo ≤ v`, and
`v < hi` when there is an upper bound. -/
structure Interval where
  lo : Version
  hi : Option Version
deriving DecidableEq, Repr

/-- A version range: the union of its intervals. -/
abbrev VersionRange := List Interval

/-- Whether `v` lies in the interval. -/
def Interval.test (i : Interval) (v : Version) : Bool :=
  i.lo.le v && (match i.hi with
    | none => true
    | some h => v.lt h)

/-- Whether `v` satisfies the range (`Range.prototype.test`). -/
def VersionRange.test (r : VersionRange) (v : Version) : Bool :=
  r.any fun i => i.test v

/-- Whether two intervals share a version: the larger lower bound lies below
both upper bounds. -/
def Interval.intersects (i j : Interval) : Bool :=
  let lo := if i.lo.lt j.lo then j.lo else i.lo
  (match i.hi with
    | none => true
    | some h => lo.lt h) &&
  (match j.hi with
    | none => true
    | some h => lo.lt h)

/-- Whether two ranges share a version (`Range.prototype.intersects`). -/
def VersionRange.intersects (a b : VersionRange) : Bool :=
  a.any fun i => b.any fun j => i.intersects j

/-- The number a string of decimal digits denotes, continuing from `acc`. -/
def digitsToNat : List Char → Nat → Option Nat
  | [], acc => some acc
  | c :: cs, acc => if c.isDigit then digitsToNat cs (acc * 10 + (c.toNat - 48)) else none

/-- A non-empty string of decimal digits as a number. -/
def parseNumber (cs : List Char) : Option Nat :=
  match cs with
  | [] => none
  | _ :: _ => digitsToNat cs 0

/-- The pieces of `cs` between the occurrences of `sep`. -/
def splitAt (sep : Char) : List Char → List (List Char)
  | [] => [[]]
  | c :: cs =>
    if c = sep then [] :: splitAt sep cs
    else match splitAt sep cs with
      | [] => [[c]]
      | piece :: pieces => (c :: piece) :: pieces

/-- A full version `major.minor.patch`. -/
def parseVersion (cs : List Char) : Option Version :=
  match splitAt '.' cs with
  | [a, b, c] =>
    match parseNumber a, parseNumber b, parseNumber c with
    | some major, some minor, some patch => some ⟨major, minor, patch⟩
    | _, _, _ => none
  | _ => none

/-- The versions below `v`. -/
def VersionRange.below (v : Version) : VersionRange := [⟨⟨0, 0, 0⟩, some v⟩]

/-- The versions from `v` on. -/
def VersionRange.atLeast (v : Version) : VersionRange := [⟨v, none⟩]

/-- The single version `v`. -/
def VersionRange.exact (v : Version) : VersionRange := [⟨v, some v.next⟩]

/-- The versions compatible with `v` in the caret sense: the leftmost non-zero
component is kept. -/
def VersionRange.caret (v : Version) : VersionRange :=
  if v.major ≠ 0 then [⟨v, some ⟨v.major + 1, 0, 0⟩⟩]
  else if v.minor ≠ 0 then [⟨v, some ⟨0, v.minor + 1, 0⟩⟩]
  else [⟨v, some v.next⟩]

/-- The versions compatible with `v` in the tilde sense: major and minor are kept. -/
def VersionRange.tilde (v : Version) : VersionRange := [⟨v, some ⟨v.major, v.minor + 1, 0⟩⟩]

/-- Modelled from the spec: `lib/util/get-semver-range.js` and the semver
library it wraps are not among the sources. A spec is an exact version or one
comparator (`<`, `<=`, `>`, `>=`, `=`, caret, tilde) applied to a version; a
string of any other shape is not parsed. An exact version denotes that single
version. -/
def parseRange (cs : List Char) : Option VersionRange :=
  match cs with
  | '<' :: '=' :: rest => (parseVersion rest).map fun v => VersionRange.below v.next
  | '<' :: rest => (parseVersion rest).map VersionRange.below
  | '>' :: '=' :: rest => (parseVersion rest).map VersionRange.atLeast
  | '>' :: rest => (parseVersion rest).map fun v => VersionRange.atLeast v.next
  | '=' :: rest => (parseVersion rest).map VersionRange.exact
  | '^' :: rest => (parseVersion rest).map VersionRange.caret
  | '~' :: rest => (parseVersion rest).map VersionRange.tilde
  | _ => (parseVersion cs).map VersionRange.exact

/-- Modelled from the spec: the Version Range Service of the spec (`parse` and
`intersects`), standing for the semver library and `getSemverRange`, neither of
which is among the sources. -/
@[reducible]
def semver : Semver where
  Range := VersionRange
  getSemverRange := fun s => parseRange s.data
  intersects := VersionRange.intersects

/-! ## The records of a registry -/

mutual
/-- Every lifecycle record of a trace map, at any depth, with the path of
string keys that leads to it and the symbol key it stands under. -/
def TraceMap.records : TraceMap → List (List String × ReferenceType × DeprecatedInfo)
  | .node infos children =>
    infos.map (fun entry => ([], entry.1, entry.2)) ++ recordsOfEntries children
/-- The records of the trace maps under the string keys of an object, each path
starting with its key. -/
def recordsOfEntries :
    List (String × TraceMap) → List (List String × ReferenceType × DeprecatedInfo)
  | [] => []
  | (key, child) :: rest =>
    child.records.map (fun r => (key :: r.1, r.2.1, r.2.2)) ++ recordsOfEntries rest
end

/-- Semver precedence on version strings (`semver.lt`): both strings are
versions and the first comes strictly before the second. -/
def versionBefore (a b : String) : Bool :=
  match parseVersion a.data, parseVersion b.data with
  | some x, some y => x.lt y
  | _, _ => false


/-! ## The options schema -/

/-- The schema of an array option in `meta.schema`: `{ type: "array", items: { enum },
additionalItems: false, uniqueItems }`. -/
structure ArraySchema where
  enum : List String
  uniqueItems : Bool
deriving DecidableEq, Repr

/-- Modelled from the spec: `lib/util/enumerate-property-names.js` is not among
the sources. The spec has the ignore lists hold canonical dotted names,
validated against the known entries of the registry: the names enumerated for a
trace map are the canonical names of its records, each rendered for its path
and operation kind. -/
def enumeratePropertyNames (m : TraceMap) : List String :=
  m.records.map fun r => toName r.2.1 r.1

/-- The schema of `ignoreModuleItems` in `meta.schema`. -/
def ignoreModuleItemsSchema : ArraySchema :=
  { enum := enumeratePropertyNames rawModules, uniqueItems := true }

/-- The schema of `ignoreGlobalItems` in `meta.schema`. -/
def ignoreGlobalItemsSchema : ArraySchema :=
  { enum := enumeratePropertyNames globals, uniqueItems := true }

/-- The host's validation of an array of strings against such a schema: every
item is one of the enumerated values, and no item is repeated when the schema
asks for unique items. -/
def ArraySchema.validates (s : ArraySchema) (items : List String) : Bool :=
  items.all (fun x => decide (x ∈ s.enum)) && (!s.uniqueItems || decide items.Nodup)

/-- The host's validation of the options object of the rule against
`meta.schema`, as far as the ignore lists go; an option that is absent is not
validated. A rejected object is a configuration error. -/
def schemaAccepts (raw : RawOptions) : Bool :=
  (match raw.ignoreModuleItems with
    | some items => ignoreModuleItemsSchema.validates items
    | none => true) &&
  (match raw.ignoreGlobalItems with
    | some items => ignoreGlobalItemsSchema.validates items
    | none => true)

end NoDeprecatedApi

/-! # `prefer-global/text-decoder` -/

namespace PreferGlobalTextDecoder

open NoDeprecatedApi (ReferenceType)

/-- A trace map of the rule: an object whose symbol keys carry `true` and whose
string keys carry nested trace maps. -/
inductive TraceMap where
  | node (kinds : List (ReferenceType × Bool)) (children : List (String × TraceMap))

/-- The entries under the string keys of a trace map. -/
def TraceMap.children : TraceMap → List (String × TraceMap)
  | .node _ children => children

/-- The entries under the symbol keys of a trace map. -/
def TraceMap.kinds : TraceMap → List (ReferenceType × Bool)
  | .node kinds _ => kinds

/-- The property `m[key]` for a string key. -/
def TraceMap.get (m : TraceMap) (key : String) : Option TraceMap :=
  m.children.lookup key

/-- The property `traceMap.globals`. -/
def traceMapGlobals : TraceMap :=
  .node [] [("TextDecoder", .node [(.READ, true)] [])]

/-- The property `traceMap.modules`. -/
def traceMapModules : TraceMap :=
  .node [] [
    ("util", .node [] [("TextDecoder", .node [(.READ, true)] [])]),
    ("node:util", .node [] [("TextDecoder", .node [(.READ, true)] [])])]

end PreferGlobalTextDecoder

/-! # `no-new-require` -/

namespace NoNewRequire

/-- The callee of a `NewExpression`, as far as the rule reads it: its `type` and,
for an identifier, its `name`. -/
structure Callee where
  type : String
  name : Option String := none
deriving DecidableEq, Repr

/-- A `NewExpression` node; `id` identifies the node. -/
structure NewExpression where
  id : Nat
  callee : Callee
deriving DecidableEq, Repr

/-- The argument of `context.report`: `{ node, messageId }`. -/
structure Descriptor where
  node : Nat
  messageId : String
deriving DecidableEq, Repr

/-- `meta.messages`. -/
def messages (messageId : String) : Option String :=
  if messageId = "noNewRequire" then some "Unexpected use of new with require." else none

/-- The `NewExpression(node)` visitor of `create`; `reports` are the reports made so far. -/
def newExpression (reports : List Descriptor) (node : NewExpression) : List Descriptor :=
  if node.callee.type = "Identifier" && node.callee.name = some "require" then
    reports ++ [{ node := node.id, messageId := "noNewRequire" }]
  else reports

/-- The rule on the `NewExpression` nodes of a file, which the host visits one
by one in source order. -/
def run (nodes : List NewExpression) : List Descriptor :=
  nodes.foldl newExpression []

end NoNewRequire

/-! # `no-unsupported-features/node-builtins`

The rule module and its registry are not among the sources; its tests are. The
decision engine is modelled from the spec, and the test cases the properties
refer to are embedded with the references their code resolves to. -/

namespace NodeBuiltins

open NoDeprecatedApi (Version Interval VersionRange parseVersion parseRange join
  unprefixNodeColon)

/-- The versions of the interval `i` that are not in the interval `j`: those
below `j` and those from the upper bound of `j` on. -/
def subtractInterval (i j : Interval) : List Interval :=
  { lo := i.lo,
    hi := some (match i.hi with
      | none => j.lo
      | some h => if h.lt j.lo then h else j.lo) } ::
  (match j.hi with
    | none => []
    | some d => [{ lo := if i.lo.lt d then d else i.lo, hi := i.hi }])

/-- The versions of the range `r` that are not in the interval `j`. -/
def subtractRange (r : VersionRange) (j : Interval) : VersionRange :=
  r.flatMap fun i => subtractInterval i j

/-- The versions of the range `r` that are not in the range `s`. -/
def rangeMinus (r s : VersionRange) : VersionRange :=
  s.foldl subtractRange r

/-- Modelled from the spec: the registry of the rule is not among the sources.
A version boundary of a lifecycle record (`introducedAt` or `experimentalUntil`): the primary version at which the API
arrived on the main line, and every backport range on which it is available
too, in the order of declaration. -/
structure Boundary where
  primary : String
  backports : List String := []
deriving DecidableEq, Repr

/-- Modelled from the spec: the registry of the rule is not among the sources.
The lifecycle record of a tracked API: its stable introduction and its
experimental boundary, each optional. -/
structure SupportInfo where
  supported : Option Boundary := none
  experimental : Option Boundary := none
deriving DecidableEq, Repr

/-- Modelled from the spec: the engine of the rule is not among the sources.
The composite text of a boundary: the primary version, annotated with every backport range when there is one, as in
`10.0.0 (backported: ^8.13.0)`; the tests have several backports listed in one
parenthesis, separated by `, `. -/
def Boundary.text (b : Boundary) : String :=
  match b.backports with
  | [] => b.primary
  | _ :: _ => b.primary ++ " (backported: " ++ join ", " b.backports ++ ")"

/-- The ranges a list of range texts denotes, when each of them parses. -/
def parseRanges : List String → Option (List VersionRange)
  | [] => some []
  | s :: rest =>
    match parseRange s.data, parseRanges rest with
    | some r, some rs => some (r :: rs)
    | _, _ => none

/-- Modelled from the spec: the engine of the rule is not among the sources.
The versions before a boundary: those below the primary version that lie on
none of the backport ranges. -/
def Boundary.before (b : Boundary) : Option VersionRange :=
  match parseVersion b.primary.data, parseRanges b.backports with
  | some p, some rs => some (rangeMinus (VersionRange.below p) rs.flatten)
  | _, _ => none

/-- Modelled from the spec: the engine of the rule is not among the sources.
Whether the target range could include a version before the boundary; a range that straddles the boundary does. A boundary that
does not parse is never reached. -/
def couldBeBefore (target : VersionRange) (b : Boundary) : Bool :=
  match b.before with
  | some early => VersionRange.intersects target early
  | none => true

/-- The options of the rule: `{ version, ignores, allowExperimental }`. -/
structure Options where
  version : String
  ignores : List String := []
  allowExperimental : Bool := false
deriving DecidableEq, Repr

/-- One resolved reference: `{ node, path, info }`. -/
structure Reference where
  node : Nat
  path : List String
  info : SupportInfo
deriving DecidableEq, Repr

/-- The `data` object of a report: `name` and `version`, and `supported` or
`experimental` for the message ids that take them. -/
structure ReportData where
  name : String
  supported : Option String := none
  experimental : Option String := none
  version : String
deriving DecidableEq, Repr

/-- A report: `{ node, messageId, data }`. -/
structure Descriptor where
  node : Nat
  messageId : String
  data : ReportData
deriving DecidableEq, Repr

/-- Modelled from the spec: the rule module
`lib/rules/no-unsupported-features/node-builtins.js` and the engine it calls are
not among the sources. The decision for one reference (§4.2, after the ignore
filter of §4.4): the name is the canonical name of the path. With
`allowExperimental` and an experimental boundary the experimental window
applies: the finding is `not-experimental-till` when the target range could
include a version before that boundary. Otherwise the finding is
`not-supported-till` when the target range could include a version before the
stable introduction; for a record with no stable introduction the tests have
the finding `not-supported-yet`. -/
def checkReference (target : VersionRange) (options : Options) (ref : Reference) :
    Option Descriptor :=
  let name := unprefixNodeColon (join "." ref.path)
  if name ∈ options.ignores then none
  else
    match (if options.allowExperimental then ref.info.experimental else none) with
    | some boundary =>
      if couldBeBefore target boundary then
        some { node := ref.node, messageId := "not-experimental-till",
               data := { name := name, experimental := some boundary.text,
                         version := options.version } }
      else none
    | none =>
      match ref.info.supported with
      | some boundary =>
        if couldBeBefore target boundary then
          some { node := ref.node, messageId := "not-supported-till",
                 data := { name := name, supported := some boundary.text,
                           version := options.version } }
        else none
      | none =>
        some { node := ref.node, messageId := "not-supported-yet",
               data := { name := name, version := options.version } }

/-- Modelled from the spec: the rule module
`lib/rules/no-unsupported-features/node-builtins.js` and the engine it calls are
not among the sources. The rule on the references of one file: the configured
version is parsed first; a version that does not parse is a
configuration error (`none`), raised before any finding. The findings follow
the order of the references. -/
def checkUnsupportedBuiltins (options : Options) (references : List Reference) :
    Option (List Descriptor) :=
  match parseRange options.version.data with
  | none => none
  | some target => some (references.filterMap (checkReference target options))

/-! ## Test cases -/

/-- An error a test case expects: `{ messageId, data }`. -/
structure ExpectedError where
  messageId : String
  data : ReportData
deriving DecidableEq, Repr

/-- A test case of `tests/lib/rules/no-unsupported-features/node-builtins.js`:
its `code`, its `options` and the `errors` it expects (none for a valid case),
with the references the code resolves to. The records of the references are
those the expected errors of the tests show. -/
structure TestCase where
  code : String
  options : Options
  references : List Reference
  errors : List ExpectedError := []
deriving DecidableEq, Repr

/-- Whether the rule, run on the references of the test case with its options,
reports the expected errors and no other, in order. -/
def TestCase.passes (t : TestCase) : Bool :=
  (checkUnsupportedBuiltins t.options t.references).map
      (fun reports => reports.map fun d => ({ messageId := d.messageId, data := d.data } :
        ExpectedError)) ==
    some t.errors

/-- The record of `assert.deepStrictEqual`: supported since 1.2.0. -/
def assertDeepStrictEqual : SupportInfo := { supported := some { primary := "1.2.0" } }

/-- The record of the module `http2`: supported since 10.10.0, backported to `^8.13.0`. -/
def http2 : SupportInfo :=
  { supported := some { primary := "10.10.0", backports := ["^8.13.0"] } }

/-- The record of `module.builtinModules`: supported since 9.3.0, backported to
`^8.10.0` and `^6.13.0`. -/
def moduleBuiltinModules : SupportInfo :=
  { supported := some { primary := "9.3.0", backports := ["^8.10.0", "^6.13.0"] } }

/-- The record of the global `Buffer.alloc`: supported since 5.10.0, backported to `^4.5.0`. -/
def bufferAlloc : SupportInfo :=
  { supported := some { primary := "5.10.0", backports := ["^4.5.0"] } }

/-- The record of the global `fetch`: experimental since 17.5.0, backported to
`^16.15.0`, and supported since 21.0.0. -/
def fetch : SupportInfo :=
  { supported := some { primary := "21.0.0" },
    experimental := some { primary := "17.5.0", backports := ["^16.15.0"] } }

/-- The record of `import.meta.resolve`: experimental since 13.9.0, backported to
`^12.16.2`, and supported since 20.6.0, backported to `^18.19.0`. -/
def importMetaResolve : SupportInfo :=
  { supported := some { primary := "20.6.0", backports := ["^18.19.0"] },
    experimental := some { primary := "13.9.0", backports := ["^12.16.2"] } }

/-- The record of `assert.strict`: supported since 9.9.0, backported to `^8.13.0`. -/
def assertStrict : SupportInfo :=
  { supported := some { primary := "9.9.0", backports := ["^8.13.0"] } }

/-- The record of `assert.strict.rejects`: supported since 10.0.0. -/
def assertStrictRejects : SupportInfo := { supported := some { primary := "10.0.0" } }

/-- Invalid case, lines 272 to 285: `require('assert').deepStrictEqual()` for 1.1.0. -/
def testDeepStrictEqualInvalid : TestCase :=
  { code := "require('assert').deepStrictEqual()"
    options := { version := "1.1.0" }
    references := [⟨1, ["assert", "deepStrictEqual"], assertDeepStrictEqual⟩]
    errors := [{ messageId := "not-supported-till",
                 data := { name := "assert.deepStrictEqual", supported := some "1.2.0",
                           version := "1.1.0" } }] }

/-- Valid case, lines 91 to 94: `require('assert').deepStrictEqual()` for 4.0.0. -/
def testDeepStrictEqualValid : TestCase :=
  { code := "require('assert').deepStrictEqual()"
    options := { version := "4.0.0" }
    references := [⟨1, ["assert", "deepStrictEqual"], assertDeepStrictEqual⟩] }

/-- Invalid case, lines 3035 to 3048: `require('http2')` for 8.3.9. -/
def testHttp2Invalid : TestCase :=
  { code := "require('http2')"
    options := { version := "8.3.9" }
    references := [⟨1, ["http2"], http2⟩]
    errors := [{ messageId := "not-supported-till",
                 data := { name := "http2", supported := some "10.10.0 (backported: ^8.13.0)",
                           version := "8.3.9" } }] }

/-- Invalid case, lines 3212 to 3226: `require('module').builtinModules` for 9.2.9. -/
def testBuiltinModulesInvalid : TestCase :=
  { code := "require('module').builtinModules"
    options := { version := "9.2.9" }
    references := [⟨1, ["module", "builtinModules"], moduleBuiltinModules⟩]
    errors := [{ messageId := "not-supported-till",
                 data := { name := "module.builtinModules",
                           supported := some "9.3.0 (backported: ^8.10.0, ^6.13.0)",
                           version := "9.2.9" } }] }

/-- Valid case, lines 703 to 706: `Buffer.alloc` for 4.5.0. -/
def testBufferAllocValid : TestCase :=
  { code := "Buffer.alloc"
    options := { version := "4.5.0" }
    references := [⟨1, ["Buffer", "alloc"], bufferAlloc⟩] }

/-- Invalid case, lines 870 to 883: `Buffer.alloc` for 4.4.9. -/
def testBufferAllocInvalid : TestCase :=
  { code := "Buffer.alloc"
    options := { version := "4.4.9" }
    references := [⟨1, ["Buffer", "alloc"], bufferAlloc⟩]
    errors := [{ messageId := "not-supported-till",
                 data := { name := "Buffer.alloc", supported := some "5.10.0 (backported: ^4.5.0)",
                           version := "4.4.9" } }] }

/-- Valid case, lines 5593 to 5596: `fetch('/asd')` for 16.16.0 with `allowExperimental`. -/
def testFetchExperimentalValid : TestCase :=
  { code := "fetch('/asd')"
    options := { version := "16.16.0", allowExperimental := true }
    references := [⟨1, ["fetch"], fetch⟩] }

/-- Invalid case, lines 5599 to 5612: `fetch('/asd')` for 16.0.0 with `allowExperimental`. -/
def testFetchExperimentalInvalid : TestCase :=
  { code := "fetch('/asd')"
    options := { version := "16.0.0", allowExperimental := true }
    references := [⟨1, ["fetch"], fetch⟩]
    errors := [{ messageId := "not-experimental-till",
                 data := { name := "fetch",
                           experimental := some "17.5.0 (backported: ^16.15.0)",
                           version := "16.0.0" } }] }

/-- Invalid case, lines 5613 to 5626: `fetch('/asd')` for 16.16.0 without `allowExperimental`. -/
def testFetchStableInvalid : TestCase :=
  { code := "fetch('/asd')"
    options := { version := "16.16.0", allowExperimental := false }
    references := [⟨1, ["fetch"], fetch⟩]
    errors := [{ messageId := "not-supported-till",
                 data := { name := "fetch", supported := some "21.0.0", version := "16.16.0" } }] }

/-- Invalid cases, lines 5527 to 5547: `import.meta.resolve(specifier)` with
`allowExperimental`, for the version given (13.8.0 and 12.15.0 in the tests). -/
def testImportMetaResolveInvalid (version : String) : TestCase :=
  { code := "import.meta.resolve(specifier)"
    options := { version := version, allowExperimental := true }
    references := [⟨1, ["import", "meta", "resolve"], importMetaResolve⟩]
    errors := [{ messageId := "not-experimental-till",
                 data := { name := "import.meta.resolve",
                           experimental := some "13.9.0 (backported: ^12.16.2)",
                           version := version } }] }

/-- Valid cases, lines 5470 and 5471: `import.meta.resolve(specifier)` with
`allowExperimental`, for the version given (13.9.0 and 12.16.2 in the tests). -/
def testImportMetaResolveValid (version : String) : TestCase :=
  { code := "import.meta.resolve(specifier)"
    options := { version := version, allowExperimental := true }
    references := [⟨1, ["import", "meta", "resolve"], importMetaResolve⟩] }

/-- Valid case, lines 257 to 265: `require('node:assert').match()` for 15.0.0 with
`assert.match` ignored; `info` is the record of `assert.match`, which no test shows. -/
def testNodeAssertMatchIgnored (info : SupportInfo) : TestCase :=
  { code := "require('node:assert').match()"
    options := { version := "15.0.0", ignores := ["assert.match"] }
    references := [⟨1, ["node:assert", "match"], info⟩] }

/-- Valid case, lines 227 to 235: `assert.strict` and `assert.strict.rejects` for
9.8.9, both ignored. -/
def testStrictRejectsIgnored : TestCase :=
  { code := "var \x7bstrict: assert\x7d = require('assert'); assert.rejects()"
    options := { version := "9.8.9", ignores := ["assert.strict", "assert.strict.rejects"] }
    references := [⟨1, ["assert", "strict"], assertStrict⟩,
                   ⟨2, ["assert", "strict", "rejects"], assertStrictRejects⟩] }

/-- Invalid case, lines 426 to 447: `assert.strict` and `assert.strict.rejects` for 9.8.9. -/
def testStrictRejectsInvalid : TestCase :=
  { code := "var \x7bstrict: assert\x7d = require('assert'); assert.rejects()"
    options := { version := "9.8.9" }
    references := [⟨1, ["assert", "strict"], assertStrict⟩,
                   ⟨2, ["assert", "strict", "rejects"], assertStrictRejects⟩]
    errors := [{ messageId := "not-supported-till",
                 data := { name := "assert.strict",
                           supported := some "9.9.0 (backported: ^8.13.0)", version := "9.8.9" } },
               { messageId := "not-supported-till",
                 data := { name := "assert.strict.rejects", supported := some "10.0.0",
                           version := "9.8.9" } }] }

/-- The record of the module `trace_events`: the tests show no stable introduction
of it; `experimental` is its experimental boundary, which no test shows. -/
def traceEvents (experimental : Option Boundary) : SupportInfo :=
  { supported := none, experimental := experimental }

/-- The record of `assert.CallTracker`: the tests show no stable introduction of
it; `experimental` is its experimental boundary, which no test shows. -/
def assertCallTracker (experimental : Option Boundary) : SupportInfo :=
  { supported := none, experimental := experimental }

/-- The record of the module `node:assert`: supported since 14.13.1, backported to
`^12.20.0`. -/
def nodeAssert : SupportInfo :=
  { supported := some { primary := "14.13.1", backports := ["^12.20.0"] } }

/-- Invalid case, lines 4177 to 4189: `require('trace_events')` for 9.9.9. -/
def testTraceEventsInvalid (experimental : Option Boundary) : TestCase :=
  { code := "require('trace_events')"
    options := { version := "9.9.9" }
    references := [⟨1, ["trace_events"], traceEvents experimental⟩]
    errors := [{ messageId := "not-supported-yet",
                 data := { name := "trace_events", version := "9.9.9" } }] }

/-- Invalid case, lines 448 to 460: `new CallTracker()` of `assert` for 14.2.0. -/
def testCallTrackerInvalid (experimental : Option Boundary) : TestCase :=
  { code := "const \x7b CallTracker \x7d = require('assert'); new CallTracker();"
    options := { version := "14.2.0" }
    references := [⟨1, ["assert", "CallTracker"], assertCallTracker experimental⟩]
    errors := [{ messageId := "not-supported-yet",
                 data := { name := "assert.CallTracker", version := "14.2.0" } }] }

/-- Invalid case, lines 474 to 487: `require('node:assert').deepStrictEqual()` for
3.9.9. The one error expected is that of the module itself. -/
def testNodeAssertInvalid : TestCase :=
  { code := "require('node:assert').deepStrictEqual()"
    options := { version := "3.9.9" }
    references := [⟨1, ["node:assert"], nodeAssert⟩,
                   ⟨2, ["node:assert", "deepStrictEqual"], assertDeepStrictEqual⟩]
    errors := [{ messageId := "not-supported-till",
                 data := { name := "assert",
                           supported := some "14.13.1 (backported: ^12.20.0)",
                           version := "3.9.9" } }] }

/-- Valid case, lines 249 to 252: `assert.deepStrictEqual()` of `node:assert` for 12.20.0. -/
def testNodeAssertValid : TestCase :=
  { code := "const assert = require('node:assert'); assert.deepStrictEqual()"
    options := { version := "12.20.0" }
    references := [⟨1, ["node:assert"], nodeAssert⟩,
                   ⟨2, ["node:assert", "deepStrictEqual"], assertDeepStrictEqual⟩] }

end NodeBuiltins

/-! # `no-extraneous-import` -/

namespace NoExtraneousImport

/-- The rule context, as far as `create` reads it: the property `filename`,
`none` when it is `undefined` or `null`, and the method `getFilename`. -/
structure Context where
  filename : Option String
  getFilename : Unit → String

/-- A rule listener, the object `create` returns: its selectors with their
handlers, in the order of its keys. The empty object has none. -/
abbrev RuleListener (Handler : Type) := List (String × Handler)

/-- The local `filePath` of `create`: `context.filename ?? context.getFilename()`. -/
def filePath (context : Context) : String :=
  match context.filename with
  | some filename => filename
  | none => context.getFilename ()

/-- `create(context)`. `visitImport` and `checkExtraneous` stand for
`lib/util/visit-import.js` and `lib/util/check-extraneous.js`, which are not
among the sources; the options object passed to `visitImport` is the empty
object, written `()`. -/
def create {Handler Targets Effect : Type}
    (visitImport : Context → Unit → (Targets → Effect) → RuleListener Handler)
    (checkExtraneous : Context → String → Targets → Effect)
    (context : Context) : RuleListener Handler :=
  let filePath := filePath context
  if filePath = "<input>" then []
  else visitImport context () (fun targets => checkExtraneous context filePath targets)

/-- The host's traversal with a listener: for each node it visits, given with
the selector it matches, the handlers the listener has under that selector are
called in turn; a handler takes the node and the reports made so far and gives
the reports made after it. -/
def traverse {Report : Type} (listener : RuleListener (Nat → List Report → List Report))
    (visited : List (String × Nat)) : List Report :=
  visited.foldl
    (fun reports event =>
      (listener.filter fun entry => entry.1 = event.1).foldl
        (fun reports entry => entry.2 event.2 reports) reports)
    []

end NoExtraneousImport

/-! # Properties -/

namespace NoDeprecatedApi

/-! ## Strings and sets -/

theorem length_pos_of_append_sep (a b : String) : 0 < (a ++ " or " ++ b).length := by
  simp [String.length_append]
  have : (" or " : String).length = 4 := by decide
  omega

theorem join_eq_empty_iff (names : List String) :
    join " or " names = "" ↔ names = [] ∨ names = [""] := by
  match names with
  | [] => simp [join]
  | [x] => simp [join]
  | x :: y :: rest =>
    simp only [join, reduceCtorEq, List.cons.injEq, and_false, or_self, iff_false]
    intro h
    have h1 := length_pos_of_append_sep x (join " or " (y :: rest))
    rw [h] at h1
    simp at h1

theorem JSSet.mem_foldl_add (xs : List String) (s : JSSet) (x : String) :
    x ∈ (xs.foldl JSSet.add s).items ↔ x ∈ s.items ∨ x ∈ xs := by
  induction xs generalizing s with
  | nil => simp
  | cons y ys ih =>
    rw [List.foldl_cons, ih]
    unfold JSSet.add
    by_cases hy : y ∈ s.items
    · simp only [hy, if_true, List.mem_cons]
      constructor
      · rintro (h | h)
        · exact Or.inl h
        · exact Or.inr (Or.inr h)
      · rintro (h | h | h)
        · exact Or.inl h
        · exact Or.inl (h ▸ hy)
        · exact Or.inr h
    · simp only [hy, if_false, List.mem_append, List.mem_singleton, List.mem_cons]
      tauto

theorem JSSet.has_ofArray (xs : List String) (x : String) :
    (JSSet.ofArray xs).has x = decide (x ∈ xs) := by
  unfold JSSet.has JSSet.ofArray
  congr 1
  simp [JSSet.mem_foldl_add]

/-! ## The version range service -/

theorem Version.lt_iff (a b : Version) :
    a.lt b = true ↔
      a.major < b.major ∨ (a.major = b.major ∧ (a.minor < b.minor ∨
        (a.minor = b.minor ∧ a.patch < b.patch))) := by
  simp [Version.lt]

theorem Version.le_iff (a b : Version) :
    a.le b = true ↔ ¬ (b.lt a = true) := by
  simp [Version.le]

theorem Version.lt_of_le_of_lt {a b c : Version} (hab : a.le b = true) (hbc : b.lt c = true) :
    a.lt c = true := by
  rw [Version.le_iff, Version.lt_iff] at hab
  rw [Version.lt_iff] at hbc ⊢
  omega

theorem Version.not_lt_zero (a : Version) : a.lt ⟨0, 0, 0⟩ = false := by
  simp [Version.lt]

theorem Version.le_refl (a : Version) : a.le a = true := by
  rw [Version.le_iff, Version.lt_iff]
  omega

theorem Version.le_of_lt {a b : Version} (h : a.lt b = true) : a.le b = true := by
  rw [Version.le_iff, Version.lt_iff]
  rw [Version.lt_iff] at h
  omega

theorem Interval.test_iff (i : Interval) (v : Version) :
    i.test v = true ↔ i.lo.le v = true ∧ ∀ h, i.hi = some h → v.lt h = true := by
  unfold Interval.test
  cases i.hi <;> simp

theorem Interval.intersects_def (i j : Interval) :
    i.intersects j = true ↔
      (∀ h, i.hi = some h → (if i.lo.lt j.lo then j.lo else i.lo).lt h = true) ∧
      (∀ h, j.hi = some h → (if i.lo.lt j.lo then j.lo else i.lo).lt h = true) := by
  unfold Interval.intersects
  cases i.hi <;> cases j.hi <;> simp

/-- Two intervals intersect exactly when some version lies in both. -/
theorem Interval.intersects_iff_test (i j : Interval) :
    i.intersects j = true ↔ ∃ v, i.test v = true ∧ j.test v = true := by
  rw [Interval.intersects_def]
  constructor
  · rintro ⟨h1, h2⟩
    refine ⟨if i.lo.lt j.lo then j.lo else i.lo, ?_, ?_⟩
    · rw [Interval.test_iff]
      refine ⟨?_, h1⟩
      by_cases hl : i.lo.lt j.lo = true
      · simp only [hl, if_true]; exact Version.le_of_lt hl
      · simp only [hl, if_false]; exact Version.le_refl _
    · rw [Interval.test_iff]
      refine ⟨?_, h2⟩
      by_cases hl : i.lo.lt j.lo = true
      · simp only [hl, if_true]; exact Version.le_refl _
      · simp only [hl, if_false]
        rw [Version.le_iff]; exact hl
  · rintro ⟨v, hi, hj⟩
    rw [Interval.test_iff] at hi hj
    have hlo : (if i.lo.lt j.lo then j.lo else i.lo).le v = true := by
      by_cases hl : i.lo.lt j.lo = true
      · simp only [hl, if_true]; exact hj.1
      · simp only [hl, if_false]; exact hi.1
    exact ⟨fun h hh => Version.lt_of_le_of_lt hlo (hi.2 h hh),
      fun h hh => Version.lt_of_le_of_lt hlo (hj.2 h hh)⟩

/-- Two ranges intersect exactly when some version satisfies both. -/
theorem VersionRange.intersects_iff (a b : VersionRange) :
    VersionRange.intersects a b = true ↔ ∃ v, a.test v = true ∧ b.test v = true := by
  simp only [VersionRange.intersects, VersionRange.test, List.any_eq_true,
    Interval.intersects_iff_test]
  constructor
  · rintro ⟨i, hi, j, hj, v, h1, h2⟩
    exact ⟨v, ⟨i, hi, h1⟩, ⟨j, hj, h2⟩⟩
  · rintro ⟨v, ⟨i, hi, h1⟩, ⟨j, hj, h2⟩⟩
    exact ⟨i, hi, j, hj, v, h1, h2⟩

theorem VersionRange.test_below (sup v : Version) :
    (VersionRange.below sup).test v = true ↔ v.lt sup = true := by
  simp [VersionRange.below, VersionRange.test, Interval.test, Version.le, Version.not_lt_zero]

theorem digitsToNat_cons_of_not_digit (c : Char) (cs : List Char) (acc : Nat)
    (h : c.isDigit = false) : digitsToNat (c :: cs) acc = none := by
  simp [digitsToNat, h]

theorem splitAt_cons_of_ne (sep c : Char) (cs : List Char) (h : c ≠ sep) :
    ∃ piece pieces, splitAt sep (c :: cs) = (c :: piece) :: pieces := by
  simp only [splitAt, h, if_false]
  cases hg : splitAt sep cs with
  | nil => exact ⟨[], [], rfl⟩
  | cons p ps => exact ⟨p, ps, rfl⟩

/-- A string that starts with a character that is neither a digit nor a dot is no version. -/
theorem parseVersion_cons_of_not_digit (c : Char) (cs : List Char)
    (hd : c.isDigit = false) (hdot : c ≠ '.') : parseVersion (c :: cs) = none := by
  unfold parseVersion
  obtain ⟨piece, pieces, hs⟩ := splitAt_cons_of_ne '.' c cs hdot
  rw [hs]
  match pieces with
  | [] => rfl
  | [_] => rfl
  | [b, d] =>
    simp only [parseNumber, digitsToNat_cons_of_not_digit c _ 0 hd]
  | _ :: _ :: _ :: _ => rfl

theorem parseRange_lt_cons (c : Char) (cs : List Char) (hc : c ≠ '=') :
    parseRange ('<' :: c :: cs) = (parseVersion (c :: cs)).map VersionRange.below := by
  unfold parseRange
  split
  case h_1 heq =>
    simp only [List.cons.injEq, true_and] at heq
    exact absurd heq.1 hc
  case h_2 heq =>
    simp only [List.cons.injEq, true_and] at heq
    rw [← heq]
  case h_8 hne _ _ _ _ _ => exact absurd rfl (hne _)
  all_goals (rename_i heq; simp at heq)

/-- The range `<supported` of a candidate whose `supported` is a version. -/
theorem getSemverRange_below (supported : String) (sup : Version)
    (h : parseVersion supported.data = some sup) :
    semver.getSemverRange ("<" ++ supported) = some (VersionRange.below sup) := by
  have hdata : ("<" ++ supported).data = '<' :: supported.data := by
    simp [String.data_append]
  show parseRange ("<" ++ supported).data = _
  rw [hdata]
  cases hs : supported.data with
  | nil => rw [hs] at h; simp [parseVersion, splitAt, parseNumber] at h
  | cons c cs =>
    rw [hs] at h
    by_cases hc : c = '='
    · subst hc
      rw [parseVersion_cons_of_not_digit '=' cs (by decide) (by decide)] at h
      exact absurd h (by simp)
    · rw [parseRange_lt_cons c cs hc, h]
      rfl

/-! ## The replacement resolver -/

theorem supportedFilter_iff (sv : Semver) (version : sv.Range) (c : Candidate) :
    supportedFilter sv version c = true ↔
      ∃ range, sv.getSemverRange ("<" ++ c.supported) = some range ∧
        sv.intersects version range = false := by
  unfold supportedFilter
  cases h : sv.getSemverRange ("<" ++ c.supported) with
  | none => simp
  | some range => simp

theorem toReplaceMessage_candidates (sv : Semver) (cs : List Candidate) (version : sv.Range) :
    toReplaceMessage sv (.candidates cs) version =
      if join " or " ((cs.filter (supportedFilter sv version)).map Candidate.name) = "" then ""
      else ". Use " ++ join " or " ((cs.filter (supportedFilter sv version)).map Candidate.name)
        ++ " instead" := by
  simp only [toReplaceMessage, truthy]
  by_cases h : join " or " ((cs.filter (supportedFilter sv version)).map Candidate.name) = ""
  · simp [h]
  · simp [h]

theorem data_infix_join (sep : String) (names : List String) (n : String) (h : n ∈ names) :
    n.data <:+: (join sep names).data := by
  match names, h with
  | [x], h =>
    simp only [List.mem_singleton] at h
    subst h
    exact List.infix_refl _
  | x :: y :: rest, h =>
    simp only [join, String.data_append]
    rcases List.mem_cons.1 h with h | h
    · subst h
      exact ⟨[], sep.data ++ (join sep (y :: rest)).data, by simp⟩
    · obtain ⟨s, t, hst⟩ := data_infix_join sep (y :: rest) n h
      exact ⟨x.data ++ sep.data ++ s, t, by simp [← hst]⟩

/-- The name of a candidate the filter keeps is a part of the result. -/
theorem name_infix_toReplaceMessage (sv : Semver) (cs : List Candidate) (version : sv.Range)
    (c : Candidate) (h : c ∈ cs.filter (supportedFilter sv version)) :
    c.name.data <:+: (toReplaceMessage sv (.candidates cs) version).data := by
  rw [toReplaceMessage_candidates]
  have hn : c.name ∈ (cs.filter (supportedFilter sv version)).map Candidate.name :=
    List.mem_map_of_mem _ h
  have hj := data_infix_join " or " _ _ hn
  split
  · rename_i he
    rw [he] at hj
    exact hj
  · obtain ⟨s, t, hst⟩ := hj
    exact ⟨". Use ".data ++ s, t ++ " instead".data, by simp [String.data_append, ← hst]⟩

/-- C1, as stated, fails: of the candidates `Buffer`, supported since 99.0.0, and
`Buffer.from()`, supported since 5.10.0, the target 6.0.0 intersects the range
`<99.0.0`, so the first is omitted, and the result is
`. Use Buffer.from() instead`, in which the name `Buffer` appears. -/
theorem toReplaceMessage_dropped_name_counterexample :
    semver.getSemverRange "6.0.0" = some (VersionRange.exact ⟨6, 0, 0⟩) ∧
    toReplaceMessage semver (.candidates [⟨"Buffer", "99.0.0"⟩, ⟨"Buffer.from()", "5.10.0"⟩])
        (VersionRange.exact ⟨6, 0, 0⟩) = ". Use Buffer.from() instead" ∧
    "Buffer".data <:+: ". Use Buffer.from() instead".data ∧
    semver.getSemverRange ("<" ++ "99.0.0") = some (VersionRange.below ⟨99, 0, 0⟩) ∧
    semver.intersects (VersionRange.exact ⟨6, 0, 0⟩) (VersionRange.below ⟨99, 0, 0⟩) = true ∧
    [(⟨"Buffer", "99.0.0"⟩ : Candidate), ⟨"Buffer.from()", "5.10.0"⟩].filter
        (supportedFilter semver (VersionRange.exact ⟨6, 0, 0⟩)) =
      [⟨"Buffer.from()", "5.10.0"⟩] := by
  decide

/-- For every candidate list of the registry and every choice of candidates to
keep, the name of a candidate of the list appears in the clause built from the
kept ones exactly when the candidate is kept. -/
theorem records_names_separate :
    (rawModules.records ++ globals.records).all (fun r =>
      match r.2.2.replacedBy with
      | .candidates cs =>
        cs.sublists.all (fun kept =>
          cs.all (fun c =>
            decide (c.name.data <:+:
                (if join " or " (kept.map Candidate.name) = "" then ""
                 else ". Use " ++ join " or " (kept.map Candidate.name) ++ " instead").data ↔
              c ∈ kept)))
      | _ => true) = true := by
  decide

/-- C1, amended. For every list of replacement candidates and every target
range, the result of `toReplaceMessage` is built from the names of the
candidates its filter keeps, and a candidate is kept if and only if the range
`<supported` of that candidate exists and the target range does not intersect
it; the name of every kept candidate appears in the result. With the concrete
range service, a candidate is kept if and only if the target range contains no
version below the candidate's supported version. For the candidate lists of the
registry, `rawModules` and `globals`, the name of a candidate appears in the
result if and only if the range `<supported` of that candidate exists and the
target range does not intersect it. -/
theorem toReplaceMessage_candidate_kept_iff :
    (∀ (sv : Semver) (cs : List Candidate) (version : sv.Range),
      toReplaceMessage sv (.candidates cs) version =
        (if join " or " ((cs.filter (supportedFilter sv version)).map Candidate.name) = "" then ""
         else ". Use " ++
           join " or " ((cs.filter (supportedFilter sv version)).map Candidate.name) ++
           " instead") ∧
      (∀ c : Candidate, c ∈ cs.filter (supportedFilter sv version) ↔
        c ∈ cs ∧ ∃ range, sv.getSemverRange ("<" ++ c.supported) = some range ∧
          sv.intersects version range = false) ∧
      (∀ c : Candidate, c ∈ cs.filter (supportedFilter sv version) →
        c.name.data <:+: (toReplaceMessage sv (.candidates cs) version).data)) ∧
    (∀ (cs : List Candidate) (target : VersionRange) (c : Candidate) (sup : Version),
      parseVersion c.supported.data = some sup →
        (c ∈ cs.filter (supportedFilter semver target) ↔
          c ∈ cs ∧ ∀ v : Version, target.test v = true → v.lt sup = false)) ∧
    (∀ (sv : Semver) (version : sv.Range) (path : List String) (type : ReferenceType)
        (info : DeprecatedInfo) (cs : List Candidate),
      (path, type, info) ∈ rawModules.records ++ globals.records →
      info.replacedBy = .candidates cs →
        ∀ c ∈ cs,
          (c.name.data <:+: (toReplaceMessage sv info.replacedBy version).data ↔
            ∃ range, sv.getSemverRange ("<" ++ c.supported) = some range ∧
              sv.intersects version range = false)) := by
  refine ⟨fun sv cs version => ⟨toReplaceMessage_candidates sv cs version, fun c => ?_,
    name_infix_toReplaceMessage sv cs version⟩, ?_, ?_⟩
  · rw [List.mem_filter, supportedFilter_iff]
  · intro cs target c sup hsup
    rw [List.mem_filter, supportedFilter_iff, getSemverRange_below c.supported sup hsup]
    have hiff : (∃ range, some (VersionRange.below sup) = some range ∧
        semver.intersects target range = false) ↔
        ∀ v : Version, target.test v = true → v.lt sup = false := by
      constructor
      · rintro ⟨range, hr, hi⟩ v hv
        cases hr
        cases hlt : v.lt sup with
        | false => rfl
        | true =>
          have : VersionRange.intersects target (VersionRange.below sup) = true :=
            (VersionRange.intersects_iff _ _).2 ⟨v, hv, (VersionRange.test_below sup v).2 hlt⟩
          change VersionRange.intersects target (VersionRange.below sup) = false at hi
          rw [this] at hi
          exact absurd hi (by simp)
      · intro h
        refine ⟨_, rfl, ?_⟩
        change VersionRange.intersects target (VersionRange.below sup) = false
        cases hi : VersionRange.intersects target (VersionRange.below sup) with
        | false => rfl
        | true =>
          obtain ⟨v, hv, hb⟩ := (VersionRange.intersects_iff _ _).1 hi
          rw [VersionRange.test_below] at hb
          rw [h v hv] at hb
          exact absurd hb (by simp)
    rw [hiff]
  · intro sv version path type info cs hrec hcs c hc
    have hall := List.all_eq_true.1 records_names_separate _ hrec
    simp only [hcs, List.all_eq_true, decide_eq_true_eq, List.mem_sublists] at hall
    have h := hall (cs.filter (supportedFilter sv version)) (List.filter_sublist cs) c hc
    rw [hcs, toReplaceMessage_candidates, h, List.mem_filter, supportedFilter_iff]
    simp [hc]

/-- C1, amended, at the candidates of the global `Buffer`: target 6.1.0 keeps
both, and target 4.0.0, which lies below 5.10.0, omits `Buffer.alloc()`, whose
name then does not appear in the result. -/
theorem toReplaceMessage_candidate_kept_iff_witness :
    (toReplaceMessage semver (newBuffer 1).info.replacedBy (VersionRange.exact ⟨6, 1, 0⟩) =
      ". Use 'Buffer.alloc()' or 'Buffer.from()' instead") ∧
    (⟨"'Buffer.alloc()'", "5.10.0"⟩ : Candidate) ∉
      [(⟨"'Buffer.alloc()'", "5.10.0"⟩ : Candidate), ⟨"'Buffer.from()'", "5.10.0"⟩].filter
        (supportedFilter semver (VersionRange.exact ⟨4, 0, 0⟩)) ∧
    ("'Buffer.alloc()'".data <:+:
        (toReplaceMessage semver (newBuffer 1).info.replacedBy
          (VersionRange.exact ⟨4, 0, 0⟩)).data ↔
      ∃ range, semver.getSemverRange ("<" ++ "5.10.0") = some range ∧
        semver.intersects (VersionRange.exact ⟨4, 0, 0⟩) range = false) ∧
    toReplaceMessage semver (newBuffer 1).info.replacedBy (VersionRange.exact ⟨4, 0, 0⟩) = "" :=
  ⟨by decide,
   fun hmem => absurd
     (((toReplaceMessage_candidate_kept_iff.2.1 _ (VersionRange.exact ⟨4, 0, 0⟩)
       ⟨"'Buffer.alloc()'", "5.10.0"⟩ ⟨5, 10, 0⟩ (by decide)).1 hmem).2 ⟨4, 0, 0⟩ (by decide))
     (by decide),
   toReplaceMessage_candidate_kept_iff.2.2 semver (VersionRange.exact ⟨4, 0, 0⟩) ["Buffer"]
     .CONSTRUCT (newBuffer 1).info
     [⟨"'Buffer.alloc()'", "5.10.0"⟩, ⟨"'Buffer.from()'", "5.10.0"⟩]
     (by decide) rfl ⟨"'Buffer.alloc()'", "5.10.0"⟩ (by decide),
   by decide⟩

/-- C2, as stated, fails: the candidate with the empty name is viable for
target 1.0.0, so the claim has `". Use  instead"` returned, and
`toReplaceMessage` returns the empty string. -/
theorem toReplaceMessage_empty_name_counterexample :
    ([(⟨"", "0.0.1"⟩ : Candidate)].filter
        (supportedFilter semver (VersionRange.exact ⟨1, 0, 0⟩)) = [⟨"", "0.0.1"⟩]) ∧
    toReplaceMessage semver (.candidates [⟨"", "0.0.1"⟩]) (VersionRange.exact ⟨1, 0, 0⟩) = "" ∧
    toReplaceMessage semver (.candidates [⟨"", "0.0.1"⟩]) (VersionRange.exact ⟨1, 0, 0⟩) ≠
      ". Use " ++ join " or " [""] ++ " instead" := by
  decide

/-- C2, amended. For every list of replacement candidates and every target
range, `toReplaceMessage` returns the empty string when no candidate is viable
or the only viable candidate has the empty name, and otherwise `". Use "`, the
names of the viable candidates in declaration order separated by `" or "`, and
`" instead"`. -/
theorem toReplaceMessage_candidates_render (sv : Semver) (cs : List Candidate)
    (version : sv.Range) :
    toReplaceMessage sv (.candidates cs) version =
      (if (cs.filter (supportedFilter sv version)).map Candidate.name = [] ∨
          (cs.filter (supportedFilter sv version)).map Candidate.name = [""] then ""
       else ". Use " ++
         join " or " ((cs.filter (supportedFilter sv version)).map Candidate.name) ++
         " instead") := by
  rw [toReplaceMessage_candidates]
  simp only [join_eq_empty_iff]

/-! ## The reporting step -/

theorem foldl_globalStep (sv : Semver) (opts : ParsedOptions sv) (gs : List TrackedReference)
    (acc : List Descriptor) :
    gs.foldl (globalStep sv opts) acc =
      acc ++ (gs.filter fun r => decide (toName r.type r.path ∉ opts.ignoredGlobalItems.items)).map
        (globalFinding sv opts.version) := by
  induction gs generalizing acc with
  | nil => simp
  | cons r rs ih =>
    rw [List.foldl_cons, ih]
    by_cases h : toName r.type r.path ∈ opts.ignoredGlobalItems.items
    · simp [globalStep, JSSet.has, h]
    · simp [globalStep, JSSet.has, h, reportItem, globalFinding]

theorem foldl_moduleStep (sv : Semver) (opts : ParsedOptions sv) (ms : List TrackedReference)
    (acc : List Descriptor) :
    ms.foldl (moduleStep sv opts) acc =
      acc ++ (ms.filter fun r => decide (toName r.type r.path ∉ opts.ignoredModuleItems.items)).map
        (moduleFinding sv opts.version) := by
  induction ms generalizing acc with
  | nil => simp
  | cons r rs ih =>
    rw [List.foldl_cons, ih]
    by_cases h : toName r.type r.path ∈ opts.ignoredModuleItems.items
    · simp [moduleStep, JSSet.has, h]
    · simp [moduleStep, JSSet.has, h, reportItem, moduleFinding]

theorem programExit_eq (sv : Semver) (opts : ParsedOptions sv)
    (gs cs es : List TrackedReference) :
    programExit sv opts gs cs es =
      (gs.filter fun r => decide (toName r.type r.path ∉ opts.ignoredGlobalItems.items)).map
        (globalFinding sv opts.version) ++
      ((cs ++ es).filter fun r =>
        decide (toName r.type r.path ∉ opts.ignoredModuleItems.items)).map
        (moduleFinding sv opts.version) := by
  unfold programExit
  simp only [foldl_globalStep, foldl_moduleStep, List.nil_append]

/-- The reports of a run, in terms of the ignore arrays of the options object; an
absent array reads as empty. -/
theorem create_eq (sv : Semver) (raw : Option RawOptions) (version : sv.Range)
    (gs cs es : List TrackedReference) :
    create sv raw version gs cs es =
      (gs.filter fun r =>
        decide (toName r.type r.path ∉ (raw.getD {}).ignoreGlobalItems.getD [])).map
        (globalFinding sv version) ++
      ((cs ++ es).filter fun r =>
        decide (toName r.type r.path ∉ (raw.getD {}).ignoreModuleItems.getD [])).map
        (moduleFinding sv version) := by
  unfold create
  rw [programExit_eq]
  simp only [parseOptions, JSSet.ofArray, JSSet.mem_foldl_add, List.not_mem_nil, false_or]

theorem itemDescriptor_messageId (sv : Semver) (version : sv.Range) (node : Nat)
    (name : String) (info : DeprecatedInfo) :
    (itemDescriptor sv version node name info).messageId =
      if truthy (info.removed.getD "") then "removed" else "deprecated" := rfl

theorem truthy_removed_iff (info : DeprecatedInfo) :
    truthy (info.removed.getD "") = true ↔ ∃ r, info.removed = some r ∧ r ≠ "" := by
  cases h : info.removed with
  | none => simp [truthy]
  | some r => simp [truthy]

/-- C3, as stated, fails: the global `Buffer` as a constructor is deprecated
since 6.0.0, and with the target range the single version 5.9.9 a use of it is
reported as deprecated; a use is reported whatever the target range is. -/
theorem deprecated_below_since_counterexample :
    globals.lookup ["Buffer"] .CONSTRUCT = some (newBuffer 1).info ∧
    (newBuffer 1).info.since = "6.0.0" ∧
    parseVersion "6.0.0".data = some ⟨6, 0, 0⟩ ∧
    semver.getSemverRange "5.9.9" = some (VersionRange.exact ⟨5, 9, 9⟩) ∧
    Version.lt ⟨5, 9, 9⟩ ⟨6, 0, 0⟩ = true ∧
    (create semver none (VersionRange.exact ⟨5, 9, 9⟩) [newBuffer 1] [] []).map
        (fun d => (d.node, d.messageId, render d)) =
      [(1, "deprecated", some "'new Buffer()' was deprecated since v6.0.0.")] ∧
    (∀ target : VersionRange,
      (create semver none target [newBuffer 1] [] []).map Descriptor.messageId =
        ["deprecated"]) := by
  refine ⟨by decide, by decide, by decide, by decide, by decide, by decide, fun target => ?_⟩
  rw [create_eq]
  rfl

/-- C3, amended. For every record with deprecation version `since` and no
removal version, a use of that API whose canonical name is not ignored produces
exactly one finding, a `deprecated` one carrying `since`, for every target
range: when the target range is exactly `since`, and equally when it is the
single version one patch below `since`. -/
theorem deprecated_for_every_target (sv : Semver) (raw : Option RawOptions)
    (version : sv.Range) (r : TrackedReference) (hremoved : r.info.removed = none) :
    (toName r.type r.path ∉ (raw.getD {}).ignoreGlobalItems.getD [] →
      ∃ d, create sv raw version [r] [] [] = [d] ∧ d.node = r.node ∧
        d.messageId = "deprecated" ∧ d.data.version = r.info.since) ∧
    (toName r.type r.path ∉ (raw.getD {}).ignoreModuleItems.getD [] →
      (∃ d, create sv raw version [] [r] [] = [d] ∧ d.node = r.node ∧
        d.messageId = "deprecated" ∧ d.data.version = r.info.since) ∧
      (∃ d, create sv raw version [] [] [r] = [d] ∧ d.node = r.node ∧
        d.messageId = "deprecated" ∧ d.data.version = r.info.since)) := by
  have hg : (globalFinding sv version r).messageId = "deprecated" := by
    simp [globalFinding, itemDescriptor_messageId, hremoved, truthy]
  have hm : (moduleFinding sv version r).messageId = "deprecated" := by
    simp [moduleFinding, itemDescriptor_messageId, hremoved, truthy]
  refine ⟨fun h => ⟨globalFinding sv version r, ?_, rfl, hg, rfl⟩,
    fun h => ⟨⟨moduleFinding sv version r, ?_, rfl, hm, rfl⟩,
      ⟨moduleFinding sv version r, ?_, rfl, hm, rfl⟩⟩⟩
  · rw [create_eq]; simp [h]
  · rw [create_eq]; simp [h]
  · rw [create_eq]; simp [h]

/-- C3, amended, at the global `Buffer` as a constructor, deprecated since 6.0.0:
reported for target 6.0.0 and for target 5.9.9. -/
theorem deprecated_for_every_target_witness :
    (∃ d, create semver none (VersionRange.exact ⟨6, 0, 0⟩) [newBuffer 1] [] [] = [d] ∧
      d.node = 1 ∧ d.messageId = "deprecated" ∧ d.data.version = "6.0.0") ∧
    (∃ d, create semver none (VersionRange.exact ⟨5, 9, 9⟩) [newBuffer 1] [] [] = [d] ∧
      d.node = 1 ∧ d.messageId = "deprecated" ∧ d.data.version = "6.0.0") :=
  ⟨(deprecated_for_every_target semver none (VersionRange.exact ⟨6, 0, 0⟩) (newBuffer 1)
      rfl).1 (by decide),
   (deprecated_for_every_target semver none (VersionRange.exact ⟨5, 9, 9⟩) (newBuffer 1)
      rfl).1 (by decide)⟩

/-- C4, as stated, fails: `Intl.v8BreakIterator` was removed in 9.0.0, the
target range 8.0.0 holds only versions below 9.0.0, and a read of it is
classified `removed`, not `deprecated`. -/
theorem removed_below_removal_counterexample :
    globals.lookup ["Intl", "v8BreakIterator"] .READ = some (readV8BreakIterator 1).info ∧
    (readV8BreakIterator 1).info.removed = some "9.0.0" ∧
    parseVersion "9.0.0".data = some ⟨9, 0, 0⟩ ∧
    (∀ v : Version, (VersionRange.exact ⟨8, 0, 0⟩).test v = true → v.lt ⟨9, 0, 0⟩ = true) ∧
    (create semver none (VersionRange.exact ⟨8, 0, 0⟩) [readV8BreakIterator 1] [] []).map
        (fun d => (d.messageId, render d)) =
      [("removed",
        some "'Intl.v8BreakIterator' was deprecated since v7.0.0, and removed in v9.0.0.")] := by
  refine ⟨by decide, by decide, by decide, fun v hv => ?_, by decide⟩
  simp only [VersionRange.test, VersionRange.exact, List.any_cons, List.any_nil, Bool.or_false,
    Interval.test, Bool.and_eq_true, Version.next] at hv
  rw [Version.lt_iff] at hv ⊢
  simp only at hv ⊢
  omega

/-- C4, amended. A use of an entry whose record has a removal version is
classified `removed` for every target range, also one guaranteed below the
removal version; a use of an entry whose record has no removal version is
classified `deprecated` for every target range. -/
theorem removed_iff_removal_version (sv : Semver) (version : sv.Range)
    (reports : List Descriptor) (node : Nat) (name : String) (info : DeprecatedInfo) :
    ∃ d, reportItem sv version reports node name info = reports ++ [d] ∧
      (d.messageId = "removed" ↔ ∃ r, info.removed = some r ∧ r ≠ "") ∧
      (d.messageId = "deprecated" ↔ ¬ ∃ r, info.removed = some r ∧ r ≠ "") := by
  refine ⟨itemDescriptor sv version node name info, rfl, ?_, ?_⟩
  · rw [itemDescriptor_messageId, ← truthy_removed_iff]
    by_cases h : truthy (info.removed.getD "") = true
    · simp [h]
    · simp [h]
  · rw [itemDescriptor_messageId, ← truthy_removed_iff]
    by_cases h : truthy (info.removed.getD "") = true
    · simp [h]
    · simp [h]

/-- C4, amended, at `Intl.v8BreakIterator` with target 8.0.0 and at the global
`Buffer` as a constructor, which has no removal version. -/
theorem removed_iff_removal_version_witness :
    (∃ d, reportItem semver (VersionRange.exact ⟨8, 0, 0⟩) [] 1 "'Intl.v8BreakIterator'"
        (readV8BreakIterator 1).info = [] ++ [d] ∧
      (d.messageId = "removed" ↔
        ∃ r, (readV8BreakIterator 1).info.removed = some r ∧ r ≠ "") ∧
      (d.messageId = "deprecated" ↔
        ¬ ∃ r, (readV8BreakIterator 1).info.removed = some r ∧ r ≠ "")) ∧
    (∃ r, (readV8BreakIterator 1).info.removed = some r ∧ r ≠ "") ∧
    ¬ ∃ r, (newBuffer 1).info.removed = some r ∧ r ≠ "" :=
  ⟨removed_iff_removal_version semver (VersionRange.exact ⟨8, 0, 0⟩) [] 1
      "'Intl.v8BreakIterator'" (readV8BreakIterator 1).info,
   ⟨"9.0.0", rfl, by decide⟩, by simp [newBuffer]⟩

theorem render_removed (d : Descriptor) (h : d.messageId = "removed") :
    render d = some (d.data.name ++ " was deprecated since v" ++ d.data.version ++
      ", and removed in v" ++ d.data.removed ++ ".") := by
  unfold render
  rw [h]
  show some _ = some _
  congr 1
  apply String.ext
  simp only [String.data_append, List.append_assoc]
  rfl

/-- C5. For every record with a removal version, the finding `reportItem`
produces has the message id `removed`; its data carry the deprecation version
(`info.since`) and the removal version (`info.removed`), and so does its
rendered text. -/
theorem removed_carries_both_versions (sv : Semver) (version : sv.Range)
    (reports : List Descriptor) (node : Nat) (name : String) (info : DeprecatedInfo)
    (removed : String) (hr : info.removed = some removed) (hne : removed ≠ "") :
    ∃ d, reportItem sv version reports node name info = reports ++ [d] ∧
      d.node = node ∧ d.messageId = "removed" ∧
      d.data.name = name ∧ d.data.version = info.since ∧ d.data.removed = removed ∧
      render d = some (name ++ " was deprecated since v" ++ info.since ++
        ", and removed in v" ++ removed ++ ".") := by
  have hid : (itemDescriptor sv version node name info).messageId = "removed" := by
    simp [itemDescriptor_messageId, hr, truthy, hne]
  have hrem : (itemDescriptor sv version node name info).data.removed = removed := by
    simp [itemDescriptor, hr, truthy, hne]
  refine ⟨itemDescriptor sv version node name info, rfl, rfl, hid, rfl, rfl, hrem, ?_⟩
  rw [render_removed _ hid, hrem]
  rfl

/-- C5, at `Intl.v8BreakIterator` (deprecated since 7.0.0, removed in 9.0.0) with
target 9.5.0. -/
theorem removed_carries_both_versions_witness :
    ∃ d, reportItem semver (VersionRange.exact ⟨9, 5, 0⟩) [] 1 "'Intl.v8BreakIterator'"
        (readV8BreakIterator 1).info = [] ++ [d] ∧
      d.node = 1 ∧ d.messageId = "removed" ∧
      d.data.name = "'Intl.v8BreakIterator'" ∧
      d.data.version = (readV8BreakIterator 1).info.since ∧
      d.data.removed = "9.0.0" ∧
      render d = some ("'Intl.v8BreakIterator'" ++ " was deprecated since v" ++
        (readV8BreakIterator 1).info.since ++ ", and removed in v" ++ "9.0.0" ++ ".") :=
  removed_carries_both_versions semver (VersionRange.exact ⟨9, 5, 0⟩) [] 1
    "'Intl.v8BreakIterator'" (readV8BreakIterator 1).info "9.0.0" rfl (by decide)

/-! ## The ignore filter -/

/-- C6. A global finding is reported if and only if `toName(type, path)` is not
a member of `ignoredGlobalItems`, and a module finding if and only if it is not
a member of `ignoredModuleItems`: the reports are the findings of the
references whose name is in no ignore set, in order. The match is on the whole
name: an ignore entry other than the name, such as a proper prefix of it or a
spelling in another letter case, leaves the finding reported. -/
theorem ignore_exact_match :
    (∀ (sv : Semver) (opts : ParsedOptions sv) (gs cs es : List TrackedReference),
      programExit sv opts gs cs es =
        (gs.filter fun r => decide (toName r.type r.path ∉ opts.ignoredGlobalItems.items)).map
          (globalFinding sv opts.version) ++
        ((cs ++ es).filter fun r =>
          decide (toName r.type r.path ∉ opts.ignoredModuleItems.items)).map
          (moduleFinding sv opts.version)) ∧
    (∀ (sv : Semver) (version : sv.Range) (r : TrackedReference) (entry : String),
      entry ≠ toName r.type r.path →
        create sv (some { ignoreGlobalItems := some [entry] }) version [r] [] [] =
          [globalFinding sv version r] ∧
        create sv (some { ignoreModuleItems := some [entry] }) version [] [r] [] =
          [moduleFinding sv version r]) ∧
    (∀ (sv : Semver) (version : sv.Range) (r : TrackedReference),
        create sv (some { ignoreGlobalItems := some [toName r.type r.path] }) version
          [r] [] [] = [] ∧
        create sv (some { ignoreModuleItems := some [toName r.type r.path] }) version
          [] [r] [] = []) ∧
    toName .READ ["process", "binding"] = "process.binding" ∧
    startsWith "process.binding" "process" = true ∧
    "process" ≠ toName .READ ["process", "binding"] ∧
    "PROCESS.BINDING" ≠ toName .READ ["process", "binding"] := by
  refine ⟨programExit_eq, fun sv version r entry h => ⟨?_, ?_⟩, fun sv version r => ⟨?_, ?_⟩,
    by decide, by decide, by decide, by decide⟩
  · rw [create_eq]; simp [Ne.symm h]
  · rw [create_eq]; simp [Ne.symm h]
  · rw [create_eq]; simp
  · rw [create_eq]; simp

/-- C6, at a read of the global `process.binding` with the ignore entries
`process` and `PROCESS.BINDING`: the finding stays. -/
theorem ignore_exact_match_witness :
    create semver (some { ignoreGlobalItems := some ["process"] }) (VersionRange.exact ⟨16, 0, 0⟩)
        [readProcessBinding 1] [] [] =
      [globalFinding semver (VersionRange.exact ⟨16, 0, 0⟩) (readProcessBinding 1)] ∧
    create semver (some { ignoreGlobalItems := some ["PROCESS.BINDING"] })
        (VersionRange.exact ⟨16, 0, 0⟩) [readProcessBinding 1] [] [] =
      [globalFinding semver (VersionRange.exact ⟨16, 0, 0⟩) (readProcessBinding 1)] :=
  ⟨(ignore_exact_match.2.1 semver (VersionRange.exact ⟨16, 0, 0⟩) (readProcessBinding 1)
      "process" (by decide)).1,
   (ignore_exact_match.2.1 semver (VersionRange.exact ⟨16, 0, 0⟩) (readProcessBinding 1)
      "PROCESS.BINDING" (by decide)).1⟩

/-- C7, as stated, fails: with two uses of `new Buffer()`, at nodes 1 and 2,
adding the canonical name of the first finding to `ignoreGlobalItems` removes
the second finding as well. -/
theorem ignore_removes_same_name_counterexample :
    globals.lookup ["Buffer"] .CONSTRUCT = some (newBuffer 1).info ∧
    create semver none (VersionRange.exact ⟨16, 0, 0⟩) [newBuffer 1, newBuffer 2] [] [] =
      [globalFinding semver (VersionRange.exact ⟨16, 0, 0⟩) (newBuffer 1),
       globalFinding semver (VersionRange.exact ⟨16, 0, 0⟩) (newBuffer 2)] ∧
    globalFinding semver (VersionRange.exact ⟨16, 0, 0⟩) (newBuffer 1) ≠
      globalFinding semver (VersionRange.exact ⟨16, 0, 0⟩) (newBuffer 2) ∧
    toName (newBuffer 1).type (newBuffer 1).path = "new Buffer()" ∧
    create semver (some { ignoreGlobalItems := some ["new Buffer()"] })
        (VersionRange.exact ⟨16, 0, 0⟩) [newBuffer 1, newBuffer 2] [] [] = [] := by
  decide

/-- C7, amended. For every sequence of resolved references and every ignore
set, adding a canonical name to the ignore set of a namespace removes exactly
the findings of that namespace that have this name (the finding it was taken
from and every other use of the same API with the same operation kind) and no
other: the reports are those of the run without the references that have this
name in that namespace. The reports do not depend on the order in which the
ignored names are listed. -/
theorem ignore_add_name (sv : Semver) (ignoreModuleItems ignoreGlobalItems : List String)
    (version : sv.Range) (gs cs es : List TrackedReference) :
    (∀ name : String,
      create sv (some ⟨some ignoreModuleItems, some (name :: ignoreGlobalItems)⟩) version
          gs cs es =
        create sv (some ⟨some ignoreModuleItems, some ignoreGlobalItems⟩) version
          (gs.filter fun r => decide (toName r.type r.path ≠ name)) cs es) ∧
    (∀ name : String,
      create sv (some ⟨some (name :: ignoreModuleItems), some ignoreGlobalItems⟩) version
          gs cs es =
        create sv (some ⟨some ignoreModuleItems, some ignoreGlobalItems⟩) version
          gs (cs.filter fun r => decide (toName r.type r.path ≠ name))
          (es.filter fun r => decide (toName r.type r.path ≠ name))) ∧
    (∀ ignoreModuleItems' ignoreGlobalItems' : List String,
      ignoreModuleItems.Perm ignoreModuleItems' → ignoreGlobalItems.Perm ignoreGlobalItems' →
        create sv (some ⟨some ignoreModuleItems', some ignoreGlobalItems'⟩) version gs cs es =
          create sv (some ⟨some ignoreModuleItems, some ignoreGlobalItems⟩) version gs cs es) := by
  refine ⟨fun name => ?_, fun name => ?_, fun m' g' hm hg => ?_⟩
  · simp only [create_eq, Option.getD_some, List.filter_filter, List.mem_cons, not_or]
    congr 2
    apply List.filter_congr
    intro r _
    by_cases h1 : toName r.type r.path = name <;>
      by_cases h2 : toName r.type r.path ∈ ignoreGlobalItems <;> simp [h1, h2]
  · simp only [create_eq, Option.getD_some, List.filter_filter, List.mem_cons, not_or,
      ← List.filter_append]
    congr 2
    apply List.filter_congr
    intro r _
    by_cases h1 : toName r.type r.path = name <;>
      by_cases h2 : toName r.type r.path ∈ ignoreModuleItems <;> simp [h1, h2]
  · simp only [create_eq, Option.getD_some, hm.mem_iff, hg.mem_iff]

/-- C7, amended, at three references and the ignore lists given in two orders. -/
theorem ignore_add_name_witness :
    create semver (some ⟨some ["domain", "fs.exists"], some ["root", "new Buffer()"]⟩)
        (VersionRange.exact ⟨16, 0, 0⟩) [newBuffer 1, readProcessBinding 2] [readDomain 3] [] =
      create semver (some ⟨some ["fs.exists", "domain"], some ["new Buffer()", "root"]⟩)
        (VersionRange.exact ⟨16, 0, 0⟩) [newBuffer 1, readProcessBinding 2] [readDomain 3] [] :=
  (ignore_add_name semver ["fs.exists", "domain"] ["new Buffer()", "root"]
    (VersionRange.exact ⟨16, 0, 0⟩) _ _ _).2.2 ["domain", "fs.exists"] ["root", "new Buffer()"]
    (List.Perm.swap _ _ _) (List.Perm.swap _ _ _)

/-- C8. Each namespace consults only its own ignore set: the findings of the
global references do not depend on `ignoreModuleItems`, and those of the module
references do not depend on `ignoreGlobalItems`. A name listed only in
`ignoreModuleItems` never suppresses a global finding, and a name listed only
in `ignoreGlobalItems` never suppresses a module finding; `process.binding` is
tracked in both namespaces. -/
theorem ignore_sets_per_namespace :
    (∀ (sv : Semver) (ignoreModuleItems : List String) (version : sv.Range)
        (gs : List TrackedReference),
      create sv (some { ignoreModuleItems := some ignoreModuleItems }) version gs [] [] =
        gs.map (globalFinding sv version)) ∧
    (∀ (sv : Semver) (ignoreGlobalItems : List String) (version : sv.Range)
        (cs es : List TrackedReference),
      create sv (some { ignoreGlobalItems := some ignoreGlobalItems }) version [] cs es =
        (cs ++ es).map (moduleFinding sv version)) ∧
    (∀ (sv : Semver) (m m' g g' : Option (List String)) (version : sv.Range)
        (gs cs es : List TrackedReference),
      create sv (some ⟨m, g⟩) version gs [] [] = create sv (some ⟨m', g⟩) version gs [] [] ∧
      create sv (some ⟨m, g⟩) version [] cs es = create sv (some ⟨m, g'⟩) version [] cs es) ∧
    globals.lookup ["process", "binding"] .READ = some (readProcessBinding 1).info ∧
    modules.lookup ["process", "binding"] .READ = some (readProcessBinding 1).info ∧
    toName .READ ["process", "binding"] = "process.binding" ∧
    (create semver (some { ignoreModuleItems := some ["process.binding"] })
        (VersionRange.exact ⟨16, 0, 0⟩)
        [readProcessBinding 1] [] []).map render =
      [some "'process.binding' was deprecated since v10.9.0."] ∧
    (create semver (some { ignoreGlobalItems := some ["process.binding"] })
        (VersionRange.exact ⟨16, 0, 0⟩) [] [readProcessBinding 1] []).map render =
      [some "'process.binding' was deprecated since v10.9.0."] := by
  refine ⟨fun sv m version gs => ?_, fun sv g version cs es => ?_,
    fun sv m m' g g' version gs cs es => ⟨?_, ?_⟩,
    by decide, by decide, by decide, by decide, by decide⟩
  · rw [create_eq]; simp
  · rw [create_eq]; simp
  · simp only [create_eq]; simp
  · simp only [create_eq]; simp

/-! ## Canonical names -/

theorem unprefixNodeColon_append (bare : String) : unprefixNodeColon ("node:" ++ bare) = bare := by
  unfold unprefixNodeColon startsWith slice
  have h : ("node:" ++ bare).data = 'n' :: 'o' :: 'd' :: 'e' :: ':' :: bare.data := by
    simp [String.data_append]
  rw [h]
  have hp : ("node:" : String).data = ['n', 'o', 'd', 'e', ':'] := rfl
  simp [hp, List.isPrefixOf]

theorem unprefixNodeColon_of_not_prefix (s : String)
    (h : ¬ ("node:".data <+: s.data)) : unprefixNodeColon s = s := by
  unfold unprefixNodeColon startsWith
  rw [if_neg]
  rwa [List.isPrefixOf_iff_prefix]

/-- C9. For every access path, `toName` with the READ kind returns the
dot-joined path with a leading `node:` removed, the bare name, and with the
CALL kind that bare name followed by `()`. -/
theorem toName_read_call (path : List String) :
    toName .READ path = unprefixNodeColon (join "." path) ∧
    toName .CALL path = toName .READ path ++ "()" ∧
    (∀ bare : String, join "." path = "node:" ++ bare →
      toName .READ path = bare ∧ toName .CALL path = bare ++ "()") ∧
    (¬ ("node:".data <+: (join "." path).data) →
      toName .READ path = join "." path ∧ toName .CALL path = join "." path ++ "()") := by
  refine ⟨rfl, rfl, fun bare h => ?_, fun h => ?_⟩
  · simp [toName, h, unprefixNodeColon_append]
  · simp [toName, unprefixNodeColon_of_not_prefix _ h]

/-- C9, at the paths `node:fs`, `exists` and `fs`, `exists`. -/
theorem toName_read_call_witness :
    (toName .READ ["node:fs", "exists"] = "fs.exists" ∧
      toName .CALL ["node:fs", "exists"] = "fs.exists" ++ "()") ∧
    (toName .READ ["fs", "exists"] = join "." ["fs", "exists"] ∧
      toName .CALL ["fs", "exists"] = join "." ["fs", "exists"] ++ "()") :=
  ⟨(toName_read_call ["node:fs", "exists"]).2.2.1 "fs.exists" (by decide),
   (toName_read_call ["fs", "exists"]).2.2.2 (by decide)⟩

/-- C10, as stated, fails: the construct-site name of `Buffer` is `new Buffer()`,
and the bare name `Buffer` is not a prefix of it. -/
theorem toName_construct_counterexample :
    toName .READ ["Buffer"] = "Buffer" ∧
    toName .CONSTRUCT ["Buffer"] = "new Buffer()" ∧
    startsWith (toName .CONSTRUCT ["Buffer"]) (toName .READ ["Buffer"]) = false := by
  decide

/-- C10, amended. For every access path, the name `toName` renders for the
CONSTRUCT kind is `new `, then the bare dot-joined name, then `()`: the
construction marker stands around the bare name. -/
theorem toName_construct (path : List String) :
    toName .CONSTRUCT path = "new " ++ toName .READ path ++ "()" ∧
    toName .READ path = unprefixNodeColon (join "." path) := by
  exact ⟨rfl, rfl⟩


theorem Version.lt_of_lt_of_le {a b c : Version} (hab : a.lt b = true) (hbc : b.le c = true) :
    a.lt c = true := by
  rw [Version.le_iff, Version.lt_iff] at hbc
  rw [Version.lt_iff] at hab ⊢
  omega

/-! ## Prefix normalisation -/

theorem join_dot_cons_data (m : String) (rest : List String) :
    (join "." (m :: rest)).data = m.data ∨
      ∃ tail, (join "." (m :: rest)).data = m.data ++ '.' :: tail := by
  cases rest with
  | nil => exact Or.inl rfl
  | cons y ys =>
    refine Or.inr ⟨(join "." (y :: ys)).data, ?_⟩
    simp only [join, String.data_append, List.append_assoc]
    rfl

theorem isPrefixOf_node_append_dot (xs tail : List Char) :
    List.isPrefixOf ['n', 'o', 'd', 'e', ':'] (xs ++ '.' :: tail) =
      List.isPrefixOf ['n', 'o', 'd', 'e', ':'] xs := by
  rcases xs with _ | ⟨a, _ | ⟨b, _ | ⟨c, _ | ⟨d, _ | ⟨e, l⟩⟩⟩⟩⟩ <;>
    simp [List.isPrefixOf]

/-- The joined path starts with `node:` exactly when its first segment does. -/
theorem startsWith_join_cons (m : String) (rest : List String) :
    startsWith (join "." (m :: rest)) "node:" = startsWith m "node:" := by
  unfold startsWith
  have hp : ("node:" : String).data = ['n', 'o', 'd', 'e', ':'] := rfl
  rw [hp]
  rcases join_dot_cons_data m rest with h | ⟨tail, h⟩
  · rw [h]
  · rw [h, isPrefixOf_node_append_dot]

theorem join_dot_node_cons (m : String) (rest : List String) :
    join "." (("node:" ++ m) :: rest) = "node:" ++ join "." (m :: rest) := by
  cases rest with
  | nil => rfl
  | cons y ys => simp only [join, String.append_assoc]

theorem unprefixNodeColon_join_of_not_startsWith (m : String) (rest : List String)
    (h : startsWith m "node:" = false) :
    unprefixNodeColon (join "." (m :: rest)) = join "." (m :: rest) := by
  unfold unprefixNodeColon
  rw [startsWith_join_cons, h]
  rfl

theorem toName_node_cons (type : ReferenceType) (m : String) (rest : List String)
    (h : startsWith m "node:" = false) :
    toName type (("node:" ++ m) :: rest) = toName type (m :: rest) := by
  unfold toName
  rw [join_dot_node_cons, unprefixNodeColon_append,
    unprefixNodeColon_join_of_not_startsWith m rest h]

/-- C11. Prefix normalisation: for every operation kind and every module path,
`toName` gives the same canonical name for the path whose first segment carries
the `node:` prefix and for the same path without it, the first segment being
a module name that does not start with `node:` itself; every module of the
registry is such a name. One entry of `ignoreModuleItems`, that name,
suppresses the findings of both spellings. -/
theorem toName_node_spelling :
    (∀ (type : ReferenceType) (m : String) (rest : List String),
      startsWith m "node:" = false →
        toName type (("node:" ++ m) :: rest) = toName type (m :: rest)) ∧
    (∀ (type : ReferenceType) (m : String) (rest : List String),
      m ∈ rawModules.children.map Prod.fst →
        toName type (("node:" ++ m) :: rest) = toName type (m :: rest)) ∧
    (∀ (sv : Semver) (version : sv.Range) (type : ReferenceType) (m : String)
        (rest : List String) (node node' : Nat) (info info' : DeprecatedInfo),
      startsWith m "node:" = false →
        create sv (some { ignoreModuleItems := some [toName type (m :: rest)] }) version []
          [⟨node, ("node:" ++ m) :: rest, type, info⟩, ⟨node', m :: rest, type, info'⟩] [] =
            [] ∧
        create sv (some { ignoreModuleItems := some [toName type (m :: rest)] }) version [] []
          [⟨node, ("node:" ++ m) :: rest, type, info⟩, ⟨node', m :: rest, type, info'⟩] =
            []) := by
  refine ⟨toName_node_cons, fun type m rest hm => ?_,
    fun sv version type m rest node node' info info' h => ⟨?_, ?_⟩⟩
  · have hall : rawModules.children.all (fun entry => !startsWith entry.1 "node:") = true := by
      decide
    obtain ⟨entry, hentry, rfl⟩ := List.mem_map.1 hm
    have := List.all_eq_true.1 hall entry hentry
    exact toName_node_cons type entry.1 rest (by simpa using this)
  · rw [create_eq]; simp [toName_node_cons type m rest h]
  · rw [create_eq]; simp [toName_node_cons type m rest h]

/-- C11, at the paths `node:fs`, `exists` and `fs`, `exists`. -/
theorem toName_node_spelling_witness :
    toName .READ (("node:" ++ "fs") :: ["exists"]) = toName .READ ("fs" :: ["exists"]) ∧
    toName .CALL (("node:" ++ "fs") :: ["exists"]) = toName .CALL ("fs" :: ["exists"]) ∧
    toName .READ ["node:fs", "exists"] = "fs.exists" ∧
    toName .READ ["fs", "exists"] = "fs.exists" :=
  ⟨toName_node_spelling.1 .READ "fs" ["exists"] (by decide),
   toName_node_spelling.2.1 .CALL "fs" ["exists"] (by decide), by decide, by decide⟩

/-- C12, as stated, fails: for the empty free-text note `toReplaceMessage`
returns the empty string, where the claim has `". Use  instead"`. -/
theorem toReplaceMessage_empty_text_counterexample :
    toReplaceMessage semver (.text "") (VersionRange.exact ⟨6, 1, 0⟩) = "" ∧
    toReplaceMessage semver (.text "") (VersionRange.exact ⟨6, 1, 0⟩) ≠
      ". Use " ++ "" ++ " instead" := by
  decide

/-- C12, amended. For every non-empty free-text replacement note `s` and every
target range, `toReplaceMessage` includes `s` verbatim: the result is
`". Use " ++ s ++ " instead"`, independent of the target range; for the empty
note and for a null replacement it returns the empty string for every target
range. -/
theorem toReplaceMessage_text_null (sv : Semver) (version : sv.Range) :
    (∀ s : String, toReplaceMessage sv (.text s) version =
      if s = "" then "" else ". Use " ++ s ++ " instead") ∧
    toReplaceMessage sv .null version = "" := by
  refine ⟨fun s => ?_, rfl⟩
  simp only [toReplaceMessage, truthy]
  by_cases h : s = ""
  · simp [h]
  · simp [h]

/-- C13. Replacement viability is monotonic in the candidate's supported
version: for a fixed target range and two supported versions `s1 ≤ s2`, a
candidate that the filter of `toReplaceMessage` keeps with `supported = s2` is
kept with `supported = s1` too. -/
theorem supportedFilter_monotone (target : VersionRange) (name s1 s2 : String)
    (v1 v2 : Version) (h1 : parseVersion s1.data = some v1)
    (h2 : parseVersion s2.data = some v2) (hle : v1.le v2 = true)
    (hkept : supportedFilter semver target ⟨name, s2⟩ = true) :
    supportedFilter semver target ⟨name, s1⟩ = true := by
  rw [supportedFilter_iff] at hkept ⊢
  obtain ⟨range, hr, hi⟩ := hkept
  rw [getSemverRange_below s2 v2 h2] at hr
  cases hr
  refine ⟨_, getSemverRange_below s1 v1 h1, ?_⟩
  change VersionRange.intersects target (VersionRange.below v2) = false at hi
  change VersionRange.intersects target (VersionRange.below v1) = false
  cases hc : VersionRange.intersects target (VersionRange.below v1) with
  | false => rfl
  | true =>
    obtain ⟨v, hv, hb⟩ := (VersionRange.intersects_iff _ _).1 hc
    rw [VersionRange.test_below] at hb
    have hlt : v.lt v2 = true := Version.lt_of_lt_of_le hb hle
    have : VersionRange.intersects target (VersionRange.below v2) = true :=
      (VersionRange.intersects_iff _ _).2 ⟨v, hv, (VersionRange.test_below v2 v).2 hlt⟩
    rw [this] at hi
    exact absurd hi (by simp)

/-- C13, at target 6.1.0 and the supported versions 5.10.0 ≤ 6.0.0. -/
theorem supportedFilter_monotone_witness :
    supportedFilter semver (VersionRange.exact ⟨6, 1, 0⟩) ⟨"'Buffer.alloc()'", "5.10.0"⟩ = true :=
  supportedFilter_monotone (VersionRange.exact ⟨6, 1, 0⟩) "'Buffer.alloc()'" "5.10.0" "6.0.0"
    ⟨5, 10, 0⟩ ⟨6, 0, 0⟩ (by decide) (by decide) (by decide) (by decide)

/-! ## Scenarios -/

/-- C14, as stated, fails: the candidates of the global `Buffer` as a constructor
are named with their single quotes, and for target 6.1.0 the replacement text
is `". Use 'Buffer.alloc()' or 'Buffer.from()' instead"`, which does not hold the
clause of the claim, written without quotes. -/
theorem buffer_scenario_counterexample :
    globals.lookup ["Buffer"] .CONSTRUCT = some (newBuffer 1).info ∧
    (newBuffer 1).info.replacedBy =
      .candidates [⟨"'Buffer.alloc()'", "5.10.0"⟩, ⟨"'Buffer.from()'", "5.10.0"⟩] ∧
    (create semver none (VersionRange.exact ⟨6, 1, 0⟩) [newBuffer 1] [] []).map
        (fun d => d.data.replace) =
      [". Use 'Buffer.alloc()' or 'Buffer.from()' instead"] ∧
    ¬ ("Use Buffer.alloc() or Buffer.from() instead".data <:+:
      ". Use 'Buffer.alloc()' or 'Buffer.from()' instead".data) := by
  decide

/-- C14, amended. The global registry entry `Buffer` for the construct kind has
deprecation version 6.0.0 and the candidates `'Buffer.alloc()'` and
`'Buffer.from()'`, whose names hold the single quotes, each supported since
5.10.0; for target 6.1.0 the use is reported as deprecated and the replacement
text is `". Use 'Buffer.alloc()' or 'Buffer.from()' instead"`. -/
theorem buffer_scenario :
    globals.lookup ["Buffer"] .CONSTRUCT =
      some ⟨"6.0.0",
        .candidates [⟨"'Buffer.alloc()'", "5.10.0"⟩, ⟨"'Buffer.from()'", "5.10.0"⟩], none⟩ ∧
    newBuffer 1 =
      ⟨1, ["Buffer"], .CONSTRUCT, ⟨"6.0.0",
        .candidates [⟨"'Buffer.alloc()'", "5.10.0"⟩, ⟨"'Buffer.from()'", "5.10.0"⟩], none⟩⟩ ∧
    semver.getSemverRange "6.1.0" = some (VersionRange.exact ⟨6, 1, 0⟩) ∧
    (create semver none (VersionRange.exact ⟨6, 1, 0⟩) [newBuffer 1] [] []).map
        (fun d => (d.node, d.messageId, d.data.version, d.data.replace, render d)) =
      [(1, "deprecated", "6.0.0", ". Use 'Buffer.alloc()' or 'Buffer.from()' instead",
        some ("'new Buffer()' was deprecated since v6.0.0. " ++
          "Use 'Buffer.alloc()' or 'Buffer.from()' instead."))] := by
  decide

/-- C15. The global registry entry `Intl.v8BreakIterator` has deprecation
version 7.0.0 and removal version 9.0.0; for target 9.5.0 a read of it is
reported with the message id `removed` and the data `version = "7.0.0"` and
`removed = "9.0.0"`. -/
theorem v8BreakIterator_scenario :
    globals.lookup ["Intl", "v8BreakIterator"] .READ = some ⟨"7.0.0", .null, some "9.0.0"⟩ ∧
    readV8BreakIterator 1 =
      ⟨1, ["Intl", "v8BreakIterator"], .READ, ⟨"7.0.0", .null, some "9.0.0"⟩⟩ ∧
    semver.getSemverRange "9.5.0" = some (VersionRange.exact ⟨9, 5, 0⟩) ∧
    (create semver none (VersionRange.exact ⟨9, 5, 0⟩) [readV8BreakIterator 1] [] []).map
        (fun d => (d.node, d.messageId, d.data.version, d.data.removed, render d)) =
      [(1, "removed", "7.0.0", "9.0.0",
        some "'Intl.v8BreakIterator' was deprecated since v7.0.0, and removed in v9.0.0.")] := by
  decide

/-! ## Displayed names -/

theorem not_module_suffix_of_quoted (s : String) :
    ¬ (" module".data <:+ (s ++ "'").data) := by
  rintro ⟨t, ht⟩
  have h := congrArg List.reverse ht
  have h1 : (" module" : String).data = [' ', 'm', 'o', 'd', 'u', 'l', 'e'] := rfl
  have h2 : ("'" : String).data = ['\''] := rfl
  simp [String.data_append, h1, h2] at h

theorem module_suffix_of_quoted_module (s : String) :
    " module".data <:+ (s ++ " module").data := by
  exact ⟨s.data, by simp [String.data_append]⟩

/-- C16. The displayed name of a module-namespace finding is the quoted
canonical name followed by the indicator ` module` exactly when the access path
has length 1, and the quoted canonical name alone when the path is longer; the
displayed name of a global-namespace finding is the quoted canonical name
alone and never ends with the indicator. -/
theorem displayed_name (sv : Semver) (raw : Option RawOptions) (version : sv.Range)
    (r : TrackedReference) :
    ((create sv raw version [] [r] []).map (fun d => d.data.name) =
      if toName r.type r.path ∈ (raw.getD {}).ignoreModuleItems.getD [] then []
      else if r.path.length = 1 then ["'" ++ toName r.type r.path ++ "'" ++ " module"]
      else ["'" ++ toName r.type r.path ++ "'"]) ∧
    ((create sv raw version [] [] [r]).map (fun d => d.data.name) =
      if toName r.type r.path ∈ (raw.getD {}).ignoreModuleItems.getD [] then []
      else if r.path.length = 1 then ["'" ++ toName r.type r.path ++ "'" ++ " module"]
      else ["'" ++ toName r.type r.path ++ "'"]) ∧
    ((create sv raw version [r] [] []).map (fun d => d.data.name) =
      if toName r.type r.path ∈ (raw.getD {}).ignoreGlobalItems.getD [] then []
      else ["'" ++ toName r.type r.path ++ "'"]) ∧
    (" module".data <:+ (moduleFinding sv version r).data.name.data ↔ r.path.length = 1) ∧
    ¬ (" module".data <:+ (globalFinding sv version r).data.name.data) := by
  have hm : (moduleFinding sv version r).data.name =
      "'" ++ toName r.type r.path ++ "'" ++ if r.path.length = 1 then " module" else "" := rfl
  have hg : (globalFinding sv version r).data.name = "'" ++ toName r.type r.path ++ "'" := rfl
  refine ⟨?_, ?_, ?_, ?_, ?_⟩
  · rw [create_eq]
    by_cases hi : toName r.type r.path ∈ (raw.getD {}).ignoreModuleItems.getD []
    · simp [hi]
    · by_cases hl : r.path.length = 1 <;> simp [hi, hl, hm]
  · rw [create_eq]
    by_cases hi : toName r.type r.path ∈ (raw.getD {}).ignoreModuleItems.getD []
    · simp [hi]
    · by_cases hl : r.path.length = 1 <;> simp [hi, hl, hm]
  · rw [create_eq]
    by_cases hi : toName r.type r.path ∈ (raw.getD {}).ignoreGlobalItems.getD []
    · simp [hi]
    · simp [hi, hg]
  · rw [hm]
    by_cases hl : r.path.length = 1
    · simp only [hl, if_true, iff_true]
      exact module_suffix_of_quoted_module _
    · simp only [hl, if_false, iff_false, String.append_empty]
      exact not_module_suffix_of_quoted _
  · rw [hg]
    exact not_module_suffix_of_quoted _

/-- C16, at the module `domain`, at `process.binding` as a module member and
at the global `process.binding`. -/
theorem displayed_name_witness :
    (create semver none (VersionRange.exact ⟨16, 0, 0⟩) [] [readDomain 1] []).map
        (fun d => d.data.name) = ["'domain' module"] ∧
    (create semver none (VersionRange.exact ⟨16, 0, 0⟩) [] [readProcessBinding 1] []).map
        (fun d => d.data.name) = ["'process.binding'"] ∧
    (create semver none (VersionRange.exact ⟨16, 0, 0⟩) [readProcessBinding 1] [] []).map
        (fun d => d.data.name) = ["'process.binding'"] :=
  ⟨(displayed_name semver none (VersionRange.exact ⟨16, 0, 0⟩) (readDomain 1)).1,
   (displayed_name semver none (VersionRange.exact ⟨16, 0, 0⟩) (readProcessBinding 1)).1,
   (displayed_name semver none (VersionRange.exact ⟨16, 0, 0⟩) (readProcessBinding 1)).2.2.1⟩

/-! ## Registry invariants -/

theorem mem_of_lookup_eq_some {α β : Type} [BEq α] [LawfulBEq α] (k : α) (v : β) :
    ∀ l : List (α × β), l.lookup k = some v → (k, v) ∈ l
  | [], h => by simp at h
  | (a, b) :: rest, h => by
    rw [List.lookup_cons] at h
    by_cases hk : (k == a) = true
    · rw [hk] at h
      simp only [Option.some.injEq] at h
      have : k = a := by simpa using hk
      subst this; subst h
      exact List.mem_cons_self _ _
    · simp only [hk] at h
      exact List.mem_cons_of_mem _ (mem_of_lookup_eq_some k v rest h)

theorem mem_recordsOfEntries (key : String) (child : TraceMap)
    (r : List String × ReferenceType × DeprecatedInfo) (hr : r ∈ child.records) :
    ∀ entries : List (String × TraceMap), (key, child) ∈ entries →
      (key :: r.1, r.2.1, r.2.2) ∈ recordsOfEntries entries
  | [], h => by simp at h
  | (k, c) :: rest, h => by
    rw [recordsOfEntries]
    rcases List.mem_cons.1 h with h | h
    · cases h
      exact List.mem_append_left _ (List.mem_map_of_mem _ hr)
    · exact List.mem_append_right _ (mem_recordsOfEntries key child r hr rest h)

/-- A record the registry holds for a path and a kind is one of its records. -/
theorem mem_records_of_lookup (path : List String) (type : ReferenceType)
    (info : DeprecatedInfo) :
    ∀ m : TraceMap, m.lookup path type = some info → (path, type, info) ∈ m.records := by
  induction path with
  | nil =>
    intro m h
    cases m with
    | node infos children =>
      rw [TraceMap.records]
      simp only [TraceMap.lookup, TraceMap.descend, TraceMap.info, TraceMap.infos] at h
      exact List.mem_append_left _
        (List.mem_map_of_mem (fun entry => (([] : List String), entry.1, entry.2))
          (mem_of_lookup_eq_some type info infos h))
  | cons key rest ih =>
    intro m h
    cases m with
    | node infos children =>
      rw [TraceMap.records]
      simp only [TraceMap.lookup, TraceMap.descend, TraceMap.get, TraceMap.children] at h
      cases hc : children.lookup key with
      | none => rw [hc] at h; simp at h
      | some child =>
        rw [hc] at h
        have hrec : (rest, type, info) ∈ child.records := ih child h
        exact List.mem_append_right _
          (mem_recordsOfEntries key child (rest, type, info) hrec children
            (mem_of_lookup_eq_some key child children hc))

theorem records_removed_after_since :
    (rawModules.records ++ globals.records).all (fun r =>
      match r.2.2.removed with
      | some removed => versionBefore r.2.2.since removed
      | none => true) = true := by
  decide

theorem records_since_version :
    (rawModules.records ++ globals.records).all (fun r =>
      r.2.2.since != "" && (parseVersion r.2.2.since.data).isSome) = true := by
  decide

theorem versionBefore_iff (a b : String) :
    versionBefore a b = true ↔
      ∃ x y, parseVersion a.data = some x ∧ parseVersion b.data = some y ∧ x.lt y = true := by
  unfold versionBefore
  cases parseVersion a.data <;> cases parseVersion b.data <;> simp

theorem registry_mem_records (path : List String) (type : ReferenceType) (info : DeprecatedInfo)
    (h : rawModules.lookup path type = some info ∨ globals.lookup path type = some info) :
    (path, type, info) ∈ rawModules.records ++ globals.records := by
  rcases h with h | h
  · exact List.mem_append_left _ (mem_records_of_lookup path type info _ h)
  · exact List.mem_append_right _ (mem_records_of_lookup path type info _ h)

/-- C17. Registry invariant: for every lifecycle record of the module registry
`rawModules` and of the global registry `globals`, at any depth, that has a
removal version beside its deprecation version, both are versions and the
removal version is strictly later than the deprecation version in semver
order; so it is for every record the registries hold for a path and a kind.
One record has a removal version, that of `Intl.v8BreakIterator`. -/
theorem registry_removed_after_since :
    (∀ r ∈ rawModules.records ++ globals.records, ∀ removed : String,
      r.2.2.removed = some removed →
        ∃ vs vr, parseVersion r.2.2.since.data = some vs ∧
          parseVersion removed.data = some vr ∧ vs.lt vr = true) ∧
    (∀ (path : List String) (type : ReferenceType) (info : DeprecatedInfo) (removed : String),
      rawModules.lookup path type = some info ∨ globals.lookup path type = some info →
      info.removed = some removed →
        ∃ vs vr, parseVersion info.since.data = some vs ∧
          parseVersion removed.data = some vr ∧ vs.lt vr = true) ∧
    (rawModules.records ++ globals.records).filter (fun r => r.2.2.removed.isSome) =
      [(["Intl", "v8BreakIterator"], .READ, ⟨"7.0.0", .null, some "9.0.0"⟩)] := by
  have hall : ∀ r ∈ rawModules.records ++ globals.records, ∀ removed : String,
      r.2.2.removed = some removed →
        ∃ vs vr, parseVersion r.2.2.since.data = some vs ∧
          parseVersion removed.data = some vr ∧ vs.lt vr = true := by
    intro r hr removed hrem
    have h := List.all_eq_true.1 records_removed_after_since r hr
    rw [hrem] at h
    exact (versionBefore_iff _ _).1 h
  refine ⟨hall, fun path type info removed h hrem => ?_, by decide⟩
  exact hall (path, type, info) (registry_mem_records path type info h) removed hrem

/-- C17, at the record of `Intl.v8BreakIterator`: 7.0.0 comes before 9.0.0. -/
theorem registry_removed_after_since_witness :
    ∃ vs vr, parseVersion "7.0.0".data = some vs ∧ parseVersion "9.0.0".data = some vr ∧
      vs.lt vr = true :=
  registry_removed_after_since.2.1 ["Intl", "v8BreakIterator"] .READ
    ⟨"7.0.0", .null, some "9.0.0"⟩ "9.0.0" (Or.inr (by decide)) rfl

/-- C18. Registry invariant: every lifecycle record of `rawModules` and of
`globals`, at any depth and under any of the keys READ, CALL and CONSTRUCT,
carries a deprecation version `since` that is not empty and is a version; so
does every record the registries hold for a path and a kind. The registries
hold 97 and 17 records. -/
theorem registry_since_defined :
    (∀ r ∈ rawModules.records ++ globals.records,
      r.2.2.since ≠ "" ∧ ∃ v, parseVersion r.2.2.since.data = some v) ∧
    (∀ (path : List String) (type : ReferenceType) (info : DeprecatedInfo),
      rawModules.lookup path type = some info ∨ globals.lookup path type = some info →
        info.since ≠ "" ∧ ∃ v, parseVersion info.since.data = some v) ∧
    rawModules.records.length = 97 ∧ globals.records.length = 17 := by
  have hall : ∀ r ∈ rawModules.records ++ globals.records,
      r.2.2.since ≠ "" ∧ ∃ v, parseVersion r.2.2.since.data = some v := by
    intro r hr
    have h := List.all_eq_true.1 records_since_version r hr
    simp only [Bool.and_eq_true, bne_iff_ne, ne_eq, Option.isSome_iff_exists] at h
    exact h
  refine ⟨hall, fun path type info h => ?_, by decide, by decide⟩
  exact hall (path, type, info) (registry_mem_records path type info h)

/-- C18, at the record of the module member `fs.exists`. -/
theorem registry_since_defined_witness :
    ("4.0.0" : String) ≠ "" ∧ ∃ v, parseVersion "4.0.0".data = some v :=
  registry_since_defined.2.1 ["fs", "exists"] .READ
    ⟨"4.0.0", .candidates [⟨"'fs.stat()'", "0.0.2"⟩, ⟨"'fs.access()'", "0.11.15"⟩], none⟩
    (Or.inl (by decide))

/-! ## Totality and independence -/

theorem finding_messageId (sv : Semver) (version : sv.Range) (r : TrackedReference) :
    ((globalFinding sv version r).messageId = "deprecated" ∨
      (globalFinding sv version r).messageId = "removed") ∧
    ((moduleFinding sv version r).messageId = "deprecated" ∨
      (moduleFinding sv version r).messageId = "removed") := by
  simp only [globalFinding, moduleFinding, itemDescriptor_messageId]
  by_cases h : truthy (r.info.removed.getD "") = true <;> simp [h]

/-- C19. Totality: for every resolved reference, every target range and every
pair of ignore sets, the reporting step yields exactly one outcome: no finding,
one `deprecated` finding, or one `removed` finding; the three exclude one
another. -/
theorem report_total (sv : Semver) (raw : Option RawOptions) (version : sv.Range)
    (r : TrackedReference) :
    (create sv raw version [r] [] [] = [] ∨
      (∃ d, create sv raw version [r] [] [] = [d] ∧ d.messageId = "deprecated") ∨
      (∃ d, create sv raw version [r] [] [] = [d] ∧ d.messageId = "removed")) ∧
    (create sv raw version [] [r] [] = [] ∨
      (∃ d, create sv raw version [] [r] [] = [d] ∧ d.messageId = "deprecated") ∨
      (∃ d, create sv raw version [] [r] [] = [d] ∧ d.messageId = "removed")) ∧
    (create sv raw version [] [] [r] = [] ∨
      (∃ d, create sv raw version [] [] [r] = [d] ∧ d.messageId = "deprecated") ∨
      (∃ d, create sv raw version [] [] [r] = [d] ∧ d.messageId = "removed")) ∧
    (∀ d : Descriptor, ([] : List Descriptor) ≠ [d]) ∧
    (∀ d : Descriptor, ¬ (d.messageId = "deprecated" ∧ d.messageId = "removed")) := by
  have hf := finding_messageId sv version r
  refine ⟨?_, ?_, ?_, fun d => by simp, fun d h => ?_⟩
  · rw [create_eq]
    by_cases hi : toName r.type r.path ∈ (raw.getD {}).ignoreGlobalItems.getD []
    · exact Or.inl (by simp [hi])
    · rcases hf.1 with h | h
      · exact Or.inr (Or.inl ⟨_, by simp [hi], h⟩)
      · exact Or.inr (Or.inr ⟨_, by simp [hi], h⟩)
  · rw [create_eq]
    by_cases hi : toName r.type r.path ∈ (raw.getD {}).ignoreModuleItems.getD []
    · exact Or.inl (by simp [hi])
    · rcases hf.2 with h | h
      · exact Or.inr (Or.inl ⟨_, by simp [hi], h⟩)
      · exact Or.inr (Or.inr ⟨_, by simp [hi], h⟩)
  · rw [create_eq]
    by_cases hi : toName r.type r.path ∈ (raw.getD {}).ignoreModuleItems.getD []
    · exact Or.inl (by simp [hi])
    · rcases hf.2 with h | h
      · exact Or.inr (Or.inl ⟨_, by simp [hi], h⟩)
      · exact Or.inr (Or.inr ⟨_, by simp [hi], h⟩)
  · rw [h.1] at h
    exact absurd h.2 (by decide)

/-- C20. Per-finding independence: the findings for a sequence of references
are the concatenation, in order, of the findings each reference produces alone,
and the message id and data reported for a reference depend only on its kind,
path and record, the target range and the ignore sets. -/
theorem findings_independent (sv : Semver) (raw : Option RawOptions) (version : sv.Range) :
    (∀ gs cs es : List TrackedReference,
      create sv raw version gs cs es =
        gs.flatMap (fun r => create sv raw version [r] [] []) ++
        cs.flatMap (fun r => create sv raw version [] [r] []) ++
        es.flatMap (fun r => create sv raw version [] [] [r])) ∧
    (∀ r r' : TrackedReference, r.type = r'.type → r.path = r'.path → r.info = r'.info →
      (create sv raw version [r] [] []).map (fun d => (d.messageId, d.data)) =
        (create sv raw version [r'] [] []).map (fun d => (d.messageId, d.data)) ∧
      (create sv raw version [] [r] []).map (fun d => (d.messageId, d.data)) =
        (create sv raw version [] [r'] []).map (fun d => (d.messageId, d.data)) ∧
      (create sv raw version [] [] [r]).map (fun d => (d.messageId, d.data)) =
        (create sv raw version [] [] [r']).map (fun d => (d.messageId, d.data))) := by
  refine ⟨fun gs cs es => ?_, fun r r' ht hp hi => ?_⟩
  · simp only [create_eq, List.nil_append, List.filter_nil, List.map_nil, List.append_nil,
      List.filter_append, List.map_append, List.append_assoc]
    congr 1
    · induction gs with
      | nil => rfl
      | cons g gs ih =>
        rw [List.flatMap_cons, ← ih]
        by_cases h : toName g.type g.path ∈ (raw.getD {}).ignoreGlobalItems.getD [] <;>
          simp [List.filter_cons, h]
    · congr 1
      · induction cs with
        | nil => rfl
        | cons c cs ih =>
          rw [List.flatMap_cons, ← ih]
          by_cases h : toName c.type c.path ∈ (raw.getD {}).ignoreModuleItems.getD [] <;>
            simp [List.filter_cons, h]
      · induction es with
        | nil => rfl
        | cons e es ih =>
          rw [List.flatMap_cons, ← ih]
          by_cases h : toName e.type e.path ∈ (raw.getD {}).ignoreModuleItems.getD [] <;>
            simp [List.filter_cons, h]
  · obtain ⟨n, p, t, i⟩ := r
    obtain ⟨n', p', t', i'⟩ := r'
    simp only at ht hp hi
    subst ht; subst hp; subst hi
    simp only [create_eq]
    refine ⟨?_, ?_, ?_⟩ <;>
    · by_cases h1 : toName t p ∈ (raw.getD {}).ignoreGlobalItems.getD [] <;>
        by_cases h2 : toName t p ∈ (raw.getD {}).ignoreModuleItems.getD [] <;>
        simp [h1, h2, globalFinding, moduleFinding, itemDescriptor]

/-- C20, at two uses of `new Buffer()` followed by a read of `process.binding`
and a read of the module `domain`. -/
theorem findings_independent_witness :
    (create semver none (VersionRange.exact ⟨16, 0, 0⟩) [newBuffer 1] [] []).map
        (fun d => (d.messageId, d.data)) =
      (create semver none (VersionRange.exact ⟨16, 0, 0⟩) [newBuffer 2] [] []).map
        (fun d => (d.messageId, d.data)) ∧
    create semver none (VersionRange.exact ⟨16, 0, 0⟩)
        [newBuffer 1, newBuffer 2, readProcessBinding 3] [readDomain 4] [] =
      create semver none (VersionRange.exact ⟨16, 0, 0⟩) [newBuffer 1] [] [] ++
      create semver none (VersionRange.exact ⟨16, 0, 0⟩) [newBuffer 2] [] [] ++
      create semver none (VersionRange.exact ⟨16, 0, 0⟩) [readProcessBinding 3] [] [] ++
      create semver none (VersionRange.exact ⟨16, 0, 0⟩) [] [readDomain 4] [] :=
  ⟨((findings_independent semver none (VersionRange.exact ⟨16, 0, 0⟩)).2
      (newBuffer 1) (newBuffer 2) rfl rfl rfl).1,
   by decide⟩

/-! ## The options schema -/

set_option maxRecDepth 100000 in
theorem modules_names_enumerated :
    (modules.records.all fun r =>
      decide (toName r.2.1 r.1 ∈ enumeratePropertyNames rawModules)) = true := by
  decide

set_option maxRecDepth 100000 in
theorem enumerated_names_tracked :
    ((enumeratePropertyNames rawModules).all fun x =>
      decide (x ∈ modules.records.map fun r => toName r.2.1 r.1)) = true := by
  decide

theorem validates_singleton (s : ArraySchema) (x : String) :
    s.validates [x] = true ↔ x ∈ s.enum := by
  simp [ArraySchema.validates]

/-- C21. Ignore-list validation: the values the schema accepts for
`ignoreModuleItems` (resp. `ignoreGlobalItems`) are exactly the canonical names
of the records of the module (resp. global) registry; an options object with an
entry that is no such name is rejected; and every name under which the rule can
report a finding in a namespace, also for a module spelled with the `node:`
prefix, is an accepted entry of the ignore list of that namespace. -/
theorem ignore_schema :
    (∀ x : String, ignoreModuleItemsSchema.validates [x] = true ↔
      ∃ r ∈ rawModules.records, x = toName r.2.1 r.1) ∧
    (∀ x : String, ignoreGlobalItemsSchema.validates [x] = true ↔
      ∃ r ∈ globals.records, x = toName r.2.1 r.1) ∧
    (∀ (raw : RawOptions) (items : List String) (x : String),
      raw.ignoreModuleItems = some items → x ∈ items →
      (¬ ∃ r ∈ rawModules.records, x = toName r.2.1 r.1) → schemaAccepts raw = false) ∧
    (∀ (raw : RawOptions) (items : List String) (x : String),
      raw.ignoreGlobalItems = some items → x ∈ items →
      (¬ ∃ r ∈ globals.records, x = toName r.2.1 r.1) → schemaAccepts raw = false) ∧
    (∀ (path : List String) (type : ReferenceType) (info : DeprecatedInfo),
      modules.lookup path type = some info →
        ignoreModuleItemsSchema.validates [toName type path] = true) ∧
    (∀ (path : List String) (type : ReferenceType) (info : DeprecatedInfo),
      globals.lookup path type = some info →
        ignoreGlobalItemsSchema.validates [toName type path] = true) ∧
    (∀ x : String, ignoreModuleItemsSchema.validates [x] = true →
      ∃ r ∈ modules.records, x = toName r.2.1 r.1) := by
  have hmem : ∀ (m : TraceMap) (x : String),
      x ∈ enumeratePropertyNames m ↔ ∃ r ∈ m.records, x = toName r.2.1 r.1 := by
    intro m x
    simp only [enumeratePropertyNames, List.mem_map]
    constructor
    · rintro ⟨r, hr, rfl⟩; exact ⟨r, hr, rfl⟩
    · rintro ⟨r, hr, rfl⟩; exact ⟨r, hr, rfl⟩
  refine ⟨fun x => ?_, fun x => ?_, fun raw items x hraw hx hno => ?_,
    fun raw items x hraw hx hno => ?_, fun path type info h => ?_, fun path type info h => ?_,
    fun x hx => ?_⟩
  · rw [validates_singleton]; exact hmem rawModules x
  · rw [validates_singleton]; exact hmem globals x
  · have hnot : x ∉ ignoreModuleItemsSchema.enum := fun h => hno ((hmem rawModules x).1 h)
    have : ignoreModuleItemsSchema.validates items = false := by
      simp only [ArraySchema.validates, Bool.and_eq_false_iff]
      left
      rw [← Bool.not_eq_true, List.all_eq_true]
      intro hall
      exact hnot (by simpa using hall x hx)
    simp [schemaAccepts, hraw, this]
  · have hnot : x ∉ ignoreGlobalItemsSchema.enum := fun h => hno ((hmem globals x).1 h)
    have : ignoreGlobalItemsSchema.validates items = false := by
      simp only [ArraySchema.validates, Bool.and_eq_false_iff]
      left
      rw [← Bool.not_eq_true, List.all_eq_true]
      intro hall
      exact hnot (by simpa using hall x hx)
    simp [schemaAccepts, hraw, this]
  · rw [validates_singleton]
    have hr := mem_records_of_lookup path type info modules h
    have := List.all_eq_true.1 modules_names_enumerated (path, type, info) hr
    simpa using this
  · rw [validates_singleton]
    exact (hmem globals _).2 ⟨(path, type, info), mem_records_of_lookup path type info globals h,
      rfl⟩
  · rw [validates_singleton] at hx
    have := List.all_eq_true.1 enumerated_names_tracked x hx
    simp only [decide_eq_true_eq, List.mem_map] at this
    obtain ⟨r, hr, rfl⟩ := this
    exact ⟨r, hr, rfl⟩

/-- C21, at the names `fs.exists` and `process` and at the module member
`node:fs`, `exists`. -/
theorem ignore_schema_witness :
    ignoreModuleItemsSchema.validates [toName .READ ["node:fs", "exists"]] = true ∧
    schemaAccepts { ignoreModuleItems := some ["fs.exists", "process"] } = false ∧
    schemaAccepts { ignoreModuleItems := some ["fs.exists"],
                    ignoreGlobalItems := some ["new Buffer()"] } = true :=
  ⟨ignore_schema.2.2.2.2.1 ["node:fs", "exists"] .READ
      ⟨"4.0.0", .candidates [⟨"'fs.stat()'", "0.0.2"⟩, ⟨"'fs.access()'", "0.11.15"⟩], none⟩
      (by decide),
   ignore_schema.2.2.1 { ignoreModuleItems := some ["fs.exists", "process"] }
      ["fs.exists", "process"] "process" rfl (by decide) (by decide),
   by decide⟩

/-- C23. `safe-buffer` is deprecated like `buffer`: the trace map under
`safe-buffer` is the one under `buffer`, so for every member and operation kind
both hold the same record, with the same deprecation version and the same
replacement candidates; what `buffer` tracks is `Buffer` for CONSTRUCT and CALL
and `SlowBuffer` for READ, and `safe-buffer` tracks these and nothing else. -/
theorem safe_buffer_like_buffer :
    rawModules.get "safe-buffer" = rawModules.get "buffer" ∧
    (∀ (path : List String) (type : ReferenceType),
      rawModules.lookup ("safe-buffer" :: path) type =
        rawModules.lookup ("buffer" :: path) type) ∧
    (rawModules.records.filter fun r => r.1.head? == some "buffer").map
        (fun r => (r.1.tail, r.2.1, r.2.2)) =
      [(["Buffer"], .CONSTRUCT, ⟨"6.0.0", .candidates [⟨"'buffer.Buffer.alloc()'", "5.10.0"⟩,
          ⟨"'buffer.Buffer.from()'", "5.10.0"⟩], none⟩),
       (["Buffer"], .CALL, ⟨"6.0.0", .candidates [⟨"'buffer.Buffer.alloc()'", "5.10.0"⟩,
          ⟨"'buffer.Buffer.from()'", "5.10.0"⟩], none⟩),
       (["SlowBuffer"], .READ, ⟨"6.0.0",
          .candidates [⟨"'buffer.Buffer.allocUnsafeSlow()'", "5.12.0"⟩], none⟩)] ∧
    (rawModules.records.filter fun r => r.1.head? == some "safe-buffer").map
        (fun r => (r.1.tail, r.2.1, r.2.2)) =
      (rawModules.records.filter fun r => r.1.head? == some "buffer").map
        (fun r => (r.1.tail, r.2.1, r.2.2)) := by
  have hget : rawModules.get "safe-buffer" = rawModules.get "buffer" := by rfl
  refine ⟨hget, fun path type => ?_, by decide, by decide⟩
  simp only [TraceMap.lookup, TraceMap.descend, hget]

/-! ## Candidates and the deprecation version -/

theorem records_candidates_supported :
    (rawModules.records ++ globals.records).all (fun r =>
      match r.2.2.replacedBy with
      | .candidates cs =>
        cs.all (fun c => (parseVersion c.supported.data).isSome &&
          !versionBefore r.2.2.since c.supported) &&
        join " or " (cs.map Candidate.name) != ""
      | _ => true) = true := by
  decide

/-- A candidate is kept when the target range holds no version below its
supported version. -/
theorem supportedFilter_of_none_below (target : VersionRange) (c : Candidate) (vc : Version)
    (hc : parseVersion c.supported.data = some vc)
    (h : ∀ v : Version, target.test v = true → v.lt vc = false) :
    supportedFilter semver target c = true := by
  rw [supportedFilter_iff]
  refine ⟨_, getSemverRange_below c.supported vc hc, ?_⟩
  change VersionRange.intersects target (VersionRange.below vc) = false
  cases hi : VersionRange.intersects target (VersionRange.below vc) with
  | false => rfl
  | true =>
    obtain ⟨v, hv, hb⟩ := (VersionRange.intersects_iff _ _).1 hi
    rw [VersionRange.test_below] at hb
    rw [h v hv] at hb
    exact absurd hb (by simp)

/-- C33. Registry invariant: for every record of `rawModules` and of `globals`
whose replacement is a list of candidates, the deprecation version `since` and
the supported version of every candidate are versions, and the supported
version is at most `since` in semver order; so for every target range that
holds no version below `since` the filter of `toReplaceMessage` keeps every
declared candidate, and the result names them all, in declaration order. -/
theorem registry_candidates_supported (path : List String) (type : ReferenceType)
    (info : DeprecatedInfo) (cs : List Candidate)
    (hrec : (path, type, info) ∈ rawModules.records ++ globals.records)
    (hcs : info.replacedBy = .candidates cs) :
    ∃ vs, parseVersion info.since.data = some vs ∧
      (∀ c ∈ cs, ∃ vc, parseVersion c.supported.data = some vc ∧ vc.le vs = true) ∧
      (∀ target : VersionRange, (∀ v : Version, target.test v = true → v.lt vs = false) →
        cs.filter (supportedFilter semver target) = cs ∧
        toReplaceMessage semver info.replacedBy target =
          ". Use " ++ join " or " (cs.map Candidate.name) ++ " instead") := by
  have hsince := List.all_eq_true.1 records_since_version _ hrec
  simp only [Bool.and_eq_true, bne_iff_ne, ne_eq, Option.isSome_iff_exists] at hsince
  obtain ⟨vs, hvs⟩ := hsince.2
  have hall := List.all_eq_true.1 records_candidates_supported _ hrec
  simp only [hcs, Bool.and_eq_true, List.all_eq_true, bne_iff_ne, ne_eq,
    Option.isSome_iff_exists, Bool.not_eq_true'] at hall
  have hsup : ∀ c ∈ cs, ∃ vc, parseVersion c.supported.data = some vc ∧ vc.le vs = true := by
    intro c hc
    obtain ⟨⟨vc, hvc⟩, hnb⟩ := hall.1 c hc
    refine ⟨vc, hvc, ?_⟩
    rw [Version.le_iff]
    intro hlt
    have : versionBefore info.since c.supported = true :=
      (versionBefore_iff _ _).2 ⟨vs, vc, hvs, hvc, hlt⟩
    rw [this] at hnb
    exact absurd hnb (by simp)
  refine ⟨vs, hvs, hsup, fun target htarget => ?_⟩
  have hkeep : cs.filter (supportedFilter semver target) = cs := by
    rw [List.filter_eq_self]
    intro c hc
    obtain ⟨vc, hvc, hle⟩ := hsup c hc
    refine supportedFilter_of_none_below target c vc hvc fun v hv => ?_
    cases hlt : v.lt vc with
    | false => rfl
    | true =>
      have := Version.lt_of_lt_of_le hlt hle
      rw [htarget v hv] at this
      exact absurd this (by simp)
  refine ⟨hkeep, ?_⟩
  rw [hcs, toReplaceMessage_candidates, hkeep, if_neg hall.2]

/-- C33, at the record of the module member `fs.exists`, deprecated since 4.0.0,
with the target range of the versions from 4.0.0 on: both candidates are
suggested. -/
theorem registry_candidates_supported_witness :
    rawModules.lookup ["fs", "exists"] .READ =
      some ⟨"4.0.0", .candidates [⟨"'fs.stat()'", "0.0.2"⟩, ⟨"'fs.access()'", "0.11.15"⟩],
        none⟩ ∧
    [(⟨"'fs.stat()'", "0.0.2"⟩ : Candidate), ⟨"'fs.access()'", "0.11.15"⟩].filter
        (supportedFilter semver (VersionRange.atLeast ⟨4, 0, 0⟩)) =
      [⟨"'fs.stat()'", "0.0.2"⟩, ⟨"'fs.access()'", "0.11.15"⟩] ∧
    toReplaceMessage semver
        (.candidates [⟨"'fs.stat()'", "0.0.2"⟩, ⟨"'fs.access()'", "0.11.15"⟩])
        (VersionRange.atLeast ⟨4, 0, 0⟩) =
      ". Use 'fs.stat()' or 'fs.access()' instead" := by
  obtain ⟨vs, hvs, -, h⟩ := registry_candidates_supported ["fs", "exists"] .READ
    ⟨"4.0.0", .candidates [⟨"'fs.stat()'", "0.0.2"⟩, ⟨"'fs.access()'", "0.11.15"⟩], none⟩
    [⟨"'fs.stat()'", "0.0.2"⟩, ⟨"'fs.access()'", "0.11.15"⟩]
    (registry_mem_records _ _ _ (Or.inl (by decide))) rfl
  have hv : (⟨4, 0, 0⟩ : Version) = vs := by
    have h4 : parseVersion "4.0.0".data = some ⟨4, 0, 0⟩ := by decide
    exact Option.some.inj (h4.symm.trans hvs)
  subst hv
  have ht := h (VersionRange.atLeast ⟨4, 0, 0⟩) (fun v hv => by
    simpa [VersionRange.atLeast, VersionRange.test, Interval.test, Version.le] using hv)
  exact ⟨by decide, ht.1, ht.2.trans (by decide)⟩

/-! ## Rendered texts -/

theorem render_deprecated (d : Descriptor) (h : d.messageId = "deprecated") :
    render d = some (d.data.name ++ " was deprecated since v" ++ d.data.version ++
      d.data.replace ++ ".") := by
  unfold render
  rw [h]
  show some _ = some _
  congr 1
  apply String.ext
  simp only [String.data_append, List.append_assoc]
  rfl

/-- C34. For every record with no removal version, the finding `reportItem`
produces is a `deprecated` one; its data field `removed` is the empty string
and `replace` is the result of `toReplaceMessage`; its rendered text is the
name, then ` was deprecated since v`, then `info.since`, then the result of
`toReplaceMessage`, then `.`. When `toReplaceMessage` gives no clause, the text
is the name, ` was deprecated since v`, `info.since` and `.`. -/
theorem deprecated_text (sv : Semver) (version : sv.Range) (reports : List Descriptor)
    (node : Nat) (name : String) (info : DeprecatedInfo)
    (hdep : info.removed = none ∨ info.removed = some "") :
    ∃ d, reportItem sv version reports node name info = reports ++ [d] ∧
      d.messageId = "deprecated" ∧ d.data.name = name ∧ d.data.version = info.since ∧
      d.data.removed = "" ∧
      d.data.replace = toReplaceMessage sv info.replacedBy version ∧
      render d = some (name ++ " was deprecated since v" ++ info.since ++
        toReplaceMessage sv info.replacedBy version ++ ".") ∧
      (toReplaceMessage sv info.replacedBy version = "" →
        render d = some (name ++ " was deprecated since v" ++ info.since ++ ".")) := by
  have hfalsy : truthy (info.removed.getD "") = false := by
    rcases hdep with h | h <;> simp [h, truthy]
  have hid : (itemDescriptor sv version node name info).messageId = "deprecated" := by
    simp [itemDescriptor_messageId, hfalsy]
  have hrem : (itemDescriptor sv version node name info).data.removed = "" := by
    simp [itemDescriptor, hfalsy]
  have hrender := render_deprecated _ hid
  refine ⟨itemDescriptor sv version node name info, rfl, hid, rfl, rfl, hrem, rfl, hrender,
    fun hnone => ?_⟩
  rw [hrender]
  show some (name ++ " was deprecated since v" ++ info.since ++
    toReplaceMessage sv info.replacedBy version ++ ".") = _
  rw [hnone, String.append_empty]

/-- C34, at the global `Buffer` as a constructor with target 6.1.0, where both
candidates are suggested, and at `process.binding`, which has no replacement. -/
theorem deprecated_text_witness :
    (∃ d, reportItem semver (VersionRange.exact ⟨6, 1, 0⟩) [] 1 "'new Buffer()'"
        (newBuffer 1).info = [] ++ [d] ∧
      d.messageId = "deprecated" ∧ d.data.name = "'new Buffer()'" ∧
      d.data.version = (newBuffer 1).info.since ∧ d.data.removed = "" ∧
      d.data.replace =
        toReplaceMessage semver (newBuffer 1).info.replacedBy (VersionRange.exact ⟨6, 1, 0⟩) ∧
      render d = some ("'new Buffer()'" ++ " was deprecated since v" ++
        (newBuffer 1).info.since ++
        toReplaceMessage semver (newBuffer 1).info.replacedBy (VersionRange.exact ⟨6, 1, 0⟩) ++
        ".") ∧
      (toReplaceMessage semver (newBuffer 1).info.replacedBy (VersionRange.exact ⟨6, 1, 0⟩) = "" →
        render d = some ("'new Buffer()'" ++ " was deprecated since v" ++
          (newBuffer 1).info.since ++ "."))) ∧
    toReplaceMessage semver (newBuffer 1).info.replacedBy (VersionRange.exact ⟨6, 1, 0⟩) =
      ". Use 'Buffer.alloc()' or 'Buffer.from()' instead" ∧
    (reportItem semver (VersionRange.exact ⟨16, 0, 0⟩) [] 1 "'process.binding'"
        (readProcessBinding 1).info).map render =
      [some "'process.binding' was deprecated since v10.9.0."] :=
  ⟨deprecated_text semver (VersionRange.exact ⟨6, 1, 0⟩) [] 1 "'new Buffer()'"
      (newBuffer 1).info (Or.inl rfl),
   by decide, by decide⟩

/-- C35. For every record with a removal version, every replacement the record
may carry and every target range, the finding `reportItem` produces is a
`removed` one whose rendered text is the name, then ` was deprecated since v`,
then `since`, then `, and removed in v`, then the removal version, then `.`:
the text holds no replacement clause, also when the data field `replace` holds
one. -/
theorem removed_text (sv : Semver) (version : sv.Range) (reports : List Descriptor)
    (node : Nat) (name since removed : String) (replacedBy : ReplacedBy)
    (hne : removed ≠ "") :
    ∃ d, reportItem sv version reports node name ⟨since, replacedBy, some removed⟩ =
        reports ++ [d] ∧
      d.messageId = "removed" ∧
      d.data.replace = toReplaceMessage sv replacedBy version ∧
      render d = some (name ++ " was deprecated since v" ++ since ++
        ", and removed in v" ++ removed ++ ".") := by
  have hid : (itemDescriptor sv version node name ⟨since, replacedBy, some removed⟩).messageId =
      "removed" := by
    simp [itemDescriptor_messageId, truthy, hne]
  have hrem : (itemDescriptor sv version node name ⟨since, replacedBy, some removed⟩).data.removed =
      removed := by
    simp [itemDescriptor, truthy, hne]
  refine ⟨_, rfl, hid, rfl, ?_⟩
  rw [render_removed _ hid, hrem]
  rfl

/-- C35, at a record deprecated since 7.0.0 and removed in 9.0.0 that carries a
free-text replacement, with target 9.5.0: the data hold the clause, the text
does not. -/
theorem removed_text_witness :
    (∃ d, reportItem semver (VersionRange.exact ⟨9, 5, 0⟩) [] 1 "'Intl.v8BreakIterator'"
        ⟨"7.0.0", .text "another API", some "9.0.0"⟩ = [] ++ [d] ∧
      d.messageId = "removed" ∧
      d.data.replace = toReplaceMessage semver (.text "another API")
        (VersionRange.exact ⟨9, 5, 0⟩) ∧
      render d = some ("'Intl.v8BreakIterator'" ++ " was deprecated since v" ++ "7.0.0" ++
        ", and removed in v" ++ "9.0.0" ++ ".")) ∧
    toReplaceMessage semver (.text "another API") (VersionRange.exact ⟨9, 5, 0⟩) =
      ". Use another API instead" :=
  ⟨removed_text semver (VersionRange.exact ⟨9, 5, 0⟩) [] 1 "'Intl.v8BreakIterator'" "7.0.0"
    "9.0.0" (.text "another API") (by decide), by decide⟩

/-! ## Names and operation kinds -/

theorem toName_length (type : ReferenceType) (path : List String) :
    (toName type path).length =
      (unprefixNodeColon (join "." path)).length +
        (match type with
          | .READ => 0
          | .CALL => 2
          | .CONSTRUCT => 6) := by
  have h1 : ("()" : String).length = 2 := rfl
  have h2 : ("new " : String).length = 4 := rfl
  cases type
  · simp [toName]
  · simp [toName, String.length_append, h1]
  · simp [toName, String.length_append, h1, h2]
    omega

/-- The name `toName` renders for a path tells the operation kind. -/
theorem toName_kind_injective (path : List String) (t t' : ReferenceType)
    (h : toName t path = toName t' path) : t = t' := by
  have hl := congrArg String.length h
  rw [toName_length, toName_length] at hl
  cases t <;> cases t' <;> first | rfl | (simp at hl)

theorem length_ne_of_append (s pre post : String) (h : 0 < pre.length + post.length) :
    pre ++ s ++ post ≠ s := by
  intro he
  have hl := congrArg String.length he
  simp only [String.length_append] at hl
  omega

/-- C36. For every access path, the names `toName` renders for the READ, CALL
and CONSTRUCT kinds are pairwise distinct; so an ignore entry that is the name
of one operation kind of a path leaves the finding of every other kind of the
same path reported, in the global namespace and in the module namespace. -/
theorem toName_kinds_distinct (path : List String) :
    toName .READ path ≠ toName .CALL path ∧
    toName .READ path ≠ toName .CONSTRUCT path ∧
    toName .CALL path ≠ toName .CONSTRUCT path ∧
    (∀ (sv : Semver) (version : sv.Range) (t t' : ReferenceType) (node : Nat)
        (info : DeprecatedInfo), t ≠ t' →
      create sv (some { ignoreGlobalItems := some [toName t path] }) version
          [⟨node, path, t', info⟩] [] [] =
        [globalFinding sv version ⟨node, path, t', info⟩] ∧
      create sv (some { ignoreModuleItems := some [toName t path] }) version
          [] [⟨node, path, t', info⟩] [] =
        [moduleFinding sv version ⟨node, path, t', info⟩] ∧
      create sv (some { ignoreModuleItems := some [toName t path] }) version
          [] [] [⟨node, path, t', info⟩] =
        [moduleFinding sv version ⟨node, path, t', info⟩]) := by
  refine ⟨fun h => ?_, fun h => ?_, fun h => ?_, fun sv version t t' node info hne => ?_⟩
  · exact absurd (toName_kind_injective path _ _ h) (by decide)
  · exact absurd (toName_kind_injective path _ _ h) (by decide)
  · exact absurd (toName_kind_injective path _ _ h) (by decide)
  · have hn : ¬ toName t' path = toName t path := fun h =>
      hne (toName_kind_injective path _ _ h).symm
    refine ⟨?_, ?_, ?_⟩ <;> (rw [create_eq]; simp [hn])

/-- C36, at `buffer.Buffer`: with `new buffer.Buffer()` ignored, the call
`buffer.Buffer()` is reported. -/
theorem toName_kinds_distinct_witness :
    modules.lookup ["buffer", "Buffer"] .CALL =
      some ⟨"6.0.0", .candidates [⟨"'buffer.Buffer.alloc()'", "5.10.0"⟩,
        ⟨"'buffer.Buffer.from()'", "5.10.0"⟩], none⟩ ∧
    toName .CONSTRUCT ["buffer", "Buffer"] = "new buffer.Buffer()" ∧
    toName .CALL ["buffer", "Buffer"] = "buffer.Buffer()" ∧
    create semver (some { ignoreModuleItems := some [toName .CONSTRUCT ["buffer", "Buffer"]] })
        (VersionRange.exact ⟨16, 0, 0⟩) []
        [⟨1, ["buffer", "Buffer"], .CALL, ⟨"6.0.0", .candidates
          [⟨"'buffer.Buffer.alloc()'", "5.10.0"⟩, ⟨"'buffer.Buffer.from()'", "5.10.0"⟩], none⟩⟩]
        [] =
      [moduleFinding semver (VersionRange.exact ⟨16, 0, 0⟩)
        ⟨1, ["buffer", "Buffer"], .CALL, ⟨"6.0.0", .candidates
          [⟨"'buffer.Buffer.alloc()'", "5.10.0"⟩, ⟨"'buffer.Buffer.from()'", "5.10.0"⟩], none⟩⟩] :=
  ⟨by decide, by decide, by decide,
   ((toName_kinds_distinct ["buffer", "Buffer"]).2.2.2 semver (VersionRange.exact ⟨16, 0, 0⟩)
      .CONSTRUCT .CALL 1 _ (by decide)).2.1⟩

/-- C37. The ignore key of a whole-module finding is the bare canonical name:
a module finding with a path of length 1 is suppressed if and only if
`toName(type, path)`, without quotes and without the indicator ` module`, is in
`ignoredModuleItems`. The displayed name is that name in quotes followed by
` module`; an ignore list that holds the displayed name, the quoted name and
the name followed by the indicator, and not the bare name, leaves the finding
reported. -/
theorem module_ignore_key (sv : Semver) (version : sv.Range) (items : List String)
    (r : TrackedReference) (hlen : r.path.length = 1) :
    (create sv (some { ignoreModuleItems := some items }) version [] [r] [] = [] ↔
      toName r.type r.path ∈ items) ∧
    (create sv (some { ignoreModuleItems := some items }) version [] [] [r] = [] ↔
      toName r.type r.path ∈ items) ∧
    (moduleFinding sv version r).data.name = "'" ++ toName r.type r.path ++ "' module" ∧
    create sv (some ⟨some ["'" ++ toName r.type r.path ++ "' module",
        "'" ++ toName r.type r.path ++ "'", toName r.type r.path ++ " module"], none⟩)
        version [] [r] [] =
      [moduleFinding sv version r] := by
  have h1 : "'" ++ toName r.type r.path ++ "' module" ≠ toName r.type r.path :=
    length_ne_of_append _ "'" "' module" (by decide)
  have h2 : "'" ++ toName r.type r.path ++ "'" ≠ toName r.type r.path :=
    length_ne_of_append _ "'" "'" (by decide)
  have h3 : toName r.type r.path ++ " module" ≠ toName r.type r.path := by
    have := length_ne_of_append (toName r.type r.path) "" " module" (by decide)
    simpa using this
  refine ⟨?_, ?_, ?_, ?_⟩
  · rw [create_eq]
    by_cases hi : toName r.type r.path ∈ items <;> simp [hi]
  · rw [create_eq]
    by_cases hi : toName r.type r.path ∈ items <;> simp [hi]
  · show "'" ++ toName r.type r.path ++ "'" ++ (if r.path.length = 1 then " module" else "") = _
    rw [if_pos hlen]
    apply String.ext
    simp [String.data_append]
  · rw [create_eq]
    simp [Ne.symm h1, Ne.symm h2, Ne.symm h3]

/-- C37, at a read of the module `domain`: the entry `domain` suppresses the
finding, the displayed strings do not. -/
theorem module_ignore_key_witness :
    (create semver (some { ignoreModuleItems := some ["domain"] }) (VersionRange.exact ⟨16, 0, 0⟩)
        [] [readDomain 1] [] = [] ↔
      toName (readDomain 1).type (readDomain 1).path ∈ ["domain"]) ∧
    toName (readDomain 1).type (readDomain 1).path = "domain" ∧
    (create semver (some { ignoreModuleItems := some ["'domain' module", "'domain'",
        "domain module"] }) (VersionRange.exact ⟨16, 0, 0⟩) [] [readDomain 1] []).map render =
      [some "'domain' module was deprecated since v4.0.0."] ∧
    create semver (some { ignoreModuleItems := some ["domain"] }) (VersionRange.exact ⟨16, 0, 0⟩)
        [] [readDomain 1] [] = [] :=
  ⟨(module_ignore_key semver (VersionRange.exact ⟨16, 0, 0⟩) ["domain"] (readDomain 1) rfl).1,
   by decide, by decide, by decide⟩

/-! ## The `process` sub-tree -/

/-- C38. The entry `process` of `globals` is the entry `process` of `modules`,
which is that of `rawModules`, and so is the entry `node:process`: for every
path below `process` and every operation kind the global registry and the
registry of modules hold the same record. The finding of a reference has the
same message id, version, removal version and replacement text in both
namespaces, and for a member of `process` (a path longer than 1) the same name
as well. The sub-tree holds five records. -/
theorem global_process_shares_module_tree :
    globals.get "process" = modules.get "process" ∧
    modules.get "process" = rawModules.get "process" ∧
    modules.get "node:process" = rawModules.get "process" ∧
    (∀ (path : List String) (type : ReferenceType),
      globals.lookup ("process" :: path) type = modules.lookup ("process" :: path) type ∧
      globals.lookup ("process" :: path) type = modules.lookup ("node:process" :: path) type) ∧
    (∀ (sv : Semver) (version : sv.Range) (r : TrackedReference),
      (globalFinding sv version r).messageId = (moduleFinding sv version r).messageId ∧
      (globalFinding sv version r).data.version = (moduleFinding sv version r).data.version ∧
      (globalFinding sv version r).data.removed = (moduleFinding sv version r).data.removed ∧
      (globalFinding sv version r).data.replace = (moduleFinding sv version r).data.replace ∧
      (r.path.length ≠ 1 → globalFinding sv version r = moduleFinding sv version r)) ∧
    ((globals.get "process").map TraceMap.records =
      some [(["EventEmitter"], .READ, ⟨"0.6.0", .text "'require(\"events\")'", none⟩),
            (["assert"], .READ, ⟨"10.0.0", .text "'require(\"assert\")'", none⟩),
            (["binding"], .READ, ⟨"10.9.0", .null, none⟩),
            (["env", "NODE_REPL_HISTORY_FILE"], .READ, ⟨"4.0.0", .text "'NODE_REPL_HISTORY'", none⟩),
            (["report", "triggerReport"], .READ,
              ⟨"11.12.0", .text "'process.report.writeReport()'", none⟩)]) := by
  have hg : globals.get "process" = modules.get "process" := rfl
  have hm : modules.get "process" = rawModules.get "process" := rfl
  have hn : modules.get "node:process" = rawModules.get "process" := rfl
  refine ⟨hg, hm, hn, fun path type => ?_, fun sv version r => ?_, by decide⟩
  · simp only [TraceMap.lookup, TraceMap.descend, hg, hm, hn, and_self]
  · refine ⟨rfl, rfl, rfl, rfl, fun hlen => ?_⟩
    simp [globalFinding, moduleFinding, hlen]

/-- C38, at `process.assert`: the same record in both registries and the same
finding in both namespaces. -/
theorem global_process_shares_module_tree_witness :
    globalFinding semver (VersionRange.exact ⟨16, 0, 0⟩)
        ⟨1, ["process", "assert"], .READ, ⟨"10.0.0", .text "'require(\"assert\")'", none⟩⟩ =
      moduleFinding semver (VersionRange.exact ⟨16, 0, 0⟩)
        ⟨1, ["process", "assert"], .READ, ⟨"10.0.0", .text "'require(\"assert\")'", none⟩⟩ ∧
    globals.lookup ["process", "assert"] .READ =
      some ⟨"10.0.0", .text "'require(\"assert\")'", none⟩ ∧
    modules.lookup ["process", "assert"] .READ =
      some ⟨"10.0.0", .text "'require(\"assert\")'", none⟩ ∧
    render (globalFinding semver (VersionRange.exact ⟨16, 0, 0⟩)
        ⟨1, ["process", "assert"], .READ, ⟨"10.0.0", .text "'require(\"assert\")'", none⟩⟩) =
      some "'process.assert' was deprecated since v10.0.0. Use 'require(\"assert\")' instead." :=
  ⟨(global_process_shares_module_tree.2.2.2.2.1 semver (VersionRange.exact ⟨16, 0, 0⟩)
      ⟨1, ["process", "assert"], .READ, ⟨"10.0.0", .text "'require(\"assert\")'", none⟩⟩).2.2.2.2
      (by decide),
   by decide, by decide, by decide⟩

end NoDeprecatedApi

namespace PreferGlobalTextDecoder

/-- C22. In the trace map of `prefer-global/text-decoder`, the module name with
the `node:` prefix and the one without resolve to the same entry: the trace map
under `node:util` is the one under `util`, which tracks a READ of
`TextDecoder` and nothing else, and the global namespace tracks a READ of
`TextDecoder` and nothing else. -/
theorem text_decoder_trace_map :
    traceMapModules.get "node:util" = traceMapModules.get "util" ∧
    traceMapModules.get "util" = some (.node [] [("TextDecoder", .node [(.READ, true)] [])]) ∧
    traceMapModules.children.map Prod.fst = ["util", "node:util"] ∧
    traceMapModules.kinds = [] ∧
    traceMapGlobals = .node [] [("TextDecoder", .node [(.READ, true)] [])] := by
  refine ⟨by rfl, by rfl, by rfl, by rfl, by rfl⟩

end PreferGlobalTextDecoder

namespace NoNewRequire

theorem foldl_newExpression (nodes : List NewExpression) (acc : List Descriptor) :
    nodes.foldl newExpression acc =
      acc ++ (nodes.filter fun n =>
        decide (n.callee.type = "Identifier" ∧ n.callee.name = some "require")).map
        (fun n => { node := n.id, messageId := "noNewRequire" }) := by
  induction nodes generalizing acc with
  | nil => simp
  | cons n ns ih =>
    rw [List.foldl_cons, ih]
    by_cases h : n.callee.type = "Identifier" ∧ n.callee.name = some "require"
    · simp [newExpression, h, List.filter_cons]
    · have h' : ¬ (n.callee.type = "Identifier" ∧ n.callee.name = some "require") := h
      rw [not_and] at h
      by_cases ht : n.callee.type = "Identifier"
      · simp [newExpression, ht, h ht, List.filter_cons]
      · simp [newExpression, ht, List.filter_cons]

/-- C24. `no-new-require` reports a `NewExpression` node with the message id
`noNewRequire` if and only if its callee is an `Identifier` whose name is
exactly `require`: the reports are those nodes, each once and in order. A node
whose callee is another identifier, a member expression or a call expression
is not reported. -/
theorem reports_new_require :
    (∀ nodes : List NewExpression,
      run nodes =
        (nodes.filter fun n =>
          decide (n.callee.type = "Identifier" ∧ n.callee.name = some "require")).map
          (fun n => { node := n.id, messageId := "noNewRequire" })) ∧
    (∀ node : NewExpression,
      run [node] = [{ node := node.id, messageId := "noNewRequire" }] ↔
        node.callee.type = "Identifier" ∧ node.callee.name = some "require") ∧
    (∀ node : NewExpression,
      run [node] = [] ↔
        ¬ (node.callee.type = "Identifier" ∧ node.callee.name = some "require")) ∧
    run [⟨1, { type := "Identifier", name := some "require" }⟩,
         ⟨2, { type := "Identifier", name := some "Require" }⟩,
         ⟨3, { type := "MemberExpression" }⟩,
         ⟨4, { type := "CallExpression" }⟩,
         ⟨5, { type := "Identifier", name := some "require" }⟩] =
      [⟨1, "noNewRequire"⟩, ⟨5, "noNewRequire"⟩] ∧
    messages "noNewRequire" = some "Unexpected use of new with require." := by
  have hrun : ∀ nodes : List NewExpression,
      run nodes =
        (nodes.filter fun n =>
          decide (n.callee.type = "Identifier" ∧ n.callee.name = some "require")).map
          (fun n => { node := n.id, messageId := "noNewRequire" }) := by
    intro nodes
    simp [run, foldl_newExpression]
  refine ⟨hrun, fun node => ?_, fun node => ?_, by decide, by decide⟩
  · rw [hrun]
    by_cases h : node.callee.type = "Identifier" ∧ node.callee.name = some "require"
    · simp [List.filter_cons, h]
    · simp [List.filter_cons, h]
  · rw [hrun]
    by_cases h : node.callee.type = "Identifier" ∧ node.callee.name = some "require"
    · simp [List.filter_cons, h]
    · simp [List.filter_cons, h]

end NoNewRequire

namespace NodeBuiltins

open NoDeprecatedApi (Version Interval VersionRange parseVersion parseRange join
  unprefixNodeColon)

/-! ## Ranges -/

theorem version_eq_of_not_lt {a b : Version} (h1 : a.lt b = false) (h2 : b.lt a = false) :
    a = b := by
  have h1' : ¬ (a.lt b = true) := by simp [h1]
  have h2' : ¬ (b.lt a = true) := by simp [h2]
  rw [Version.lt_iff] at h1' h2'
  obtain ⟨a1, a2, a3⟩ := a
  obtain ⟨b1, b2, b3⟩ := b
  simp only at h1' h2'
  simp only [Version.mk.injEq]
  omega

theorem lt_next_iff (v w : Version) : w.lt v.next = true ↔ w.le v = true := by
  rw [Version.le_iff, Version.lt_iff, Version.lt_iff]
  simp only [Version.next]
  omega

/-- The range of a single version holds that version and no other. -/
theorem test_exact (v w : Version) : (VersionRange.exact v).test w = true ↔ w = v := by
  simp only [VersionRange.exact, VersionRange.test, List.any_cons, List.any_nil, Bool.or_false,
    Interval.test, Bool.and_eq_true, lt_next_iff]
  constructor
  · rintro ⟨h1, h2⟩
    rw [Version.le_iff] at h1 h2
    exact version_eq_of_not_lt (by simpa using h1) (by simpa using h2)
  · rintro rfl
    exact ⟨Version.le_refl _, Version.le_refl _⟩

/-- The range of a single version intersects a range exactly when the version
satisfies it. -/
theorem intersects_exact (v : Version) (r : VersionRange) :
    VersionRange.intersects (VersionRange.exact v) r = r.test v := by
  cases h : r.test v with
  | true =>
    exact (VersionRange.intersects_iff _ _).2 ⟨v, (test_exact v v).2 rfl, h⟩
  | false =>
    cases hi : VersionRange.intersects (VersionRange.exact v) r with
    | false => rfl
    | true =>
      obtain ⟨w, hw, hr⟩ := (VersionRange.intersects_iff _ _).1 hi
      rw [(test_exact v w).1 hw, h] at hr
      exact absurd hr (by simp)

theorem lt_min_iff (v h c : Version) :
    v.lt (if h.lt c then h else c) = true ↔ v.lt h = true ∧ v.lt c = true := by
  by_cases hc : h.lt c = true
  · rw [if_pos hc]
    rw [Version.lt_iff] at hc
    simp only [Version.lt_iff]
    omega
  · rw [if_neg hc]
    rw [Version.lt_iff] at hc
    simp only [Version.lt_iff]
    omega

theorem max_le_iff (v a d : Version) :
    (if a.lt d then d else a).le v = true ↔ a.le v = true ∧ d.le v = true := by
  by_cases hc : a.lt d = true
  · rw [if_pos hc]
    rw [Version.lt_iff] at hc
    simp only [Version.le_iff, Version.lt_iff]
    omega
  · rw [if_neg hc]
    rw [Version.lt_iff] at hc
    simp only [Version.le_iff, Version.lt_iff]
    omega

theorem test_subtractInterval (i j : Interval) (v : Version) :
    (subtractInterval i j).any (fun k => k.test v) = true ↔
      i.test v = true ∧ j.test v = false := by
  obtain ⟨ilo, ihi⟩ := i
  obtain ⟨jlo, jhi⟩ := j
  have hj : (Interval.test ⟨jlo, jhi⟩ v = false) ↔ ¬ (Interval.test ⟨jlo, jhi⟩ v = true) := by
    simp
  rw [hj]
  have hle : jlo.le v = true ↔ ¬ (v.lt jlo = true) := Version.le_iff jlo v
  cases ihi with
  | none =>
    cases jhi with
    | none =>
      simp only [subtractInterval, List.any_cons, List.any_nil, Bool.or_false,
        Interval.test_iff, Option.some.injEq, forall_eq', reduceCtorEq, false_implies,
        implies_true, and_true, hle]
      tauto
    | some d =>
      have hd : d.le v = true ↔ ¬ (v.lt d = true) := Version.le_iff d v
      simp only [subtractInterval, List.any_cons, List.any_nil, Bool.or_false, Bool.or_eq_true,
        Interval.test_iff, Option.some.injEq, forall_eq', reduceCtorEq, false_implies,
        implies_true, and_true, max_le_iff, hle, hd]
      tauto
  | some h =>
    cases jhi with
    | none =>
      simp only [subtractInterval, List.any_cons, List.any_nil, Bool.or_false,
        Interval.test_iff, Option.some.injEq, forall_eq', reduceCtorEq, false_implies,
        implies_true, and_true, lt_min_iff, hle]
      tauto
    | some d =>
      have hd : d.le v = true ↔ ¬ (v.lt d = true) := Version.le_iff d v
      simp only [subtractInterval, List.any_cons, List.any_nil, Bool.or_false, Bool.or_eq_true,
        Interval.test_iff, Option.some.injEq, forall_eq', reduceCtorEq, false_implies,
        implies_true, and_true, lt_min_iff, max_le_iff, hle, hd]
      tauto

theorem test_subtractRange (r : VersionRange) (j : Interval) (v : Version) :
    VersionRange.test (subtractRange r j) v = true ↔
      VersionRange.test r v = true ∧ j.test v = false := by
  simp only [VersionRange.test, subtractRange, List.any_eq_true, List.mem_flatMap]
  constructor
  · rintro ⟨k, ⟨i, hi, hk⟩, hkv⟩
    have := (test_subtractInterval i j v).1 (List.any_eq_true.2 ⟨k, hk, hkv⟩)
    exact ⟨⟨i, hi, this.1⟩, this.2⟩
  · rintro ⟨⟨i, hi, hiv⟩, hj⟩
    obtain ⟨k, hk, hkv⟩ := List.any_eq_true.1 ((test_subtractInterval i j v).2 ⟨hiv, hj⟩)
    exact ⟨k, ⟨i, hi, hk⟩, hkv⟩

/-- The difference of two ranges holds the versions of the first that are not
in the second. -/
theorem test_rangeMinus (s : VersionRange) :
    ∀ (r : VersionRange) (v : Version),
      VersionRange.test (rangeMinus r s) v = true ↔
        VersionRange.test r v = true ∧ VersionRange.test s v = false := by
  induction s with
  | nil =>
    intro r v
    simp [rangeMinus, VersionRange.test]
  | cons j js ih =>
    intro r v
    have h := ih (subtractRange r j) v
    simp only [rangeMinus, List.foldl_cons] at h ⊢
    rw [h, test_subtractRange]
    simp only [VersionRange.test, List.any_cons, Bool.or_eq_false_iff]
    tauto

/-- A string that is a version is parsed as the range of that single version. -/
theorem parseRange_of_parseVersion (cs : List Char) (v : Version)
    (h : parseVersion cs = some v) : parseRange cs = some (VersionRange.exact v) := by
  have hnot : ∀ (c : Char) (rest : List Char), c.isDigit = false → c ≠ '.' → cs ≠ c :: rest := by
    intro c rest hd hdot heq
    rw [heq, NoDeprecatedApi.parseVersion_cons_of_not_digit c rest hd hdot] at h
    exact absurd h (by simp)
  unfold parseRange
  split
  case h_8 => rw [h]; rfl
  case h_1 rest => exact absurd rfl (hnot '<' _ (by decide) (by decide))
  case h_2 rest _ => exact absurd rfl (hnot '<' _ (by decide) (by decide))
  case h_3 rest => exact absurd rfl (hnot '>' _ (by decide) (by decide))
  case h_4 rest _ => exact absurd rfl (hnot '>' _ (by decide) (by decide))
  case h_5 rest => exact absurd rfl (hnot '=' _ (by decide) (by decide))
  case h_6 rest => exact absurd rfl (hnot '^' _ (by decide) (by decide))
  case h_7 rest => exact absurd rfl (hnot '~' _ (by decide) (by decide))

theorem test_flatten (rs : List VersionRange) (v : Version) :
    VersionRange.test rs.flatten v = true ↔ ∃ r ∈ rs, VersionRange.test r v = true := by
  simp only [VersionRange.test, List.any_eq_true, List.mem_flatten]
  constructor
  · rintro ⟨i, ⟨r, hr, hi⟩, hv⟩
    exact ⟨r, hr, i, hi, hv⟩
  · rintro ⟨r, hr, i, hi, hv⟩
    exact ⟨i, ⟨r, hr, hi⟩, hv⟩

/-- The versions before a boundary: below the primary version and on none of
the backport ranges. -/
theorem test_before (b : Boundary) (p : Version) (rs : List VersionRange)
    (hp : parseVersion b.primary.data = some p) (hrs : parseRanges b.backports = some rs) :
    ∃ early, b.before = some early ∧
      ∀ v : Version, VersionRange.test early v = true ↔
        v.lt p = true ∧ ∀ r ∈ rs, VersionRange.test r v = false := by
  refine ⟨rangeMinus (VersionRange.below p) rs.flatten, ?_, fun v => ?_⟩
  · simp only [Boundary.before, hp, hrs]
  · rw [test_rangeMinus, NoDeprecatedApi.VersionRange.test_below]
    have hf : VersionRange.test rs.flatten v = false ↔
        ∀ r ∈ rs, VersionRange.test r v = false := by
      rw [← Bool.not_eq_true, test_flatten]
      simp
    rw [hf]

/-- A single target version could be before a boundary exactly when it is below
the primary version and on none of the backport ranges. -/
theorem couldBeBefore_exact (b : Boundary) (p v : Version) (rs : List VersionRange)
    (hp : parseVersion b.primary.data = some p) (hrs : parseRanges b.backports = some rs) :
    couldBeBefore (VersionRange.exact v) b = true ↔
      v.lt p = true ∧ ∀ r ∈ rs, VersionRange.test r v = false := by
  obtain ⟨early, he, htest⟩ := test_before b p rs hp hrs
  simp only [couldBeBefore, he]
  rw [intersects_exact, htest]

theorem couldBeBefore_exact_false (b : Boundary) (p v : Version) (rs : List VersionRange)
    (hp : parseVersion b.primary.data = some p) (hrs : parseRanges b.backports = some rs) :
    couldBeBefore (VersionRange.exact v) b = false ↔
      v.lt p = false ∨ ∃ r ∈ rs, VersionRange.test r v = true := by
  rw [← Bool.not_eq_true, couldBeBefore_exact b p v rs hp hrs]
  simp only [not_and, not_forall, Bool.not_eq_false]
  constructor
  · intro h
    by_cases hl : v.lt p = true
    · obtain ⟨r, hr, ht⟩ := h hl
      exact Or.inr ⟨r, hr, ht⟩
    · exact Or.inl (by simpa using hl)
  · rintro (h | ⟨r, hr, ht⟩) hl
    · rw [h] at hl; exact absurd hl (by simp)
    · exact ⟨r, hr, ht⟩

/-- The run on one reference with a single target version. -/
theorem run_single (options : Options) (ref : Reference) (v : Version)
    (hv : parseVersion options.version.data = some v) :
    checkUnsupportedBuiltins options [ref] =
      some (checkReference (VersionRange.exact v) options ref).toList := by
  simp only [checkUnsupportedBuiltins, parseRange_of_parseVersion _ v hv]
  cases h : checkReference (VersionRange.exact v) options ref <;>
    simp [List.filterMap_cons, h]

/-- The decision for a reference that is not ignored and to which no
experimental window applies, by its stable introduction. -/
theorem checkReference_stable (target : VersionRange) (options : Options) (ref : Reference)
    (b : Boundary) (hinfo : ref.info.supported = some b)
    (hexp : options.allowExperimental = false ∨ ref.info.experimental = none)
    (hign : unprefixNodeColon (join "." ref.path) ∉ options.ignores) :
    checkReference target options ref =
      if couldBeBefore target b then
        some { node := ref.node, messageId := "not-supported-till",
               data := { name := unprefixNodeColon (join "." ref.path),
                         supported := some b.text, version := options.version } }
      else none := by
  have hnone : (if options.allowExperimental then ref.info.experimental else none) = none := by
    rcases hexp with h | h
    · simp [h]
    · simp [h]
  simp only [checkReference, hign, if_false, hnone, hinfo]

/-- The decision for a reference that is not ignored when the experimental
window applies. -/
theorem checkReference_experimental (target : VersionRange) (options : Options)
    (ref : Reference) (e : Boundary) (hinfo : ref.info.experimental = some e)
    (hexp : options.allowExperimental = true)
    (hign : unprefixNodeColon (join "." ref.path) ∉ options.ignores) :
    checkReference target options ref =
      if couldBeBefore target e then
        some { node := ref.node, messageId := "not-experimental-till",
               data := { name := unprefixNodeColon (join "." ref.path),
                         experimental := some e.text, version := options.version } }
      else none := by
  simp only [checkReference, hign, if_false, hexp, if_true, hinfo]

theorem version_lt_irrefl (v : Version) : v.lt v = false := by
  cases h : v.lt v with
  | false => rfl
  | true =>
    rw [Version.lt_iff] at h
    omega

/-! ## Stable introduction and backports -/

/-- C25. For every tracked API with a stable introduction version and no
backport, a use that is not ignored and to which no experimental window
applies, with a single target version below the introduction version, yields
exactly one `not-supported-till` finding whose data are the canonical name,
`supported` the introduction version and `version` the configured target text;
a target at or above the introduction version yields no finding. -/
theorem stable_introduction (options : Options) (ref : Reference) (P : String)
    (p v : Version)
    (hinfo : ref.info.supported = some { primary := P, backports := [] })
    (hP : parseVersion P.data = some p)
    (hv : parseVersion options.version.data = some v)
    (hexp : options.allowExperimental = false ∨ ref.info.experimental = none)
    (hign : unprefixNodeColon (join "." ref.path) ∉ options.ignores) :
    (v.lt p = true →
      checkUnsupportedBuiltins options [ref] =
        some [{ node := ref.node, messageId := "not-supported-till",
                data := { name := unprefixNodeColon (join "." ref.path),
                          supported := some P, version := options.version } }]) ∧
    (v.lt p = false → checkUnsupportedBuiltins options [ref] = some []) := by
  have hrs : parseRanges ({ primary := P, backports := [] } : Boundary).backports = some [] := rfl
  rw [run_single options ref v hv, checkReference_stable _ options ref _ hinfo hexp hign]
  constructor
  · intro hlt
    rw [if_pos ((couldBeBefore_exact _ p v [] hP hrs).2 ⟨hlt, by simp⟩)]
    rfl
  · intro hge
    rw [if_neg]
    · rfl
    · rw [couldBeBefore_exact _ p v [] hP hrs]
      simp [hge]

/-- C25, at the test cases of `require('assert').deepStrictEqual()`: for 1.1.0 the
finding the test expects, for 4.0.0 none. -/
theorem stable_introduction_witness :
    checkUnsupportedBuiltins { version := "1.1.0" }
        [⟨1, ["assert", "deepStrictEqual"], assertDeepStrictEqual⟩] =
      some [{ node := 1, messageId := "not-supported-till",
              data := { name := "assert.deepStrictEqual", supported := some "1.2.0",
                        version := "1.1.0" } }] ∧
    checkUnsupportedBuiltins { version := "4.0.0" }
        [⟨1, ["assert", "deepStrictEqual"], assertDeepStrictEqual⟩] = some [] ∧
    testDeepStrictEqualInvalid.passes = true ∧ testDeepStrictEqualValid.passes = true :=
  ⟨(stable_introduction { version := "1.1.0" }
      ⟨1, ["assert", "deepStrictEqual"], assertDeepStrictEqual⟩ "1.2.0" ⟨1, 2, 0⟩ ⟨1, 1, 0⟩
      rfl (by decide) (by decide) (Or.inl rfl) (by decide)).1 (by decide),
   (stable_introduction { version := "4.0.0" }
      ⟨1, ["assert", "deepStrictEqual"], assertDeepStrictEqual⟩ "1.2.0" ⟨1, 2, 0⟩ ⟨4, 0, 0⟩
      rfl (by decide) (by decide) (Or.inl rfl) (by decide)).2 (by decide),
   by decide, by decide⟩

/-- C26. For every entry with primary introduction version `P` and a single
backport range `B`, a use that is not ignored and to which no experimental
window applies, with a single target version below `P` and below `B`, is
reported as `not-supported-till` with the supported text exactly
`P (backported: B)`. -/
theorem single_backport_text (options : Options) (ref : Reference) (P B : String)
    (p v : Version) (R : VersionRange)
    (hinfo : ref.info.supported = some { primary := P, backports := [B] })
    (hP : parseVersion P.data = some p) (hB : parseRange B.data = some R)
    (hv : parseVersion options.version.data = some v)
    (hexp : options.allowExperimental = false ∨ ref.info.experimental = none)
    (hign : unprefixNodeColon (join "." ref.path) ∉ options.ignores)
    (hbelowP : v.lt p = true)
    (hbelowB : ∀ w : Version, VersionRange.test R w = true → v.lt w = true) :
    checkUnsupportedBuiltins options [ref] =
      some [{ node := ref.node, messageId := "not-supported-till",
              data := { name := unprefixNodeColon (join "." ref.path),
                        supported := some (P ++ " (backported: " ++ B ++ ")"),
                        version := options.version } }] := by
  have hrs : parseRanges ({ primary := P, backports := [B] } : Boundary).backports =
      some [R] := by
    simp [parseRanges, hB]
  have hnot : VersionRange.test R v = false := by
    cases h : VersionRange.test R v with
    | false => rfl
    | true =>
      have := hbelowB v h
      rw [version_lt_irrefl] at this
      exact absurd this (by simp)
  rw [run_single options ref v hv, checkReference_stable _ options ref _ hinfo hexp hign,
    if_pos ((couldBeBefore_exact _ p v [R] hP hrs).2 ⟨hbelowP, by simpa using hnot⟩)]
  rfl

/-- C26, at the test case of `require('http2')` for 8.3.9. -/
theorem single_backport_text_witness :
    checkUnsupportedBuiltins { version := "8.3.9" } [⟨1, ["http2"], http2⟩] =
      some [{ node := 1, messageId := "not-supported-till",
              data := { name := "http2",
                        supported := some ("10.10.0" ++ " (backported: " ++ "^8.13.0" ++ ")"),
                        version := "8.3.9" } }] ∧
    "10.10.0" ++ " (backported: " ++ "^8.13.0" ++ ")" = "10.10.0 (backported: ^8.13.0)" ∧
    testHttp2Invalid.passes = true :=
  ⟨single_backport_text { version := "8.3.9" } ⟨1, ["http2"], http2⟩ "10.10.0" "^8.13.0"
      ⟨10, 10, 0⟩ ⟨8, 3, 9⟩ (VersionRange.caret ⟨8, 13, 0⟩) rfl (by decide) (by decide)
      (by decide) (Or.inl rfl) (by decide) (by decide)
      (fun w hw => by
        simp only [VersionRange.caret, VersionRange.test, Interval.test] at hw
        simp only [List.any_cons, List.any_nil, Bool.or_false, Bool.and_eq_true,
          Version.le_iff, Version.lt_iff, ne_eq, OfNat.ofNat_ne_zero, not_false_eq_true,
          if_true] at hw
        rw [Version.lt_iff]
        simp only at hw ⊢
        omega),
   by decide, by decide⟩

theorem text_cons (P B : String) (Bs : List String) :
    Boundary.text { primary := P, backports := B :: Bs } =
      P ++ " (backported: " ++ join ", " (B :: Bs) ++ ")" := rfl

theorem backport_infix_text (P : String) (backports : List String) (b : String)
    (hb : b ∈ backports) :
    b.data <:+: (Boundary.text { primary := P, backports := backports }).data := by
  cases backports with
  | nil => simp at hb
  | cons B Bs =>
    rw [text_cons]
    obtain ⟨s, t, hst⟩ := NoDeprecatedApi.data_infix_join ", " (B :: Bs) b hb
    exact ⟨(P ++ " (backported: ").data ++ s, t ++ ")".data, by
      simp [String.data_append, ← hst]⟩

/-- C27. For an entry with several backport ranges, the supported text of the
`not-supported-till` finding is the primary version followed by one
parenthesis that carries all the backport ranges, each an entry of its own, in
declaration order: `P (backported: B1, B2, ...)`. -/
theorem several_backports_text (options : Options) (ref : Reference) (P B : String)
    (Bs : List String) (p v : Version) (rs : List VersionRange)
    (hinfo : ref.info.supported = some { primary := P, backports := B :: Bs })
    (hP : parseVersion P.data = some p) (hrs : parseRanges (B :: Bs) = some rs)
    (hv : parseVersion options.version.data = some v)
    (hexp : options.allowExperimental = false ∨ ref.info.experimental = none)
    (hign : unprefixNodeColon (join "." ref.path) ∉ options.ignores)
    (hbelowP : v.lt p = true)
    (hbelow : ∀ r ∈ rs, VersionRange.test r v = false) :
    checkUnsupportedBuiltins options [ref] =
      some [{ node := ref.node, messageId := "not-supported-till",
              data := { name := unprefixNodeColon (join "." ref.path),
                        supported := some (P ++ " (backported: " ++ join ", " (B :: Bs) ++ ")"),
                        version := options.version } }] ∧
    ∀ b ∈ B :: Bs, b.data <:+: (P ++ " (backported: " ++ join ", " (B :: Bs) ++ ")").data := by
  refine ⟨?_, fun b hb => ?_⟩
  · rw [run_single options ref v hv, checkReference_stable _ options ref _ hinfo hexp hign,
      if_pos ((couldBeBefore_exact _ p v rs hP hrs).2 ⟨hbelowP, hbelow⟩)]
    rfl
  · rw [← text_cons]
    exact backport_infix_text P (B :: Bs) b hb

/-- C27, at the test case of `require('module').builtinModules` for 9.2.9. -/
theorem several_backports_text_witness :
    (checkUnsupportedBuiltins { version := "9.2.9" }
        [⟨1, ["module", "builtinModules"], moduleBuiltinModules⟩] =
      some [{ node := 1, messageId := "not-supported-till",
              data := { name := "module.builtinModules",
                        supported := some ("9.3.0" ++ " (backported: " ++
                          join ", " ["^8.10.0", "^6.13.0"] ++ ")"),
                        version := "9.2.9" } }] ∧
      ∀ b ∈ ["^8.10.0", "^6.13.0"], b.data <:+:
        ("9.3.0" ++ " (backported: " ++ join ", " ["^8.10.0", "^6.13.0"] ++ ")").data) ∧
    "9.3.0" ++ " (backported: " ++ join ", " ["^8.10.0", "^6.13.0"] ++ ")" =
      "9.3.0 (backported: ^8.10.0, ^6.13.0)" ∧
    testBuiltinModulesInvalid.passes = true :=
  ⟨several_backports_text { version := "9.2.9" }
      ⟨1, ["module", "builtinModules"], moduleBuiltinModules⟩ "9.3.0" "^8.10.0" ["^6.13.0"]
      ⟨9, 3, 0⟩ ⟨9, 2, 9⟩ [VersionRange.caret ⟨8, 10, 0⟩, VersionRange.caret ⟨6, 13, 0⟩]
      rfl (by decide) (by decide) (by decide) (Or.inl rfl) (by decide) (by decide)
      (by decide),
   by decide, by decide⟩

/-- C28. For every entry with backport ranges, a use that is not ignored and to
which no experimental window applies yields no finding for a single target
version that satisfies a backport range, also below the primary introduction
version, and a `not-supported-till` finding for a single target version below
the primary version that satisfies no backport range. -/
theorem backport_support (options : Options) (ref : Reference) (b : Boundary)
    (p v : Version) (rs : List VersionRange)
    (hinfo : ref.info.supported = some b)
    (hP : parseVersion b.primary.data = some p) (hrs : parseRanges b.backports = some rs)
    (hv : parseVersion options.version.data = some v)
    (hexp : options.allowExperimental = false ∨ ref.info.experimental = none)
    (hign : unprefixNodeColon (join "." ref.path) ∉ options.ignores) :
    ((∃ r ∈ rs, VersionRange.test r v = true) →
      checkUnsupportedBuiltins options [ref] = some []) ∧
    (v.lt p = true → (∀ r ∈ rs, VersionRange.test r v = false) →
      checkUnsupportedBuiltins options [ref] =
        some [{ node := ref.node, messageId := "not-supported-till",
                data := { name := unprefixNodeColon (join "." ref.path),
                          supported := some b.text, version := options.version } }]) := by
  rw [run_single options ref v hv, checkReference_stable _ options ref _ hinfo hexp hign]
  constructor
  · intro h
    rw [if_neg]
    · rfl
    · rw [Bool.not_eq_true, couldBeBefore_exact_false b p v rs hP hrs]
      exact Or.inr h
  · intro hlt hnone
    rw [if_pos ((couldBeBefore_exact b p v rs hP hrs).2 ⟨hlt, hnone⟩)]
    rfl

/-- C28, at the test cases of the global `Buffer.alloc`: no finding for 4.5.0,
the finding the test expects for 4.4.9. -/
theorem backport_support_witness :
    checkUnsupportedBuiltins { version := "4.5.0" } [⟨1, ["Buffer", "alloc"], bufferAlloc⟩] =
      some [] ∧
    checkUnsupportedBuiltins { version := "4.4.9" } [⟨1, ["Buffer", "alloc"], bufferAlloc⟩] =
      some [{ node := 1, messageId := "not-supported-till",
              data := { name := "Buffer.alloc",
                        supported := some "5.10.0 (backported: ^4.5.0)",
                        version := "4.4.9" } }] ∧
    Version.lt ⟨4, 5, 0⟩ ⟨5, 10, 0⟩ = true ∧
    testBufferAllocValid.passes = true ∧ testBufferAllocInvalid.passes = true :=
  ⟨(backport_support { version := "4.5.0" } ⟨1, ["Buffer", "alloc"], bufferAlloc⟩
      { primary := "5.10.0", backports := ["^4.5.0"] } ⟨5, 10, 0⟩ ⟨4, 5, 0⟩
      [VersionRange.caret ⟨4, 5, 0⟩] rfl (by decide) (by decide) (by decide) (Or.inl rfl)
      (by decide)).1 ⟨_, List.mem_singleton.2 rfl, by decide⟩,
   (backport_support { version := "4.4.9" } ⟨1, ["Buffer", "alloc"], bufferAlloc⟩
      { primary := "5.10.0", backports := ["^4.5.0"] } ⟨5, 10, 0⟩ ⟨4, 4, 9⟩
      [VersionRange.caret ⟨4, 5, 0⟩] rfl (by decide) (by decide) (by decide) (Or.inl rfl)
      (by decide)).2 (by decide) (by decide),
   by decide, by decide, by decide⟩

/-! ## The experimental window -/

/-- C29. For an entry with an experimental boundary `E` and a stable
introduction `S`, and a use that is not ignored: with `allowExperimental` a
single target version at or above the primary version of `E`, or on a backport
range of `E`, yields no finding, and one below `E` and on none of its backport
ranges yields `not-experimental-till` with the text of `E`; without
`allowExperimental` a target version below `S` and on none of its backport
ranges yields `not-supported-till` with the text of `S`. -/
theorem experimental_window (options : Options) (ref : Reference) (E S : Boundary)
    (e s v : Version) (rsE rsS : List VersionRange)
    (hE : ref.info.experimental = some E) (hS : ref.info.supported = some S)
    (he : parseVersion E.primary.data = some e) (hrsE : parseRanges E.backports = some rsE)
    (hs : parseVersion S.primary.data = some s) (hrsS : parseRanges S.backports = some rsS)
    (hv : parseVersion options.version.data = some v)
    (hign : unprefixNodeColon (join "." ref.path) ∉ options.ignores) :
    (options.allowExperimental = true →
      ((v.lt e = false ∨ ∃ r ∈ rsE, VersionRange.test r v = true) →
        checkUnsupportedBuiltins options [ref] = some []) ∧
      (v.lt e = true → (∀ r ∈ rsE, VersionRange.test r v = false) →
        checkUnsupportedBuiltins options [ref] =
          some [{ node := ref.node, messageId := "not-experimental-till",
                  data := { name := unprefixNodeColon (join "." ref.path),
                            experimental := some E.text, version := options.version } }])) ∧
    (options.allowExperimental = false →
      v.lt s = true → (∀ r ∈ rsS, VersionRange.test r v = false) →
        checkUnsupportedBuiltins options [ref] =
          some [{ node := ref.node, messageId := "not-supported-till",
                  data := { name := unprefixNodeColon (join "." ref.path),
                            supported := some S.text, version := options.version } }]) := by
  rw [run_single options ref v hv]
  refine ⟨fun hallow => ⟨fun h => ?_, fun hlt hnone => ?_⟩, fun hallow hlt hnone => ?_⟩
  · rw [checkReference_experimental _ options ref E hE hallow hign, if_neg]
    · rfl
    · rw [Bool.not_eq_true, couldBeBefore_exact_false E e v rsE he hrsE]
      exact h
  · rw [checkReference_experimental _ options ref E hE hallow hign,
      if_pos ((couldBeBefore_exact E e v rsE he hrsE).2 ⟨hlt, hnone⟩)]
    rfl
  · rw [checkReference_stable _ options ref S hS (Or.inl hallow) hign,
      if_pos ((couldBeBefore_exact S s v rsS hs hrsS).2 ⟨hlt, hnone⟩)]
    rfl

/-- C29, at the test cases of the global `fetch`: with `allowExperimental` no
finding for 16.16.0 and `not-experimental-till` for 16.0.0, without it
`not-supported-till` for 16.16.0; and the test cases of `import.meta.resolve`. -/
theorem experimental_window_witness :
    checkUnsupportedBuiltins { version := "16.16.0", allowExperimental := true }
        [⟨1, ["fetch"], fetch⟩] = some [] ∧
    checkUnsupportedBuiltins { version := "16.0.0", allowExperimental := true }
        [⟨1, ["fetch"], fetch⟩] =
      some [{ node := 1, messageId := "not-experimental-till",
              data := { name := "fetch",
                        experimental := some "17.5.0 (backported: ^16.15.0)",
                        version := "16.0.0" } }] ∧
    checkUnsupportedBuiltins { version := "16.16.0", allowExperimental := false }
        [⟨1, ["fetch"], fetch⟩] =
      some [{ node := 1, messageId := "not-supported-till",
              data := { name := "fetch", supported := some "21.0.0", version := "16.16.0" } }] ∧
    testFetchExperimentalValid.passes = true ∧ testFetchExperimentalInvalid.passes = true ∧
    testFetchStableInvalid.passes = true ∧
    (testImportMetaResolveInvalid "13.8.0").passes = true ∧
    (testImportMetaResolveInvalid "12.15.0").passes = true ∧
    (testImportMetaResolveValid "13.9.0").passes = true ∧
    (testImportMetaResolveValid "12.16.2").passes = true :=
  ⟨((experimental_window { version := "16.16.0", allowExperimental := true }
      ⟨1, ["fetch"], fetch⟩ { primary := "17.5.0", backports := ["^16.15.0"] }
      { primary := "21.0.0" } ⟨17, 5, 0⟩ ⟨21, 0, 0⟩ ⟨16, 16, 0⟩
      [VersionRange.caret ⟨16, 15, 0⟩] [] rfl rfl (by decide) (by decide) (by decide)
      (by decide) (by decide) (by decide)).1 rfl).1
      (Or.inr ⟨_, List.mem_singleton.2 rfl, by decide⟩),
   ((experimental_window { version := "16.0.0", allowExperimental := true }
      ⟨1, ["fetch"], fetch⟩ { primary := "17.5.0", backports := ["^16.15.0"] }
      { primary := "21.0.0" } ⟨17, 5, 0⟩ ⟨21, 0, 0⟩ ⟨16, 0, 0⟩
      [VersionRange.caret ⟨16, 15, 0⟩] [] rfl rfl (by decide) (by decide) (by decide)
      (by decide) (by decide) (by decide)).1 rfl).2 (by decide) (by decide),
   (experimental_window { version := "16.16.0", allowExperimental := false }
      ⟨1, ["fetch"], fetch⟩ { primary := "17.5.0", backports := ["^16.15.0"] }
      { primary := "21.0.0" } ⟨17, 5, 0⟩ ⟨21, 0, 0⟩ ⟨16, 16, 0⟩
      [VersionRange.caret ⟨16, 15, 0⟩] [] rfl rfl (by decide) (by decide) (by decide)
      (by decide) (by decide) (by decide)).2 rfl (by decide) (by decide),
   by decide, by decide, by decide, by decide, by decide, by decide, by decide⟩

/-! ## The ignore filter -/

theorem checkReference_ignore_cons (target : VersionRange) (options : Options) (n : String)
    (ref : Reference) :
    checkReference target { options with ignores := n :: options.ignores } ref =
      if unprefixNodeColon (join "." ref.path) = n then none
      else checkReference target options ref := by
  by_cases h : unprefixNodeColon (join "." ref.path) = n
  · simp [checkReference, h]
  · by_cases h2 : unprefixNodeColon (join "." ref.path) ∈ options.ignores
    · simp [checkReference, h, h2]
    · simp [checkReference, h, h2]

/-- C30. For every use whose canonical name is listed in the `ignores` option
the rule yields no finding, whether the module name carries the `node:` prefix
or not; listing a name removes exactly the findings of the references with
that canonical name, so of the findings of a parent and a child name each is
suppressed only by its own name. -/
theorem ignores_filter (options : Options) (references : List Reference) :
    (∀ ref : Reference, unprefixNodeColon (join "." ref.path) ∈ options.ignores →
      checkUnsupportedBuiltins options (ref :: references) =
        checkUnsupportedBuiltins options references) ∧
    (∀ n : String,
      checkUnsupportedBuiltins { options with ignores := n :: options.ignores } references =
        checkUnsupportedBuiltins options
          (references.filter fun r => decide (unprefixNodeColon (join "." r.path) ≠ n))) ∧
    (∀ (m : String) (rest : List String), NoDeprecatedApi.startsWith m "node:" = false →
      unprefixNodeColon (join "." (("node:" ++ m) :: rest)) =
        unprefixNodeColon (join "." (m :: rest))) := by
  refine ⟨fun ref h => ?_, fun n => ?_, fun m rest h => ?_⟩
  · simp only [checkUnsupportedBuiltins]
    cases parseRange options.version.data with
    | none => rfl
    | some target =>
      simp only [List.filterMap_cons]
      have : checkReference target options ref = none := by simp [checkReference, h]
      rw [this]
  · simp only [checkUnsupportedBuiltins]
    cases parseRange options.version.data with
    | none => rfl
    | some target =>
      simp only [Option.some.injEq]
      induction references with
      | nil => rfl
      | cons r rs ih =>
        rw [List.filterMap_cons, checkReference_ignore_cons, ih]
        by_cases hr : unprefixNodeColon (join "." r.path) = n
        · simp [List.filter_cons, hr]
        · simp [List.filter_cons, hr, List.filterMap_cons]
  · rw [NoDeprecatedApi.join_dot_node_cons, NoDeprecatedApi.unprefixNodeColon_append,
      NoDeprecatedApi.unprefixNodeColon_join_of_not_startsWith m rest h]

/-- C30, at the test cases: `require('node:assert').match()` with `assert.match`
ignored, whatever its record; `assert.strict` and `assert.strict.rejects`, with
both ignored, with none, and with one of the two. -/
theorem ignores_filter_witness :
    (∀ info : SupportInfo,
      checkUnsupportedBuiltins { version := "15.0.0", ignores := ["assert.match"] }
        [⟨1, ["node:assert", "match"], info⟩] =
      checkUnsupportedBuiltins { version := "15.0.0", ignores := ["assert.match"] } []) ∧
    (∀ info : SupportInfo, (testNodeAssertMatchIgnored info).passes = true) ∧
    testStrictRejectsIgnored.passes = true ∧ testStrictRejectsInvalid.passes = true ∧
    (checkUnsupportedBuiltins { version := "9.8.9", ignores := ["assert.strict"] }
        testStrictRejectsInvalid.references).map (fun ds => ds.map fun d => d.data.name) =
      some ["assert.strict.rejects"] ∧
    (checkUnsupportedBuiltins { version := "9.8.9", ignores := ["assert.strict.rejects"] }
        testStrictRejectsInvalid.references).map (fun ds => ds.map fun d => d.data.name) =
      some ["assert.strict"] :=
  ⟨fun info => (ignores_filter { version := "15.0.0", ignores := ["assert.match"] } []).1
      ⟨1, ["node:assert", "match"], info⟩
      (by show unprefixNodeColon (join "." ["node:assert", "match"]) ∈ ["assert.match"]; decide),
   fun info => by
     have h := (ignores_filter { version := "15.0.0", ignores := ["assert.match"] } []).1
       ⟨1, ["node:assert", "match"], info⟩
       (by show unprefixNodeColon (join "." ["node:assert", "match"]) ∈ ["assert.match"]; decide)
     simp only [TestCase.passes, testNodeAssertMatchIgnored, h]
     decide,
   by decide, by decide, by decide, by decide⟩

/-! ## The outcomes of the engine -/

/-- The decision for one reference is no finding or one finding of one of three
kinds, with the data of its kind. -/
theorem checkReference_classified (target : VersionRange) (options : Options)
    (ref : Reference) :
    checkReference target options ref = none ∨
    ∃ d, checkReference target options ref = some d ∧ d.node = ref.node ∧
      d.data.name = unprefixNodeColon (join "." ref.path) ∧
      d.data.version = options.version ∧
      ((d.messageId = "not-supported-till" ∧
          ∃ b, ref.info.supported = some b ∧ couldBeBefore target b = true ∧
            d.data.supported = some b.text ∧ d.data.experimental = none) ∨
       (d.messageId = "not-experimental-till" ∧ options.allowExperimental = true ∧
          ∃ b, ref.info.experimental = some b ∧ couldBeBefore target b = true ∧
            d.data.experimental = some b.text ∧ d.data.supported = none) ∨
       (d.messageId = "not-supported-yet" ∧ ref.info.supported = none ∧
          d.data.supported = none ∧ d.data.experimental = none)) := by
  unfold checkReference
  by_cases hign : unprefixNodeColon (join "." ref.path) ∈ options.ignores
  · exact Or.inl (by simp [hign])
  · simp only [hign, if_false]
    cases hexp : (if options.allowExperimental then ref.info.experimental else none) with
    | some e =>
      have hallow : options.allowExperimental = true ∧ ref.info.experimental = some e := by
        by_cases ha : options.allowExperimental = true
        · simpa [ha] using hexp
        · simp [ha] at hexp
      by_cases hc : couldBeBefore target e = true
      · simp only [hc, if_true]
        exact Or.inr ⟨_, rfl, rfl, rfl, rfl,
          Or.inr (Or.inl ⟨rfl, hallow.1, e, hallow.2, hc, rfl, rfl⟩)⟩
      · exact Or.inl (by simp [hc])
    | none =>
      cases hs : ref.info.supported with
      | some b =>
        by_cases hc : couldBeBefore target b = true
        · simp only [hc, if_true]
          exact Or.inr ⟨_, rfl, rfl, rfl, rfl, Or.inl ⟨rfl, b, rfl, hc, rfl, rfl⟩⟩
        · exact Or.inl (by simp [hc])
      | none =>
        exact Or.inr ⟨_, rfl, rfl, rfl, rfl, Or.inr (Or.inr ⟨rfl, rfl, rfl, rfl⟩)⟩

/-- C31, as stated, fails: the tests expect for `require('trace_events')` with
target 9.9.9, and for `new CallTracker()` of `assert` with target 14.2.0, a
finding `not-supported-yet` whose data hold the name and the configured
version, and neither an introduction version nor an experimental boundary. The
engine produces it for the record with no stable introduction, whatever its
experimental boundary; with a record that has a stable introduction the test
case fails. -/
theorem outcome_set_counterexample :
    (testTraceEventsInvalid none).passes = true ∧
    (testCallTrackerInvalid none).passes = true ∧
    checkUnsupportedBuiltins { version := "9.9.9" } [⟨1, ["trace_events"], traceEvents none⟩] =
      some [{ node := 1, messageId := "not-supported-yet",
              data := { name := "trace_events", supported := none, experimental := none,
                        version := "9.9.9" } }] ∧
    (∀ e : Option Boundary, (testTraceEventsInvalid e).passes = true ∧
      (testCallTrackerInvalid e).passes = true) ∧
    (∀ b : Boundary, ({ (testTraceEventsInvalid none) with
        references := [⟨1, ["trace_events"], { supported := some b }⟩] } : TestCase).passes =
      false) := by
  refine ⟨by decide, by decide, by decide, fun e => ⟨rfl, rfl⟩, fun b => ?_⟩
  have hrun := run_single { version := "9.9.9" } ⟨1, ["trace_events"], { supported := some b }⟩
    ⟨9, 9, 9⟩ (by decide)
  have hst := checkReference_stable (VersionRange.exact ⟨9, 9, 9⟩) { version := "9.9.9" }
    ⟨1, ["trace_events"], { supported := some b }⟩ b rfl (Or.inl rfl)
    (by show unprefixNodeColon (join "." ["trace_events"]) ∉ []; decide)
  simp only [TestCase.passes, testTraceEventsInvalid]
  rw [hrun, hst]
  by_cases hc : couldBeBefore (VersionRange.exact ⟨9, 9, 9⟩) b = true
  · rw [if_pos hc]
    simp
  · rw [if_neg hc]
    simp

/-- C31, amended. With a configured version that parses, the rule yields for
every reference exactly one of four outcomes: no finding; a finding
`not-supported-till` that carries the text of the stable introduction the
record has, the target range possibly holding a version before it; a finding
`not-experimental-till` that carries the text of the experimental boundary the
record has, with `allowExperimental` on and the target range possibly holding a
version before it; or a finding `not-supported-yet` that carries neither, the
record having no stable introduction. The findings of a run are those of its
references, in order, and the three message ids differ from one another. -/
theorem outcome_set (options : Options) (references : List Reference) (target : VersionRange)
    (hparse : parseRange options.version.data = some target) :
    checkUnsupportedBuiltins options references =
      some (references.filterMap (checkReference target options)) ∧
    (∀ ref : Reference,
      checkReference target options ref = none ∨
      ∃ d, checkReference target options ref = some d ∧ d.node = ref.node ∧
        d.data.name = unprefixNodeColon (join "." ref.path) ∧
        d.data.version = options.version ∧
        ((d.messageId = "not-supported-till" ∧
            ∃ b, ref.info.supported = some b ∧ couldBeBefore target b = true ∧
              d.data.supported = some b.text ∧ d.data.experimental = none) ∨
         (d.messageId = "not-experimental-till" ∧ options.allowExperimental = true ∧
            ∃ b, ref.info.experimental = some b ∧ couldBeBefore target b = true ∧
              d.data.experimental = some b.text ∧ d.data.supported = none) ∨
         (d.messageId = "not-supported-yet" ∧ ref.info.supported = none ∧
            d.data.supported = none ∧ d.data.experimental = none))) ∧
    (∀ d ∈ references.filterMap (checkReference target options),
      d.messageId ∈ ["not-supported-till", "not-experimental-till", "not-supported-yet"]) ∧
    ["not-supported-till", "not-experimental-till", "not-supported-yet"].Nodup := by
  refine ⟨by simp only [checkUnsupportedBuiltins, hparse],
    checkReference_classified target options, fun d hd => ?_, by decide⟩
  obtain ⟨ref, _, href⟩ := List.mem_filterMap.1 hd
  rcases checkReference_classified target options ref with h | ⟨d', hd', _, _, _, hcls⟩
  · rw [h] at href
    exact absurd href (by simp)
  · rw [hd'] at href
    cases href
    rcases hcls with h | h | h
    · simp [h.1]
    · simp [h.1]
    · simp [h.1]

/-- C31, amended, at target 9.9.9 with references to `trace_events`, to
`Buffer.alloc` and to `http2`: a `not-supported-yet` finding, no finding and a
`not-supported-till` finding. -/
theorem outcome_set_witness :
    checkUnsupportedBuiltins { version := "9.9.9" }
        [⟨1, ["trace_events"], traceEvents none⟩, ⟨2, ["Buffer", "alloc"], bufferAlloc⟩,
         ⟨3, ["http2"], http2⟩] =
      some ([⟨1, ["trace_events"], traceEvents none⟩, ⟨2, ["Buffer", "alloc"], bufferAlloc⟩,
         ⟨3, ["http2"], http2⟩].filterMap
        (checkReference (VersionRange.exact ⟨9, 9, 9⟩) { version := "9.9.9" })) ∧
    (checkUnsupportedBuiltins { version := "9.9.9" }
        [⟨1, ["trace_events"], traceEvents none⟩, ⟨2, ["Buffer", "alloc"], bufferAlloc⟩,
         ⟨3, ["http2"], http2⟩]).map (fun ds => ds.map fun d => (d.node, d.messageId)) =
      some [(1, "not-supported-yet"), (3, "not-supported-till")] :=
  ⟨(outcome_set { version := "9.9.9" }
      [⟨1, ["trace_events"], traceEvents none⟩, ⟨2, ["Buffer", "alloc"], bufferAlloc⟩,
       ⟨3, ["http2"], http2⟩]
      (VersionRange.exact ⟨9, 9, 9⟩) (by decide)).1,
   by decide⟩

/-! ## The two spellings of a module -/

theorem checkReference_node_spelling (target : VersionRange) (options : Options) (m : String)
    (rest : List String) (node : Nat) (info : SupportInfo)
    (hm : NoDeprecatedApi.startsWith m "node:" = false) :
    checkReference target options ⟨node, ("node:" ++ m) :: rest, info⟩ =
      checkReference target options ⟨node, m :: rest, info⟩ := by
  have hname : unprefixNodeColon (join "." (("node:" ++ m) :: rest)) =
      unprefixNodeColon (join "." (m :: rest)) := by
    rw [NoDeprecatedApi.join_dot_node_cons, NoDeprecatedApi.unprefixNodeColon_append,
      NoDeprecatedApi.unprefixNodeColon_join_of_not_startsWith m rest hm]
  simp only [checkReference, hname]

/-- C32, as stated, fails: for target 3.9.9 the spelling
`require('node:assert').deepStrictEqual()` yields the finding the test expects,
named `assert` and supported since `14.13.1 (backported: ^12.20.0)`, and the
spelling `require('assert').deepStrictEqual()` yields none. The entry
`node:assert` has a record of its own: without it the test of the `node:`
spelling fails, and with it on the bare spelling the test of the bare spelling
for 1.1.0 fails. -/
theorem node_spelling_findings_counterexample :
    testNodeAssertInvalid.passes = true ∧
    testDeepStrictEqualInvalid.passes = true ∧
    testNodeAssertInvalid.code = "require('node:assert').deepStrictEqual()" ∧
    testDeepStrictEqualInvalid.code = "require('assert').deepStrictEqual()" ∧
    checkUnsupportedBuiltins { version := "3.9.9" } testNodeAssertInvalid.references =
      some [{ node := 1, messageId := "not-supported-till",
              data := { name := "assert",
                        supported := some "14.13.1 (backported: ^12.20.0)",
                        version := "3.9.9" } }] ∧
    checkUnsupportedBuiltins { version := "3.9.9" } testDeepStrictEqualInvalid.references =
      some [] ∧
    ({ testDeepStrictEqualInvalid with
        references := ⟨0, ["assert"], nodeAssert⟩ :: testDeepStrictEqualInvalid.references } :
      TestCase).passes = false ∧
    ({ testNodeAssertInvalid with
        references := [⟨2, ["node:assert", "deepStrictEqual"], assertDeepStrictEqual⟩] } :
      TestCase).passes = false := by
  decide

/-- C32, amended. For every target range and all options, a reference through
a name spelled with the `node:` prefix and the reference through the bare
spelling that carries the same record produce the same outcome: the same
finding, under the same canonical name, or none. So the references of a use
through the bare spelling and those through the `node:` spelling, record by
record the same, yield the same findings; the findings of the two spellings
differ where the registry gives the `node:` spelling a record of its own, as it
does for `node:assert`. -/
theorem node_spelling_same_record (options : Options) (m : String)
    (hm : NoDeprecatedApi.startsWith m "node:" = false) :
    (∀ (target : VersionRange) (rest : List String) (node : Nat) (info : SupportInfo),
      checkReference target options ⟨node, ("node:" ++ m) :: rest, info⟩ =
        checkReference target options ⟨node, m :: rest, info⟩) ∧
    (∀ members : List Reference, (∀ r ∈ members, r.path.head? = some m) →
      checkUnsupportedBuiltins options
          (members.map fun r => { r with path := ("node:" ++ m) :: r.path.tail }) =
        checkUnsupportedBuiltins options members) := by
  refine ⟨fun target rest node info => checkReference_node_spelling target options m rest node
    info hm, fun members hmem => ?_⟩
  simp only [checkUnsupportedBuiltins]
  cases parseRange options.version.data with
  | none => rfl
  | some target =>
    simp only [Option.some.injEq]
    induction members with
    | nil => rfl
    | cons r rs ih =>
      have hr : r.path = m :: r.path.tail := by
        have := hmem r (List.mem_cons_self _ _)
        cases hp : r.path with
        | nil => rw [hp] at this; simp at this
        | cons a as =>
          rw [hp] at this
          simp only [List.head?_cons, Option.some.injEq] at this
          simp [this]
      have hcheck : checkReference target options
          { r with path := ("node:" ++ m) :: r.path.tail } = checkReference target options r := by
        rw [checkReference_node_spelling target options m r.path.tail r.node r.info hm, ← hr]
      rw [List.map_cons, List.filterMap_cons, List.filterMap_cons, hcheck,
        ih fun r' hr' => hmem r' (List.mem_cons_of_mem _ hr')]

/-- C32, amended, at `assert.deepStrictEqual` for target 1.1.0 through both
spellings, and at the valid test case of `node:assert` for 12.20.0. -/
theorem node_spelling_same_record_witness :
    checkReference (VersionRange.exact ⟨1, 1, 0⟩) { version := "1.1.0" }
        ⟨1, ("node:" ++ "assert") :: ["deepStrictEqual"], assertDeepStrictEqual⟩ =
      checkReference (VersionRange.exact ⟨1, 1, 0⟩) { version := "1.1.0" }
        ⟨1, "assert" :: ["deepStrictEqual"], assertDeepStrictEqual⟩ ∧
    checkReference (VersionRange.exact ⟨1, 1, 0⟩) { version := "1.1.0" }
        ⟨1, ["node:assert", "deepStrictEqual"], assertDeepStrictEqual⟩ =
      some { node := 1, messageId := "not-supported-till",
             data := { name := "assert.deepStrictEqual", supported := some "1.2.0",
                       version := "1.1.0" } } ∧
    checkUnsupportedBuiltins { version := "1.1.0" }
        ([(⟨1, ["assert", "deepStrictEqual"], assertDeepStrictEqual⟩ : Reference)].map fun r =>
          { r with path := ("node:" ++ "assert") :: r.path.tail }) =
      checkUnsupportedBuiltins { version := "1.1.0" }
        [⟨1, ["assert", "deepStrictEqual"], assertDeepStrictEqual⟩] ∧
    testNodeAssertValid.passes = true :=
  ⟨(node_spelling_same_record { version := "1.1.0" } "assert" (by decide)).1
      (VersionRange.exact ⟨1, 1, 0⟩) ["deepStrictEqual"] 1 assertDeepStrictEqual,
   by decide,
   (node_spelling_same_record { version := "1.1.0" } "assert" (by decide)).2
      [⟨1, ["assert", "deepStrictEqual"], assertDeepStrictEqual⟩] (by decide),
   by decide⟩

end NodeBuiltins

namespace NoExtraneousImport

theorem traverse_nil {Report : Type} (visited : List (String × Nat)) :
    traverse ([] : RuleListener (Nat → List Report → List Report)) visited = [] := by
  unfold traverse
  induction visited with
  | nil => rfl
  | cons e es ih => simp [ih]

/-- C39. The file name `create` uses is `context.filename` when that is defined
and the result of `context.getFilename()` otherwise. When it is exactly
`<input>`, `create` returns the empty object: no visitor is registered, and a
traversal with it makes no report. For every other file name `create` returns
the listener of `visitImport`, called with the context, the empty options
object and the callback that passes the targets to `checkExtraneous` with the
context and the file name. -/
theorem create_input {Handler Targets Effect : Type}
    (visitImport : Context → Unit → (Targets → Effect) → RuleListener Handler)
    (checkExtraneous : Context → String → Targets → Effect) (context : Context) :
    (∀ filename : String, context.filename = some filename → filePath context = filename) ∧
    (context.filename = none → filePath context = context.getFilename ()) ∧
    (filePath context = "<input>" → create visitImport checkExtraneous context = []) ∧
    (filePath context ≠ "<input>" →
      create visitImport checkExtraneous context =
        visitImport context () (fun targets => checkExtraneous context (filePath context)
          targets)) ∧
    (∀ (Report : Type)
        (visit : Context → Unit → (Targets → Effect) →
          RuleListener (Nat → List Report → List Report))
        (visited : List (String × Nat)),
      filePath context = "<input>" →
        traverse (create visit checkExtraneous context) visited = []) := by
  refine ⟨fun filename h => ?_, fun h => ?_, fun h => ?_, fun h => ?_, fun R v visited h => ?_⟩
  · simp [filePath, h]
  · simp [filePath, h]
  · simp [create, h]
  · simp [create, h]
  · simp [create, h, traverse_nil]

/-- C39, at four contexts, with a `visitImport` whose listener has the one
selector `ImportDeclaration`: the file name `<input>` from `context.filename`
and from `context.getFilename()` gives the empty object; the file name
`/project/a.js` and the empty file name, which is defined, give the listener. -/
theorem create_input_witness :
    create (fun _ _ _ => [("ImportDeclaration", ())]) (fun _ _ (_ : Unit) => ())
        ⟨some "<input>", fun _ => "/project/a.js"⟩ = [] ∧
    create (fun _ _ _ => [("ImportDeclaration", ())]) (fun _ _ (_ : Unit) => ())
        ⟨none, fun _ => "<input>"⟩ = [] ∧
    create (fun _ _ _ => [("ImportDeclaration", ())]) (fun _ _ (_ : Unit) => ())
        ⟨some "/project/a.js", fun _ => "<input>"⟩ = [("ImportDeclaration", ())] ∧
    create (fun _ _ _ => [("ImportDeclaration", ())]) (fun _ _ (_ : Unit) => ())
        ⟨some "", fun _ => "<input>"⟩ = [("ImportDeclaration", ())] :=
  ⟨(create_input (fun _ _ _ => [("ImportDeclaration", ())]) (fun _ _ (_ : Unit) => ())
      ⟨some "<input>", fun _ => "/project/a.js"⟩).2.2.1 (by decide),
   (create_input (fun _ _ _ => [("ImportDeclaration", ())]) (fun _ _ (_ : Unit) => ())
      ⟨none, fun _ => "<input>"⟩).2.2.1 (by decide),
   (create_input (fun _ _ _ => [("ImportDeclaration", ())]) (fun _ _ (_ : Unit) => ())
      ⟨some "/project/a.js", fun _ => "<input>"⟩).2.2.2.1 (by decide),
   (create_input (fun _ _ _ => [("ImportDeclaration", ())]) (fun _ _ (_ : Unit) => ())
      ⟨some "", fun _ => "<input>"⟩).2.2.2.1 (by decide)⟩

end NoExtraneousImport
